import Mathlib

/-!
# Decision maker: state machine engine, stop-marker search, mission validation

A shallow embedding of the decision-maker node
(`decision_maker_node_state_motion.cpp`, `decision_maker_node_callback.cpp`,
`decision_maker_node_init.cpp`).

Conventions of the embedding

* `double` values are exact rationals (`ℚ`); rounding, infinities and NaN are
  not modelled.
* `int` / `int32` values are mathematical integers (`Int`); where the source casts
  to `unsigned int` the value is reduced modulo `2 ^ 32` explicitly.
* `uint8` message fields are natural numbers.
* `std::vector` is `List`; `at(i)` is a lookup that faults (`none`) out of range.
* Code that can fault (`at`, `back` on an empty vector) or that loops over a
  container it mutates returns an `Option`; loops over a mutated container take
  an explicit fuel and return `none` when it runs out.
* Helpers that live outside the embedded files (`amathutils`, the vector map,
  the lanelet2 queries, `CrossRoadArea::isInsideArea`, ...) are fields of the
  parameter records `Amathutils` and `MapQueries`.
-/

namespace decision_maker

/-! ## Messages -/

/-- The type `geometry_msgs::Point`. -/
structure Point where
  x : ℚ
  y : ℚ
  z : ℚ
deriving DecidableEq, Repr

/-- The type `geometry_msgs::Quaternion`. -/
structure Quaternion where
  x : ℚ
  y : ℚ
  z : ℚ
  w : ℚ
deriving DecidableEq, Repr

/-- The type `geometry_msgs::Pose`. -/
structure Pose where
  position : Point
  orientation : Quaternion
deriving DecidableEq, Repr

/-- Constant `autoware_msgs::WaypointState::NULLSTATE`; the source also writes it as
the literal `0` (`get_stopsign.first != 0`, `steering_state == 0`). -/
def NULLSTATE : Nat := 0

/-- Modelled from the spec: constant `WaypointState::STR_LEFT` of the message
definition, which is not among the embedded files. -/
def STR_LEFT : Nat := 1

/-- Modelled from the spec: constant `WaypointState::STR_RIGHT` of the message
definition, which is not among the embedded files. -/
def STR_RIGHT : Nat := 2

/-- Modelled from the spec: constant `WaypointState::STR_STRAIGHT` of the message
definition, which is not among the embedded files. -/
def STR_STRAIGHT : Nat := 3

/-- Modelled from the spec: constant `WaypointState::TYPE_STOPLINE` of the message
definition, which is not among the embedded files. -/
def TYPE_STOPLINE : Nat := 1

/-- Modelled from the spec: constant `WaypointState::TYPE_STOP` of the message
definition, which is not among the embedded files. -/
def TYPE_STOP : Nat := 2

/-- Modelled from the spec: constant `WaypointState::TYPE_EVENT_GOAL` of the message
definition, which is not among the embedded files. -/
def TYPE_EVENT_GOAL : Nat := 1

/-- The type `autoware_msgs::WaypointState`. -/
structure WaypointState where
  aid : Int
  lanechange_state : Nat
  steering_state : Nat
  accel_state : Nat
  stop_state : Nat
  event_state : Nat
deriving DecidableEq, Repr

/-- The type `autoware_msgs::Waypoint`: the fields the node reads or writes.
`twist_linear_x` is `twist.twist.linear.x`, `pose` is `pose.pose`. -/
structure Waypoint where
  gid : Int
  lid : Int
  pose : Pose
  twist_linear_x : ℚ
  wpstate : WaypointState
deriving DecidableEq, Repr

/-- The type `autoware_msgs::Lane`. -/
structure Lane where
  waypoints : List Waypoint
deriving DecidableEq, Repr

/-- The type `autoware_msgs::LaneArray`. -/
structure LaneArray where
  id : Int
  lanes : List Lane
deriving DecidableEq, Repr

/-! ## State machine engine -/

/-- The lifecycle phases `state_machine::CallbackType`. -/
inductive CallbackType where
  | ENTRY
  | UPDATE
  | EXIT
deriving DecidableEq, Repr

/-- Modelled from the spec: a transition `(source state, trigger name) → target state`
of the state machine library, whose sources are not among the embedded files. -/
structure Transition where
  source : String
  trigger : String
  target : String
deriving DecidableEq, Repr

/-- Modelled from the spec: a context of the state machine library (not among the
embedded files). It owns a state graph and one current state; `callbacks` gives the
handler registered for a phase and a state (`none`: no handler, treated as empty);
`calls` records every callback invocation in order. `W` is the world the handlers
act on. -/
structure StateContext (W : Type) where
  transitions : List Transition
  callbacks : CallbackType → String → Option (W → W)
  current : String
  calls : List (CallbackType × String)

/-- Modelled from the spec: invoking the handler of `phase` for `state`; a missing
handler is tolerated and treated as an empty handler. -/
def StateContext.invoke {W : Type} (ctx : StateContext W) (phase : CallbackType)
    (state : String) (w : W) : StateContext W × W :=
  match ctx.callbacks phase state with
  | some h => ({ ctx with calls := ctx.calls ++ [(phase, state)] }, h w)
  | none => (ctx, w)

/-- Modelled from the spec: the lookup of a transition from the current state keyed
by the trigger. -/
def StateContext.findTransition {W : Type} (ctx : StateContext W) (trigger : String) :
    Option Transition :=
  ctx.transitions.find? (fun t => t.source == ctx.current && t.trigger == trigger)

/-- Modelled from the spec: `tryNextState(trigger)` of the state machine library (not
among the embedded files). "Looks up a transition from the current state keyed by
`trigger`. If found: invoke current state's EXIT, switch current state, invoke new
state's ENTRY. If not found: no state change, no callback invoked." -/
def StateContext.tryNextState {W : Type} (ctx : StateContext W) (trigger : String)
    (w : W) : StateContext W × W :=
  match ctx.findTransition trigger with
  | some t =>
    let r1 := ctx.invoke CallbackType.EXIT ctx.current w
    let ctx2 := { r1.1 with current := t.target }
    ctx2.invoke CallbackType.ENTRY t.target r1.2
  | none => (ctx, w)

/-- The handler `DecisionMakerNode::callbackFromStateCmd`: the command string
`msg.data` is forwarded to `tryNextState` unchanged. -/
def callbackFromStateCmd {W : Type} (ctx : StateContext W) (msg_data : String) (w : W) :
    StateContext W × W :=
  ctx.tryNextState msg_data w

/-- Requesting a sequence of triggers one after the other. -/
def StateContext.tryNextStates {W : Type} (ctx : StateContext W) (triggers : List String)
    (w : W) : StateContext W × W :=
  triggers.foldl (fun r t => r.1.tryNextState t r.2) (ctx, w)

/-! ## The node -/

/-- The world snapshot `current_status_`. `velocity` is in km/h
(`callbackFromCurrentVelocity` stores `mps2kmph` of the measured speed). -/
structure CurrentStatus where
  pose : Pose
  velocity : ℚ
  closest_waypoint : Int
  obstacle_waypoint : Int
  stopline_waypoint : Int
  found_stopsign_idx : Int
  ordered_stop_idx : Int
  prev_stopped_wpidx : Int
  prev_ordered_idx : Int
  change_flag : Int
  finalwaypoints : Lane
  based_lane_array : LaneArray
  using_lane_array : LaneArray
deriving DecidableEq, Repr

/-- What the node hands to a publisher of `Pubs`. -/
inductive Message where
  | laneArray (msg : LaneArray)
  | int32 (data : Int)
  | text (data : String)
  | vehicleLocation (lane_array_id : Int) (waypoint_index : Int)
deriving DecidableEq, Repr

/-- The class `CrossRoadArea`: `points` is the polygon built by `initVectorMap`,
`bbox_orientation` is `bbox.pose.orientation`; `insideLanes` and
`insideWaypoint_points` are appended to by `insertPointWithinCrossRoad`. -/
structure CrossRoadArea where
  id : Int
  area_id : Int
  points : List Point
  bbox_orientation : Quaternion
  insideLanes : List Lane
  insideWaypoint_points : List Point
deriving DecidableEq, Repr

/-- The members of `DecisionMakerNode` that the embedded functions read or write.
`flags` is the event-flag store (the last entry for a key wins), `published` the
messages handed to `Pubs[key].publish` in order, `subscribed` the keys of `Subs` that
are registered, `requested` the keys passed to `tryNextState` in order.
`stopline_reset_count_` is declared in a header that is not among the embedded files;
it is compared with an `unsigned int`, so its value enters modulo `2 ^ 32`. -/
structure DecisionMakerNode where
  current_status_ : CurrentStatus
  intersects : List CrossRoadArea
  flags : List (String × Bool)
  use_lanelet_map_ : Bool
  insert_stop_line_wp_ : Bool
  change_threshold_dist_ : ℚ
  change_threshold_angle_ : ℚ
  stopline_reset_count_ : Int
  published : List (String × Message)
  subscribed : List String
  requested : List String
deriving DecidableEq, Repr

/-- The helpers of `amathutils` that the embedded functions call. Their definitions
are not among the embedded files, so they are parameters. `getIntersect` returns the
point it writes through its out-parameter when it returns `true`, and `none` when it
returns `false`. -/
structure Amathutils where
  kmph2mps : ℚ → ℚ
  find_distance_pose : Pose → Pose → ℚ
  find_distance : Point → Point → ℚ
  isIntersectLine : Point → Point → Point → Point → Bool
  isPointLeftFromLine : Point → Point → Point → Int
  getIntersect : Point → Point → Point → Point → Option Point
  getNearPtOnLine : Point → Point → Point → Point
  calcPosesAngleDiffDeg : Pose → Pose → ℚ

/-- The call `DecisionMakerNode::tryNextState(key)` as seen from a handler: the
request is recorded. The function itself and the transition tables are defined outside
the embedded files; a handler that goes on after a request is modelled as reading the
snapshot it had before the request. -/
def DecisionMakerNode.tryNextState (n : DecisionMakerNode) (key : String) :
    DecisionMakerNode :=
  { n with requested := n.requested ++ [key] }

/-- The call `Pubs[key].publish(msg)`. -/
def DecisionMakerNode.publish (n : DecisionMakerNode) (key : String) (msg : Message) :
    DecisionMakerNode :=
  { n with published := n.published ++ [(key, msg)] }

/-! ## Stop-marker search (`decision_maker_node_state_motion.cpp`) -/

/-- The local `mu` of `getStopSignStateFromWaypoint`. -/
def mu : ℚ := 7 / 10

/-- The local `g` of `getStopSignStateFromWaypoint`. -/
def g : ℚ := 980665 / 100000

/-- The local `margin` of `getStopSignStateFromWaypoint`. -/
def margin : ℚ := 5

/-- The local `reaction_time` of `getStopSignStateFromWaypoint`. -/
def reaction_time : ℚ := 3 / 10 + margin

/-- The local `distance_to_target` of `getStopSignStateFromWaypoint`, as a function of
the local `velocity` (m/s). -/
def distance_to_target (velocity : ℚ) : ℚ :=
  let free_running_distance := reaction_time * velocity
  let braking_distance := velocity * velocity / (2 * g * mu)
  (free_running_distance + braking_distance) * 2

/-- The conversion `(unsigned int) x` of an `int`. -/
def to_unsigned_int (x : Int) : Int := x % 4294967296

/-- The condition of the "reset previous stop sign waypoint" step, for the gid of
`finalwaypoints.waypoints.at(1)`. -/
def resetCondition (gid1 prev_stopped_wpidx stopline_reset_count_ : Int) : Bool :=
  decide (gid1 > prev_stopped_wpidx) ||
    decide (to_unsigned_int (prev_stopped_wpidx - gid1) > to_unsigned_int stopline_reset_count_)

/-- The `for` loop of `getStopSignStateFromWaypoint` over the waypoints it still has
to visit; `distance` and `prev_pose` are the locals of that name. -/
def scanStopSign (A : Amathutils) (prev_stopped_wpidx : Int) (target : ℚ) :
    List Waypoint → ℚ → Pose → Nat × Int
  | [], _, _ => (NULLSTATE, -1)
  | current_wpt :: rest, distance, prev_pose =>
    let distance := distance + A.find_distance_pose prev_pose current_wpt.pose
    if current_wpt.wpstate.stop_state ≠ NULLSTATE ∧ prev_stopped_wpidx ≠ current_wpt.gid then
      (current_wpt.wpstate.stop_state, current_wpt.gid)
    else if distance > target then
      (NULLSTATE, -1)
    else
      scanStopSign A prev_stopped_wpidx target rest distance current_wpt.pose

/-- The function `DecisionMakerNode::getStopSignStateFromWaypoint`. The first match
arm is the case `waypoints.size() >= 3` (`w1` is `waypoints.at(1)`; the loop visits the
indices `1 .. size() - 2`, which are `(waypoints.drop 1).dropLast`); the second is the
early return for `size() < 3`. -/
def getStopSignStateFromWaypoint (A : Amathutils) (n : DecisionMakerNode) :
    (Nat × Int) × DecisionMakerNode :=
  let velocity := A.kmph2mps n.current_status_.velocity
  let target := distance_to_target velocity
  match n.current_status_.finalwaypoints.waypoints with
  | _ :: w1 :: _ :: _ =>
    let prev :=
      if resetCondition w1.gid n.current_status_.prev_stopped_wpidx n.stopline_reset_count_
      then -1 else n.current_status_.prev_stopped_wpidx
    let n1 := { n with current_status_.prev_stopped_wpidx := prev }
    (scanStopSign A prev target
      ((n.current_status_.finalwaypoints.waypoints.drop 1).dropLast) 0
      n.current_status_.pose, n1)
  | _ => ((NULLSTATE, -1), n)

/-- The handler `DecisionMakerNode::updateStopState`. -/
def updateStopState (A : Amathutils) (n : DecisionMakerNode) : DecisionMakerNode :=
  let obstacle_waypoint_gid :=
    n.current_status_.obstacle_waypoint + n.current_status_.closest_waypoint
  let r := getStopSignStateFromWaypoint A n
  let get_stopsign := r.1
  let n1 :=
    if get_stopsign.1 ≠ 0 then
      { r.2 with current_status_.found_stopsign_idx := get_stopsign.2 }
    else r.2
  let n2 :=
    if n1.current_status_.obstacle_waypoint ≠ -1 then
      if (n1.current_status_.found_stopsign_idx ≠ -1 ∧
            n1.current_status_.found_stopsign_idx ≥ obstacle_waypoint_gid) ∨
          (n1.current_status_.ordered_stop_idx ≠ -1 ∧
            n1.current_status_.ordered_stop_idx ≥ obstacle_waypoint_gid) then
        n1.tryNextState "clear"
      else n1
    else n1
  if get_stopsign.1 ≠ 0 ∧ n2.current_status_.found_stopsign_idx ≠ -1 ∧
      (n2.current_status_.ordered_stop_idx = -1 ∨
        n2.current_status_.found_stopsign_idx < n2.current_status_.ordered_stop_idx) then
    if get_stopsign.1 = TYPE_STOPLINE then n2.tryNextState "found_stopline"
    else if get_stopsign.1 = TYPE_STOP then n2.tryNextState "found_reserved_stop"
    else n2
  else if n2.current_status_.ordered_stop_idx ≠ -1 ∧
      (n2.current_status_.found_stopsign_idx = -1 ∨
        n2.current_status_.ordered_stop_idx ≤ n2.current_status_.found_stopsign_idx) then
    n2.tryNextState "received_stop_order"
  else n2

/-! ## Mission validation (`decision_maker_node_callback.cpp`) -/

/-- The constant `num_of_set_mission_complete_flag`. -/
def num_of_set_mission_complete_flag : Nat := 3

/-- A `StopLine` of the vector map joined with what the node looks up for it:
`bp` and `fp` are the end points of its line
(`VMPoint2GeoPoint(findByKey(Key<Point>(findByKey(Key<Line>(stopline.lid)).bpid)))`
and the same with `fpid`), `sign_type` is
`g_vmap.findByKey(Key<RoadSign>(stopline.signid)).type`. -/
structure VMStopLine where
  bp : Point
  fp : Point
  sign_type : Int
deriving DecidableEq, Repr

/-- The map and the helpers that are defined outside the embedded files, as
parameters: `CrossRoadArea::isInsideArea`, `DecisionMakerNode::calcIntersectWayAngle`,
the macros `ANGLE_LEFT` and `ANGLE_RIGHT`, the `StopLine` records of `g_vmap`,
`lanelet::utils::matchWaypointAndLanelet` (the pairs of the map `wp2laneletid` it
fills), the attributes `turn_direction` (default `"straight"`) and `one_way` (default
`false`) of the lanelet with a given id, and the line strings returned by
`getStopSignStopLines` (each the list of its points). -/
structure MapQueries where
  isInsideArea : CrossRoadArea → Point → Bool
  calcIntersectWayAngle : Lane → ℚ
  ANGLE_LEFT : ℚ
  ANGLE_RIGHT : ℚ
  vmap_stoplines : List VMStopLine
  matchWaypointAndLanelet : LaneArray → List (Int × Int)
  turn_direction : Int → String
  one_way : Int → Bool
  lanelet_stoplines : List (List Point)

/-- The call `setEventFlag(key, value)` (defined outside the embedded files; the event
flag store maps a name to a boolean, the last writer wins). -/
def DecisionMakerNode.setEventFlag (n : DecisionMakerNode) (key : String) (value : Bool) :
    DecisionMakerNode :=
  { n with flags := (key, value) :: n.flags }

/-- The call `isEventFlagTrue(key)` (defined outside the embedded files; a flag
that was never set is false). -/
def DecisionMakerNode.isEventFlagTrue (n : DecisionMakerNode) (key : String) : Bool :=
  match n.flags.find? (fun kv => kv.1 == key) with
  | some kv => kv.2
  | none => false

/-- The call `publishOperatorHelpMessage(message)` (defined outside the embedded
files): a text handed to the publisher `operator_help_text`. -/
def DecisionMakerNode.publishOperatorHelpMessage (n : DecisionMakerNode) (message : String) :
    DecisionMakerNode :=
  n.publish "operator_help_text" (Message.text message)

/-- Replacing the last element of a list by its image under `f`:
`v.back() = f(v.back())`. -/
def modifyBack {α : Type} (f : α → α) : List α → List α
  | [] => []
  | [a] => [f a]
  | a :: b :: rest => a :: modifyBack f (b :: rest)

/-- The body of the innermost loop of `insertPointWithinCrossRoad` for one waypoint
and one area. `back()` on an empty vector is a fault. -/
def insertPointIntoArea (M : MapQueries) (wp : Waypoint) (area : CrossRoadArea) :
    Option (CrossRoadArea × Waypoint) :=
  let pp := wp.pose.position
  if M.isInsideArea area pp then
    let startsLane : Option Bool :=
      match area.insideLanes.getLast? with
      | none => some true
      | some lastLane =>
        match lastLane.waypoints.getLast? with
        | none => none
        | some lastWp => some (decide (wp.gid ≠ lastWp.gid + 1))
    match startsLane with
    | none => none
    | some b =>
      let area1 : CrossRoadArea :=
        if b then
          { area with insideLanes := area.insideLanes ++ [⟨[]⟩],
                      bbox_orientation := wp.pose.orientation }
        else area
      let area2 : CrossRoadArea :=
        { area1 with
          insideLanes := modifyBack (fun l => ⟨l.waypoints ++ [wp]⟩) area1.insideLanes,
          insideWaypoint_points := area1.insideWaypoint_points ++ [pp] }
      some (area2, { wp with wpstate.aid := area.area_id })
  else some (area, wp)

/-- The loop `for (auto& area : intersects)` of `insertPointWithinCrossRoad` for one
waypoint. -/
def insertPointIntoAreas (M : MapQueries) :
    List CrossRoadArea → Waypoint → Option (List CrossRoadArea × Waypoint)
  | [], wp => some ([], wp)
  | area :: rest, wp =>
    match insertPointIntoArea M wp area with
    | none => none
    | some (area1, wp1) =>
      match insertPointIntoAreas M rest wp1 with
      | none => none
      | some (rest1, wp2) => some (area1 :: rest1, wp2)

/-- The loop `for (auto& wp : lane.waypoints)` of `insertPointWithinCrossRoad`. -/
def insertPointsOfLane (M : MapQueries) :
    List CrossRoadArea → List Waypoint → Option (List CrossRoadArea × List Waypoint)
  | areas, [] => some (areas, [])
  | areas, wp :: rest =>
    match insertPointIntoAreas M areas wp with
    | none => none
    | some (areas1, wp1) =>
      match insertPointsOfLane M areas1 rest with
      | none => none
      | some (areas2, rest1) => some (areas2, wp1 :: rest1)

/-- The loop `for (auto& lane : lane_array.lanes)` of `insertPointWithinCrossRoad`. -/
def insertPointsOfLanes (M : MapQueries) :
    List CrossRoadArea → List Lane → Option (List CrossRoadArea × List Lane)
  | areas, [] => some (areas, [])
  | areas, lane :: rest =>
    match insertPointsOfLane M areas lane.waypoints with
    | none => none
    | some (areas1, wps1) =>
      match insertPointsOfLanes M areas1 rest with
      | none => none
      | some (areas2, rest1) => some (areas2, ⟨wps1⟩ :: rest1)

/-- The function `DecisionMakerNode::insertPointWithinCrossRoad`; it works on the
member `intersects` (its first parameter is not used) and on the lane array. -/
def insertPointWithinCrossRoad (M : MapQueries) (intersects : List CrossRoadArea)
    (lane_array : LaneArray) : Option (List CrossRoadArea × LaneArray) :=
  match insertPointsOfLanes M intersects lane_array.lanes with
  | none => none
  | some (areas, lanes) => some (areas, { lane_array with lanes := lanes })

/-- The steering state chosen for a lane inside an area from its entry-to-exit angle
(the `if / else if / else` on `angle_deg`). -/
def steeringOfAngle (M : MapQueries) (laneinArea : Lane) : Nat :=
  let angle_deg : Int := Int.floor (M.calcIntersectWayAngle laneinArea)
  if (angle_deg : ℚ) ≤ M.ANGLE_LEFT then STR_LEFT
  else if (angle_deg : ℚ) ≥ M.ANGLE_RIGHT then STR_RIGHT
  else STR_STRAIGHT

/-- The two innermost loops of the steering pass: every waypoint of the lane array
with the gid of `wp_lane` and the aid of the area gets `steering_state`. -/
def setSteering (area_id : Int) (steering_state : Nat) (wp_lane : Waypoint)
    (lanes : List Lane) : List Lane :=
  lanes.map (fun lane =>
    ⟨lane.waypoints.map (fun wp =>
      if wp.gid = wp_lane.gid ∧ wp.wpstate.aid = area_id then
        { wp with wpstate.steering_state := steering_state }
      else wp)⟩)

/-- The steering pass of `setWaypointStateUsingVectorMap`
(`for (auto& area : intersects)` ... ), followed by the pass that turns a steering
state that is still `0` into `STR_STRAIGHT`. -/
def steeringPass (M : MapQueries) (intersects : List CrossRoadArea) (lanes : List Lane) :
    List Lane :=
  let lanes1 :=
    intersects.foldl (fun acc area =>
      area.insideLanes.foldl (fun acc2 laneinArea =>
        laneinArea.waypoints.foldl (fun acc3 wp_lane =>
          setSteering area.area_id (steeringOfAngle M laneinArea) wp_lane acc3) acc2) acc)
      lanes
  lanes1.map (fun lane =>
    ⟨lane.waypoints.map (fun wp =>
      if wp.wpstate.steering_state = 0 then
        { wp with wpstate.steering_state := STR_STRAIGHT }
      else wp)⟩)

/-- The stoplines the vector-map backend keeps: those whose road sign type has the
`TYPE_STOP` or the `TYPE_STOPLINE` bit. -/
def stopSignStoplines (M : MapQueries) : List VMStopLine :=
  M.vmap_stoplines.filter (fun stopline =>
    decide (Int.land stopline.sign_type ((TYPE_STOP ||| TYPE_STOPLINE : Nat) : Int) ≠ 0))

/-- The road sign type as it is stored in the `uint8` field `stop_state`. -/
def signTypeAsState (sign_type : Int) : Nat := (sign_type % 256).toNat

/-- The call `lane.waypoints.insert(lane.waypoints.begin() + i, wp)`. -/
def insertAt (wps : List Waypoint) (i : Nat) (wp : Waypoint) : List Waypoint :=
  wps.take i ++ wp :: wps.drop i

/-- The body of the loop `for (auto& stopline : stoplines)` of
`setWaypointStateUsingVectorMap` for one stopline, on the loop variable `wp_idx` and
the waypoints of the lane. An `at` out of range is a fault. -/
def vmStoplineStep (A : Amathutils) (insert_stop_line_wp_ : Bool)
    (st : Nat × List Waypoint) (stopline : VMStopLine) : Option (Nat × List Waypoint) :=
  let wp_idx := st.1
  let wps := st.2
  match wps[wp_idx]?, wps[wp_idx + 1]? with
  | some a, some b =>
    let bp := stopline.bp
    let fp := stopline.fp
    if A.isIntersectLine a.pose.position b.pose.position bp fp then
      let center_point : Point :=
        ⟨(bp.x * 2 + fp.x) / 3, (bp.y * 2 + fp.y) / 3, (bp.z + fp.z) / 2⟩
      if A.isPointLeftFromLine center_point a.pose.position b.pose.position ≥ 0 then
        if ¬ insert_stop_line_wp_ then
          match A.getIntersect a.pose.position b.pose.position bp fp with
          | some intersect_point =>
            let dist_front := A.find_distance intersect_point b.pose.position
            let dist_back := A.find_distance intersect_point a.pose.position
            let target_wp_idx := if dist_front < dist_back then wp_idx + 1 else wp_idx
            match wps[target_wp_idx]? with
            | some t =>
              some (wp_idx, wps.set target_wp_idx
                { t with wpstate.stop_state := signTypeAsState stopline.sign_type })
            | none => none
          | none => some (wp_idx, wps)
        else
          let center_point : Point :=
            { center_point with x := (bp.x + fp.x) / 2, y := (bp.y + fp.y) / 2 }
          let interpolation_point :=
            A.getNearPtOnLine center_point a.pose.position b.pose.position
          let wp : Waypoint :=
            { a with
              wpstate.stop_state := signTypeAsState stopline.sign_type,
              pose.position :=
                ⟨interpolation_point.x, interpolation_point.y,
                  (a.pose.position.z + b.pose.position.z) / 2⟩,
              twist_linear_x := (a.twist_linear_x + b.twist_linear_x) / 2 }
          some (wp_idx + 1, insertAt wps (wp_idx + 1) wp)
      else some (wp_idx, wps)
    else some (wp_idx, wps)
  | _, _ => none

/-- The loop `for (auto& stopline : stoplines)` of `setWaypointStateUsingVectorMap`. -/
def vmStoplineInner (A : Amathutils) (insert_stop_line_wp_ : Bool) :
    List VMStopLine → Nat × List Waypoint → Option (Nat × List Waypoint)
  | [], st => some st
  | stopline :: rest, st =>
    match vmStoplineStep A insert_stop_line_wp_ st stopline with
    | none => none
    | some st1 => vmStoplineInner A insert_stop_line_wp_ rest st1

/-- The loop `for (size_t wp_idx = 0; wp_idx < lane.waypoints.size() - 1; wp_idx++)` of
`setWaypointStateUsingVectorMap` on a non-empty lane, from the given `wp_idx`; the
bound is read again at every iteration. `fuel` bounds the number of evaluations of the
loop condition. -/
def vmStoplineOuter (A : Amathutils) (insert_stop_line_wp_ : Bool)
    (stoplines : List VMStopLine) : Nat → Nat → List Waypoint → Option (List Waypoint)
  | 0, _, _ => none
  | fuel + 1, wp_idx, wps =>
    if wp_idx < wps.length - 1 then
      match vmStoplineInner A insert_stop_line_wp_ stoplines (wp_idx, wps) with
      | none => none
      | some st => vmStoplineOuter A insert_stop_line_wp_ stoplines fuel (st.1 + 1) st.2
    else some wps

/-- The loop that sets the mission-complete flag at the end of a lane:
`for (counter = 0; counter <= (wp_idx <= 3 ? wp_idx : 3); counter++)
   lane.waypoints.at(--wp_idx).wpstate.event_state = TYPE_EVENT_GOAL;`
with `wp_idx` unsigned: decrementing `0` wraps around and `at` faults. `fuel` bounds the
number of evaluations of the loop condition. -/
def markGoal : Nat → Nat → Nat → List Waypoint → Option (List Waypoint)
  | 0, _, _, _ => none
  | fuel + 1, counter, wp_idx, wps =>
    if counter ≤ (if wp_idx ≤ num_of_set_mission_complete_flag then wp_idx
        else num_of_set_mission_complete_flag) then
      if wp_idx = 0 then none
      else
        match wps[wp_idx - 1]? with
        | none => none
        | some w =>
          markGoal fuel (counter + 1) (wp_idx - 1)
            (wps.set (wp_idx - 1) { w with wpstate.event_state := TYPE_EVENT_GOAL })
    else some wps

/-- The goal-marking loop on a lane, started as in the source with `counter = 0` and
`wp_idx = lane.waypoints.size()`; the condition is evaluated at most
`num_of_set_mission_complete_flag + 2` times. -/
def markGoalOfLane (wps : List Waypoint) : Option (List Waypoint) :=
  markGoal (num_of_set_mission_complete_flag + 2) 0 wps.length wps

/-- The body of the second `for (auto& lane : lane_array.lanes)` loop of
`setWaypointStateUsingVectorMap`: an empty lane is skipped, otherwise the stopline loop
runs and then the goal-marking loop. The stopline loop evaluates its condition once
per waypoint the lane has on entry. -/
def vmStoplinesOfLane (A : Amathutils) (M : MapQueries) (insert_stop_line_wp_ : Bool)
    (lane : Lane) : Option Lane :=
  if lane.waypoints.isEmpty then some lane
  else
    match vmStoplineOuter A insert_stop_line_wp_ (stopSignStoplines M)
        lane.waypoints.length 0 lane.waypoints with
    | none => none
    | some wps =>
      match markGoalOfLane wps with
      | none => none
      | some wps1 => some ⟨wps1⟩

/-- Running a fallible step over every element of a list, in order. -/
def mapAll {α β : Type} (f : α → Option β) : List α → Option (List β)
  | [] => some []
  | a :: rest =>
    match f a with
    | none => none
    | some b =>
      match mapAll f rest with
      | none => none
      | some rest1 => some (b :: rest1)

/-- The function `DecisionMakerNode::setWaypointStateUsingVectorMap`, on the member
`intersects` and the lane array. -/
def setWaypointStateUsingVectorMap (A : Amathutils) (M : MapQueries)
    (insert_stop_line_wp_ : Bool) (intersects : List CrossRoadArea) (lane_array : LaneArray) :
    Option (List CrossRoadArea × LaneArray) :=
  match insertPointWithinCrossRoad M intersects lane_array with
  | none => none
  | some (intersects1, lane_array1) =>
    let lanes2 := steeringPass M intersects1 lane_array1.lanes
    match mapAll (vmStoplinesOfLane A M insert_stop_line_wp_) lanes2 with
    | none => none
    | some lanes3 => some (intersects1, { lane_array1 with lanes := lanes3 })

/-- The steering loop of `setWaypointStateUsingLanelet2Map` for one waypoint:
straight by default, the `turn_direction` of the matched lanelet otherwise. -/
def laneletSteering (M : MapQueries) (wp2laneletid : List (Int × Int)) (wp : Waypoint) :
    Waypoint :=
  let steering_state : Nat :=
    match wp2laneletid.lookup wp.gid with
    | some lanelet_id =>
      let direction := M.turn_direction lanelet_id
      let s1 := if direction = "right" then STR_RIGHT else STR_STRAIGHT
      if direction = "left" then STR_LEFT else s1
    | none => STR_STRAIGHT
  { wp with wpstate.steering_state := steering_state }

/-- The body of the loop `for (const auto& stopline : stoplines)` of
`setWaypointStateUsingLanelet2Map` for one stopline, on the loop variable `wp_idx`, the
waypoints of the lane and the local copy `wp` taken before the loop. An `at` out of
range, on the vector or on the map `wp2laneletid`, is a fault. -/
def llStoplineStep (A : Amathutils) (M : MapQueries) (wp2laneletid : List (Int × Int))
    (st : Nat × List Waypoint × Waypoint) (stopline : List Point) :
    Option (Nat × List Waypoint × Waypoint) :=
  let wp_idx := st.1
  let wps := st.2.1
  let wp := st.2.2
  match stopline.head?, stopline.getLast? with
  | some front, some back =>
    match wps[wp_idx]?, wps[wp_idx + 1]? with
    | some a, some b =>
      let is_bidirectional : Option Bool :=
        if (wp2laneletid.lookup wp.gid).isSome then
          match wp2laneletid.lookup a.gid with
          | some lanelet_id => some (M.one_way lanelet_id)
          | none => none
        else some false
      match is_bidirectional with
      | none => none
      | some is_bidirectional =>
        let bp := front
        let fp := back
        if A.isIntersectLine a.pose.position b.pose.position bp fp then
          if ¬ is_bidirectional ∨
              A.isPointLeftFromLine bp a.pose.position b.pose.position ≥ 0 then
            let center_point : Point :=
              ⟨(bp.x + fp.x) / 2, (bp.y + fp.y) / 2, (bp.z + fp.z) / 2⟩
            let interpolation_point :=
              A.getNearPtOnLine center_point a.pose.position b.pose.position
            let wp1 : Waypoint :=
              { wp with
                wpstate.stop_state := TYPE_STOPLINE,
                pose.position :=
                  ⟨interpolation_point.x, interpolation_point.y,
                    (wp.pose.position.z + b.pose.position.z) / 2⟩,
                twist_linear_x := (wp.twist_linear_x + b.twist_linear_x) / 2 }
            some (wp_idx + 1, insertAt wps (wp_idx + 1) wp1, wp1)
          else some (wp_idx, wps, wp)
        else some (wp_idx, wps, wp)
    | _, _ => none
  | _, _ => some (wp_idx, wps, wp)

/-- The loop `for (const auto& stopline : stoplines)` of
`setWaypointStateUsingLanelet2Map`. -/
def llStoplineInner (A : Amathutils) (M : MapQueries) (wp2laneletid : List (Int × Int)) :
    List (List Point) → Nat × List Waypoint × Waypoint →
      Option (Nat × List Waypoint × Waypoint)
  | [], st => some st
  | stopline :: rest, st =>
    match llStoplineStep A M wp2laneletid st stopline with
    | none => none
    | some st1 => llStoplineInner A M wp2laneletid rest st1

/-- The loop `for (size_t wp_idx = 0; wp_idx < lane.waypoints.size() - 1; wp_idx++)` of
`setWaypointStateUsingLanelet2Map` on a non-empty lane, from the given `wp_idx`.
`fuel` bounds the number of evaluations of the loop condition. -/
def llStoplineOuter (A : Amathutils) (M : MapQueries) (wp2laneletid : List (Int × Int)) :
    Nat → Nat → List Waypoint → Option (List Waypoint)
  | 0, _, _ => none
  | fuel + 1, wp_idx, wps =>
    if wp_idx < wps.length - 1 then
      match wps[wp_idx]? with
      | none => none
      | some wp =>
        match llStoplineInner A M wp2laneletid M.lanelet_stoplines (wp_idx, wps, wp) with
        | none => none
        | some st => llStoplineOuter A M wp2laneletid fuel (st.1 + 1) st.2.1
    else some wps

/-- The body of the second `for (auto& lane : lane_array.lanes)` loop of
`setWaypointStateUsingLanelet2Map`. -/
def llStoplinesOfLane (A : Amathutils) (M : MapQueries) (wp2laneletid : List (Int × Int))
    (lane : Lane) : Option Lane :=
  if lane.waypoints.isEmpty then some lane
  else
    match llStoplineOuter A M wp2laneletid lane.waypoints.length 0 lane.waypoints with
    | none => none
    | some wps =>
      match markGoalOfLane wps with
      | none => none
      | some wps1 => some ⟨wps1⟩

/-- The function `DecisionMakerNode::setWaypointStateUsingLanelet2Map`, on the member
`intersects` and the lane array. -/
def setWaypointStateUsingLanelet2Map (A : Amathutils) (M : MapQueries)
    (intersects : List CrossRoadArea) (lane_array : LaneArray) :
    Option (List CrossRoadArea × LaneArray) :=
  let wp2laneletid := M.matchWaypointAndLanelet lane_array
  match insertPointWithinCrossRoad M intersects lane_array with
  | none => none
  | some (intersects1, lane_array1) =>
    let lanes2 : List Lane :=
      lane_array1.lanes.map (fun lane => ⟨lane.waypoints.map (laneletSteering M wp2laneletid)⟩)
    match mapAll (llStoplinesOfLane A M wp2laneletid) lanes2 with
    | none => none
    | some lanes3 => some (intersects1, { lane_array1 with lanes := lanes3 })

/-- The assignments of the first loop of `drivingMissionCheck` to one waypoint. -/
def resetWaypoint (gid lid : Int) (wp : Waypoint) : Waypoint :=
  { wp with
    wpstate :=
      { aid := 0,
        steering_state := NULLSTATE,
        accel_state := NULLSTATE,
        stop_state :=
          if wp.wpstate.stop_state ≠ TYPE_STOPLINE ∧ wp.wpstate.stop_state ≠ TYPE_STOP then
            NULLSTATE
          else wp.wpstate.stop_state,
        lanechange_state := NULLSTATE,
        event_state := 0 },
    gid := gid,
    lid := lid }

/-- The inner loop of the first pass of `drivingMissionCheck` over the waypoints of a
lane, with the counters `gid` and `lid`; the node carries the event flags and the
published messages. -/
def resetWaypoints :
    List Waypoint → Int → Int → DecisionMakerNode → List Waypoint × Int × DecisionMakerNode
  | [], gid, _, n => ([], gid, n)
  | wp :: rest, gid, lid, n =>
    let wp1 := resetWaypoint gid lid wp
    let n1 :=
      if ¬ n.isEventFlagTrue "received_back_state_waypoint" ∧ wp.twist_linear_x < 0 then
        (n.setEventFlag "received_back_state_waypoint" true).publishOperatorHelpMessage
          "Received back waypoint."
      else n
    let r := resetWaypoints rest (gid + 1) (lid + 1) n1
    (wp1 :: r.1, r.2.1, r.2.2)

/-- The outer loop of the first pass of `drivingMissionCheck`. -/
def resetLanes : List Lane → Int → DecisionMakerNode → List Lane × Int × DecisionMakerNode
  | [], gid, n => ([], gid, n)
  | lane :: rest, gid, n =>
    let r1 := resetWaypoints lane.waypoints gid 0 n
    let r2 := resetLanes rest r1.2.1 r1.2.2
    (⟨r1.1⟩ :: r2.1, r2.2.1, r2.2.2)

/-- The inner loop of the last pass of `drivingMissionCheck`: new `gid` and `lid`, and
the running minimum `min_dist` with the pose `nearest_wp_pose` that attains it. -/
def reindexWaypoints (A : Amathutils) (position : Point) :
    List Waypoint → Int → Int → ℚ × Pose → List Waypoint × Int × (ℚ × Pose)
  | [], gid, _, best => ([], gid, best)
  | wp :: rest, gid, lid, best =>
    let wp1 := { wp with gid := gid, lid := lid }
    let dst := A.find_distance position wp.pose.position
    let best1 := if best.1 > dst then (dst, wp.pose) else best
    let r := reindexWaypoints A position rest (gid + 1) (lid + 1) best1
    (wp1 :: r.1, r.2.1, r.2.2)

/-- The outer loop of the last pass of `drivingMissionCheck`. -/
def reindexLanes (A : Amathutils) (position : Point) :
    List Lane → Int → ℚ × Pose → List Lane × Int × (ℚ × Pose)
  | [], gid, best => ([], gid, best)
  | lane :: rest, gid, best =>
    let r1 := reindexWaypoints A position lane.waypoints gid 0 best
    let r2 := reindexLanes A position rest r1.2.1 r1.2.2
    (⟨r1.1⟩ :: r2.1, r2.2.1, r2.2.2)

/-- The first pass of `drivingMissionCheck` (the operator message, the event flag and
the loop that resets the waypoint states and assigns `gid` and `lid`). -/
def resetPass (n : DecisionMakerNode) : DecisionMakerNode :=
  let n1 := n.publishOperatorHelpMessage "Received new mission, checking now..."
  let n2 := n1.setEventFlag "received_back_state_waypoint" false
  let r := resetLanes n2.current_status_.based_lane_array.lanes 0 n2
  { r.2.2 with current_status_.based_lane_array.lanes := r.1 }

/-- The call of the map backend in `drivingMissionCheck`, selected by
`use_lanelet_map_`, on `current_status_.based_lane_array`. -/
def annotatePass (A : Amathutils) (M : MapQueries) (n : DecisionMakerNode) :
    Option DecisionMakerNode :=
  let r :=
    if n.use_lanelet_map_ then
      setWaypointStateUsingLanelet2Map A M n.intersects n.current_status_.based_lane_array
    else
      setWaypointStateUsingVectorMap A M n.insert_stop_line_wp_ n.intersects
        n.current_status_.based_lane_array
  match r with
  | none => none
  | some (intersects1, lane_array) =>
    some { n with intersects := intersects1, current_status_.based_lane_array := lane_array }

/-- A default-constructed `geometry_msgs::Pose` (all fields zero). -/
def zeroPose : Pose := ⟨⟨0, 0, 0⟩, ⟨0, 0, 0, 0⟩⟩

/-- The part of `drivingMissionCheck` before its final `if`: the node with the lane
array reset, labelled and reindexed, the local `min_dist` and the local
`angle_diff_degree`. -/
def missionDeviation (A : Amathutils) (M : MapQueries) (n : DecisionMakerNode) :
    Option (DecisionMakerNode × ℚ × ℚ) :=
  match annotatePass A M (resetPass n) with
  | none => none
  | some n4 =>
    let r := reindexLanes A n4.current_status_.pose.position
      n4.current_status_.based_lane_array.lanes 0 (100, zeroPose)
    let n5 := { n4 with current_status_.based_lane_array.lanes := r.1 }
    let min_dist := r.2.2.1
    let nearest_wp_pose := r.2.2.2
    let angle_diff_degree := |A.calcPosesAngleDiffDeg n5.current_status_.pose nearest_wp_pose|
    some (n5, min_dist, angle_diff_degree)

/-- The call `isSubscriberRegistered(key)` (defined outside the embedded files). -/
def DecisionMakerNode.isSubscriberRegistered (n : DecisionMakerNode) (key : String) : Bool :=
  n.subscribed.contains key

/-- The function `DecisionMakerNode::drivingMissionCheck`: the returned boolean and the
node after the call; `none` when a fault interrupts it. -/
def drivingMissionCheck (A : Amathutils) (M : MapQueries) (n : DecisionMakerNode) :
    Option (Bool × DecisionMakerNode) :=
  match missionDeviation A M n with
  | none => none
  | some (n5, min_dist, angle_diff_degree) =>
    if min_dist > n5.change_threshold_dist_ ∨ angle_diff_degree > n5.change_threshold_angle_ then
      some (false, n5)
    else
      let n6 := { n5 with
        current_status_.using_lane_array := n5.current_status_.based_lane_array }
      let n7 := n6.publish "lane_waypoints_array"
        (Message.laneArray n6.current_status_.using_lane_array)
      let n8 :=
        if ¬ n7.isSubscriberRegistered "final_waypoints" then
          { n7 with subscribed := n7.subscribed ++ ["final_waypoints"] }
        else n7
      some (true, n8)

/-- The vectors `insideLanes[*].waypoints` of the stored areas are all non-empty: what
`insertPointWithinCrossRoad` relies on when it reads `insideLanes.back().waypoints.back()`.
Every lane the function pushes receives a waypoint in the same iteration, so the
property holds at start-up (no inside lane yet) and after every call. -/
def areasWellFormed (areas : List CrossRoadArea) : Prop :=
  ∀ area ∈ areas, ∀ lane ∈ area.insideLanes, lane.waypoints ≠ []

instance areasWellFormed.decidable (areas : List CrossRoadArea) :
    Decidable (areasWellFormed areas) := by
  unfold areasWellFormed; infer_instance

/-! ## Motion handlers (`decision_maker_node_state_motion.cpp`) and the stop order -/

/-- The member functions of the node that the motion handlers call and that are
defined outside the embedded files, as parameters: `isArrivedGoal()`,
`calcRequiredDistForStop()` and `getDistToWaypointIdx(idx)`. Each reads the node. -/
structure NodeQueries where
  isArrivedGoal : DecisionMakerNode → Bool
  calcRequiredDistForStop : DecisionMakerNode → ℚ
  getDistToWaypointIdx : DecisionMakerNode → Int → ℚ

/-- The call `publishStoplineWaypointIdx(wp_idx)` (defined outside the embedded files):
a `std_msgs::Int32` handed to the publisher that `init` registers for that type,
`state/stopline_wpidx`. -/
def DecisionMakerNode.publishStoplineWaypointIdx (n : DecisionMakerNode) (wp_idx : Int) :
    DecisionMakerNode :=
  n.publish "state/stopline_wpidx" (Message.int32 wp_idx)

/-- The handler `DecisionMakerNode::updateDriveState`; the `ROS_WARN` of its last branch
is not recorded. -/
def updateDriveState (Q : NodeQueries) (n : DecisionMakerNode) : DecisionMakerNode :=
  if Q.isArrivedGoal n then n.tryNextState "arrived_goal"
  else if n.current_status_.closest_waypoint = -1 then
    (n.publishOperatorHelpMessage
      "The vehicle passed last waypoint or waypoint does not exist near the vehicle.").tryNextState
      "mission_aborted"
  else if n.current_status_.finalwaypoints.waypoints.isEmpty then n
  else n

/-- The handler `DecisionMakerNode::updateGoState`. -/
def updateGoState (A : Amathutils) (Q : NodeQueries) (n : DecisionMakerNode) :
    DecisionMakerNode :=
  let r := getStopSignStateFromWaypoint A n
  let get_stopsign := r.1
  let n1 :=
    if get_stopsign.1 ≠ 0 then
      { r.2 with current_status_.found_stopsign_idx := get_stopsign.2 }
    else r.2
  let obstacle_waypoint_gid :=
    n1.current_status_.obstacle_waypoint + n1.current_status_.closest_waypoint
  let n2 :=
    if get_stopsign.1 ≠ 0 ∧ n1.current_status_.found_stopsign_idx ≠ -1 then
      if n1.current_status_.obstacle_waypoint = -1 ∨
          n1.current_status_.found_stopsign_idx ≤ obstacle_waypoint_gid then
        n1.tryNextState "found_stop_decision"
      else n1
    else n1
  if n2.current_status_.ordered_stop_idx ≠ -1 ∧
      Q.calcRequiredDistForStop n2 >
        Q.getDistToWaypointIdx n2 n2.current_status_.ordered_stop_idx then
    if n2.current_status_.obstacle_waypoint = -1 ∨
        n2.current_status_.ordered_stop_idx ≤ obstacle_waypoint_gid then
      n2.tryNextState "found_stop_decision"
    else n2
  else n2

/-- The handler `DecisionMakerNode::updateOrderedStopState`. -/
def updateOrderedStopState (n : DecisionMakerNode) : DecisionMakerNode :=
  if n.current_status_.ordered_stop_idx = -1 ∨
      n.current_status_.closest_waypoint > n.current_status_.ordered_stop_idx then
    n.tryNextState "clear"
  else n.publishStoplineWaypointIdx n.current_status_.ordered_stop_idx

/-- The handler `DecisionMakerNode::exitOrderedStopState`. -/
def exitOrderedStopState (n : DecisionMakerNode) : DecisionMakerNode :=
  if n.current_status_.found_stopsign_idx = -1 ∨
      n.current_status_.ordered_stop_idx < n.current_status_.found_stopsign_idx then
    { n with current_status_.ordered_stop_idx := -1 }
  else n

/-- The handler `DecisionMakerNode::exitReservedStopState`. -/
def exitReservedStopState (n : DecisionMakerNode) : DecisionMakerNode :=
  { n with
    current_status_.prev_stopped_wpidx := n.current_status_.found_stopsign_idx,
    current_status_.found_stopsign_idx := -1 }

/-- The handler `DecisionMakerNode::callbackFromStopOrder` for `msg.data`. The second
operand of `&&` is evaluated only when the first holds; `back()` on an empty vector is
a fault. The time stamp of the published message is not recorded. -/
def callbackFromStopOrder (n : DecisionMakerNode) (msg_data : Int) :
    Option DecisionMakerNode :=
  let lane_array_id := n.current_status_.using_lane_array.id
  let accepted : Option Bool :=
    if n.current_status_.closest_waypoint < msg_data then
      match n.current_status_.using_lane_array.lanes.getLast? with
      | none => none
      | some lane =>
        match lane.waypoints.getLast? with
        | none => none
        | some wp => some (decide (msg_data < wp.gid))
    else some false
  match accepted with
  | none => none
  | some true =>
    let n1 := { n with
      current_status_.prev_ordered_idx := n.current_status_.ordered_stop_idx,
      current_status_.ordered_stop_idx := msg_data }
    some (n1.publish "stop_cmd_location" (Message.vehicleLocation lane_array_id msg_data))
  | some false =>
    let n1 := { n with current_status_.ordered_stop_idx := -1 }
    some (n1.publish "stop_cmd_location" (Message.vehicleLocation lane_array_id (-1)))

/-! ## Concrete inputs -/

/-- Twice the signed area of the triangle `o a b` in the xy plane: positive when `b`
lies to the left of the directed line from `o` to `a`. -/
def cross (o a b : Point) : ℚ :=
  (a.x - o.x) * (b.y - o.y) - (a.y - o.y) * (b.x - o.x)

/-- An instance of the `amathutils` helpers computed exactly in the xy plane. Two
segments intersect when the end points of each lie strictly on different sides of the
other; a point is left of a line (`1`), right of it (`-1`) or on it (`0`); the
intersection of two lines exists unless they are parallel; the nearest point on the
segment from `a` to `b` is the orthogonal projection, clamped to the segment. The
distance is the taxicab distance, which is the Euclidean one for two points on a line
parallel to an axis, km/h are divided by 3.6, and all headings agree. -/
def planeMath : Amathutils where
  kmph2mps := fun v => v * 1000 / 3600
  find_distance_pose := fun a b =>
    |a.position.x - b.position.x| + |a.position.y - b.position.y|
  find_distance := fun a b => |a.x - b.x| + |a.y - b.y|
  isIntersectLine := fun a b c d =>
    decide (cross a b c * cross a b d < 0 ∧ cross c d a * cross c d b < 0)
  isPointLeftFromLine := fun p a b =>
    if cross a b p > 0 then 1 else if cross a b p < 0 then -1 else 0
  getIntersect := fun a b c d =>
    let den := (b.x - a.x) * (d.y - c.y) - (b.y - a.y) * (d.x - c.x)
    if den = 0 then none
    else
      let t := ((c.x - a.x) * (d.y - c.y) - (c.y - a.y) * (d.x - c.x)) / den
      some ⟨a.x + t * (b.x - a.x), a.y + t * (b.y - a.y), a.z + t * (b.z - a.z)⟩
  getNearPtOnLine := fun p a b =>
    let len2 := (b.x - a.x) * (b.x - a.x) + (b.y - a.y) * (b.y - a.y)
    if len2 = 0 then a
    else
      let t := ((p.x - a.x) * (b.x - a.x) + (p.y - a.y) * (b.y - a.y)) / len2
      let t := if t < 0 then 0 else if t > 1 then 1 else t
      ⟨a.x + t * (b.x - a.x), a.y + t * (b.y - a.y), a.z + t * (b.z - a.z)⟩
  calcPosesAngleDiffDeg := fun _ _ => 0

/-- The pose at `(x, 0, 0)` with the identity orientation. -/
def poseAt (x : ℚ) : Pose := ⟨⟨x, 0, 0⟩, ⟨0, 0, 0, 1⟩⟩

/-- A waypoint with the given gid, x coordinate and stop_state, everything else
zero. -/
def wpAt (gid : Int) (x : ℚ) (stop_state : Nat) : Waypoint :=
  ⟨gid, 0, poseAt x, 0, ⟨0, 0, 0, 0, stop_state, 0⟩⟩

/-- A node whose snapshot holds sentinel values and the given final path and speed
(km/h), standing at the origin. -/
def nodeWith (finalwaypoints : List Waypoint) (velocity : ℚ) : DecisionMakerNode where
  current_status_ :=
    { pose := poseAt 0, velocity := velocity, closest_waypoint := 0,
      obstacle_waypoint := -1, stopline_waypoint := -1, found_stopsign_idx := -1,
      ordered_stop_idx := -1, prev_stopped_wpidx := -1, prev_ordered_idx := -1,
      change_flag := 0, finalwaypoints := ⟨finalwaypoints⟩,
      based_lane_array := ⟨0, []⟩, using_lane_array := ⟨0, []⟩ }
  intersects := []
  flags := []
  use_lanelet_map_ := false
  insert_stop_line_wp_ := false
  change_threshold_dist_ := 15
  change_threshold_angle_ := 15
  stopline_reset_count_ := 20
  published := []
  subscribed := []
  requested := []

/-- A Motion context in `Stop` with the edges of the Stop row of the transition
table, acting on a counter that every handler increments. -/
def stopContext : StateContext Nat where
  transitions :=
    [⟨"Stop", "clear", "Go"⟩, ⟨"Stop", "found_stopline", "StopLine"⟩,
     ⟨"Stop", "found_reserved_stop", "ReservedStop"⟩,
     ⟨"Stop", "received_stop_order", "OrderedStop"⟩, ⟨"Go", "found_stop_decision", "Stop"⟩]
  callbacks := fun _ _ => some (fun k => k + 1)
  current := "Stop"
  calls := []

/-! ## Vocabulary for the stop-marker search -/

/-- The value of the local `distance` after the loop has visited `j` more waypoints of
`wps`, starting from the value `distance` with `prev_pose` the pose visited last. -/
def accumulate (A : Amathutils) : ℚ → Pose → List Waypoint → Nat → ℚ
  | distance, _, _, 0 => distance
  | distance, _, [], _ + 1 => distance
  | distance, prev_pose, w :: rest, j + 1 =>
    accumulate A (distance + A.find_distance_pose prev_pose w.pose) w.pose rest j

/-- The arc length accumulated from the vehicle pose up to the final waypoint of index
`j`: the length of the polyline from `current_status_.pose` through the waypoints of
index `1 .. j` (index 0 is skipped by the search); it is `0` for `j = 0`. -/
def accumulatedDistance (A : Amathutils) (n : DecisionMakerNode) (j : Nat) : ℚ :=
  accumulate A 0 n.current_status_.pose (n.current_status_.finalwaypoints.waypoints.drop 1) j

/-- A waypoint the search can return: its stop marker is set and its gid is not the
remembered one. -/
def isStopCandidate (prev_stopped_wpidx : Int) (w : Waypoint) : Prop :=
  w.wpstate.stop_state ≠ NULLSTATE ∧ w.gid ≠ prev_stopped_wpidx

/-- The required stopping distance of the search for the snapshot of `n`. -/
def requiredDistance (A : Amathutils) (n : DecisionMakerNode) : ℚ :=
  distance_to_target (A.kmph2mps n.current_status_.velocity)

/-- The final waypoint of index `i` is the first one of index `≥ 1` that is a stop
candidate for the remembered gid `prev`. -/
def isFirstCandidate (n : DecisionMakerNode) (prev : Int) (i : Nat) (w : Waypoint) : Prop :=
  1 ≤ i ∧ n.current_status_.finalwaypoints.waypoints[i]? = some w ∧ isStopCandidate prev w ∧
    ∀ j w', 1 ≤ j → j < i → n.current_status_.finalwaypoints.waypoints[j]? = some w' →
      ¬ isStopCandidate prev w'

/-- The statement about the result of the search with a condition `within i` on the
index of the returned waypoint: a marker that is returned belongs to the first stop
candidate of index `≥ 1` (for the remembered gid after the reset step) and that index
satisfies `within`; and when no first candidate satisfies `within`, the result is
`(NULLSTATE, -1)`. -/
def searchResultStatement (A : Amathutils) (n : DecisionMakerNode) (within : Nat → Prop) :
    Prop :=
  let r := getStopSignStateFromWaypoint A n
  (r.1.1 ≠ NULLSTATE →
      ∃ i w, isFirstCandidate n r.2.current_status_.prev_stopped_wpidx i w ∧
        r.1 = (w.wpstate.stop_state, w.gid) ∧ within i) ∧
  ((¬ ∃ i w, isFirstCandidate n r.2.current_status_.prev_stopped_wpidx i w ∧ within i) →
      r.1 = (NULLSTATE, -1))

/-- The value of `prev_stopped_wpidx` after the reset step, when `w1` is
`finalwaypoints.waypoints.at(1)`. -/
def prevAfterReset (n : DecisionMakerNode) (w1 : Waypoint) : Int :=
  if resetCondition w1.gid n.current_status_.prev_stopped_wpidx n.stopline_reset_count_
  then -1 else n.current_status_.prev_stopped_wpidx

/-- A node reversing at 3.6 km/h whose final path has a stopline marker on its second
waypoint. -/
def reversingNode : DecisionMakerNode :=
  nodeWith [wpAt 0 0 0, wpAt 1 1 TYPE_STOPLINE, wpAt 2 2 0] (-36 / 10)

/-- The waypoints of a lane array read lane by lane and waypoint by waypoint. -/
def allWaypoints (lanes : List Lane) : List Waypoint :=
  lanes.foldr (fun lane acc => lane.waypoints ++ acc) []

/-- The integers `start, start + 1, ..., start + len - 1`. -/
def countFrom (start : Int) (len : Nat) : List Int :=
  (List.range len).map (fun (k : Nat) => start + (k : Int))

/-- The messages of `published` that went to the publisher `key`. -/
def publishedOn (n : DecisionMakerNode) (key : String) : List (String × Message) :=
  n.published.filter (fun p => p.1 == key)

/-- A vector map with one stopline (of a stop sign with type `TYPE_STOPLINE`) from
`(5, 1)` to `(5, -1)`, crossing the x axis at right angles at `x = 5`, the same
stopline as a lanelet2 line string, and no cross-road area. -/
def oneStoplineMap : MapQueries where
  isInsideArea := fun _ _ => false
  calcIntersectWayAngle := fun _ => 0
  ANGLE_LEFT := -40
  ANGLE_RIGHT := 40
  vmap_stoplines := [⟨⟨5, 1, 0⟩, ⟨5, -1, 0⟩, 1⟩]
  matchWaypointAndLanelet := fun _ => []
  turn_direction := fun _ => "straight"
  one_way := fun _ => false
  lanelet_stoplines := [[⟨5, 1, 0⟩, ⟨5, -1, 0⟩]]

/-- A node at the origin that has received a mission of one lane with the two
waypoints `x = 0` and `x = 10` (both still carrying the gid 7). -/
def missionNode (insert_stop_line_wp_ : Bool) : DecisionMakerNode :=
  { nodeWith [] 0 with
    insert_stop_line_wp_ := insert_stop_line_wp_,
    current_status_.based_lane_array := ⟨0, [⟨[wpAt 7 0 0, wpAt 7 10 0]⟩]⟩ }

/-- The node `missionNode` standing 50 m before the first waypoint of its mission. -/
def farNode (insert_stop_line_wp_ : Bool) : DecisionMakerNode :=
  { missionNode insert_stop_line_wp_ with current_status_.pose := poseAt (-50) }

/-- The node `n'` differs from `n` at most in the event flags and in further operator
help messages appended to `published`. -/
def sameButLog (n n' : DecisionMakerNode) : Prop :=
  ∃ flags extra, n' = { n with flags := flags, published := n.published ++ extra } ∧
    ∀ p ∈ extra, p.1 = "operator_help_text"

/-- The node after `drivingMissionCheck` on `missionNode true` with the one-stopline
vector map. -/
def validatedNode : DecisionMakerNode :=
  ((drivingMissionCheck planeMath oneStoplineMap (missionNode true)).getD
    (false, missionNode true)).2

/-- The node after `drivingMissionCheck` on `farNode true` with the one-stopline
vector map. -/
def rejectedNode : DecisionMakerNode :=
  ((drivingMissionCheck planeMath oneStoplineMap (farNode true)).getD
    (true, farNode true)).2

/-- The node `missionNode` standing exactly `change_threshold_dist_` (15 m) before the
first waypoint of its mission. -/
def boundaryNode : DecisionMakerNode :=
  { missionNode true with current_status_.pose := poseAt (-15) }

/-- The node that `drivingMissionCheck` has built on `boundaryNode` when it reaches its
final test. -/
def boundaryChecked : DecisionMakerNode :=
  ((missionDeviation planeMath oneStoplineMap boundaryNode).getD (boundaryNode, 0, 0)).1

/-! ## Running the labelling of a mission again -/

/-- The labelling that `drivingMissionCheck` applies to `based_lane_array`: its reset
pass followed by the map backend selected by `use_lanelet_map_`. -/
def annotateOnce (A : Amathutils) (M : MapQueries) (n : DecisionMakerNode) :
    Option DecisionMakerNode :=
  annotatePass A M (resetPass n)

/-- The labelling applied a second time to its own output, with the same map and
configuration. -/
def annotateTwice (A : Amathutils) (M : MapQueries) (n : DecisionMakerNode) :
    Option DecisionMakerNode :=
  match annotateOnce A M n with
  | none => none
  | some n1 => annotateOnce A M n1

/-- The number of waypoints of `based_lane_array`. -/
def waypointCount (n : DecisionMakerNode) : Nat :=
  (allWaypoints n.current_status_.based_lane_array.lanes).length

/-- A map with one stopline from `(4, -1)` to `(8, 3)`: it crosses the x axis at
`(5, 0)` at 45 degrees and its midpoint `(6, 1)` is nearest to `(6, 0)` on the x axis.
The same stopline is given as a lanelet2 line string; there is no cross-road area. -/
def slantedStoplineMap : MapQueries where
  isInsideArea := fun _ _ => false
  calcIntersectWayAngle := fun _ => 0
  ANGLE_LEFT := -40
  ANGLE_RIGHT := 40
  vmap_stoplines := [⟨⟨4, -1, 0⟩, ⟨8, 3, 0⟩, 1⟩]
  matchWaypointAndLanelet := fun _ => []
  turn_direction := fun _ => "straight"
  one_way := fun _ => false
  lanelet_stoplines := [[⟨4, -1, 0⟩, ⟨8, 3, 0⟩]]

/-- The node `missionNode` configured for the lanelet2 backend. -/
def laneletMissionNode : DecisionMakerNode :=
  { missionNode false with use_lanelet_map_ := true }

/-! ## Vocabulary for running the labelling again -/

/-- The waypoint `w` after the assignment `w.wpstate.stop_state = s`. -/
def withStop (w : Waypoint) (s : Nat) : Waypoint := { w with wpstate.stop_state := s }

/-- The waypoint `w` after the assignment `w.wpstate.event_state = e`. -/
def withEvent (w : Waypoint) (e : Nat) : Waypoint := { w with wpstate.event_state := e }

/-- What the reset pass of `drivingMissionCheck` leaves in `stop_state`: `TYPE_STOPLINE`
and `TYPE_STOP` stay, every other value becomes `NULLSTATE`. -/
def keepStopSign (s : Nat) : Nat :=
  if s ≠ TYPE_STOPLINE ∧ s ≠ TYPE_STOP then NULLSTATE else s

/-- A waypoint with the two labels that come from the cross-road areas (`aid` and
`steering_state`) cleared. -/
def withoutAreaLabels (w : Waypoint) : Waypoint :=
  { w with wpstate.aid := 0, wpstate.steering_state := 0 }

/-- The decision of the stopline loop body of `setWaypointStateUsingVectorMap` when
`insert_stop_line_wp_` is false, from the positions `pa` of `at(wp_idx)` and `pb` of
`at(wp_idx + 1)`: the index `target_wp_idx` and the stop state to assign, or `none`
when nothing is assigned. -/
def vmStopTarget (A : Amathutils) (stopline : VMStopLine) (wp_idx : Nat) (pa pb : Point) :
    Option (Nat × Nat) :=
  if A.isIntersectLine pa pb stopline.bp stopline.fp then
    if A.isPointLeftFromLine
        ⟨(stopline.bp.x * 2 + stopline.fp.x) / 3, (stopline.bp.y * 2 + stopline.fp.y) / 3,
          (stopline.bp.z + stopline.fp.z) / 2⟩ pa pb ≥ 0 then
      match A.getIntersect pa pb stopline.bp stopline.fp with
      | some intersect_point =>
        some (if A.find_distance intersect_point pb < A.find_distance intersect_point pa
          then wp_idx + 1 else wp_idx, signTypeAsState stopline.sign_type)
      | none => none
    else none
  else none

/-- Four lists of the same length whose elements at every index are related by
`R`. -/
inductive ForallFour {α : Type} (R : α → α → α → α → Prop) :
    List α → List α → List α → List α → Prop where
  | nil : ForallFour R [] [] [] []
  | cons {a b c d : α} {l₁ l₂ l₃ l₄ : List α} :
      R a b c d → ForallFour R l₁ l₂ l₃ l₄ → ForallFour R (a :: l₁) (b :: l₂) (c :: l₃) (d :: l₄)

/-- The relation kept between two runs of the stopline loop that started on the
waypoints `x0` and `y0` (at the same position) and now hold `x` and `y` there: each
differs from its start at most in `stop_state`, and the two stop states are equal or
both still the initial ones. -/
def StopRun (x0 y0 x y : Waypoint) : Prop :=
  x = withStop x0 x.wpstate.stop_state ∧ y = withStop y0 y.wpstate.stop_state ∧
  x0.pose.position = y0.pose.position ∧
  (x.wpstate.stop_state = y.wpstate.stop_state ∨
    (x.wpstate.stop_state = x0.wpstate.stop_state ∧
      y.wpstate.stop_state = y0.wpstate.stop_state))

/-- Applying `π` to every waypoint of a lane. -/
def mapLane (π : Waypoint → Waypoint) (lane : Lane) : Lane := ⟨lane.waypoints.map π⟩

/-- A waypoint labelled as lying in no cross-road area, going straight. -/
def straightNoArea (w : Waypoint) : Waypoint :=
  { w with wpstate.aid := 0, wpstate.steering_state := STR_STRAIGHT }

/-- The node after one labelling of `missionNode false` with the slanted-stopline
map. -/
def labelledNode : DecisionMakerNode :=
  (annotateOnce planeMath slantedStoplineMap (missionNode false)).getD (missionNode false)

/-! ## Concrete inputs and vocabulary for the reset pass -/

/-- A node that has received a mission of one lane whose first waypoint carries the stop
marker `TYPE_STOP` and whose second waypoint carries none. -/
def stopMarkedMission : DecisionMakerNode :=
  { nodeWith [] 0 with
    current_status_.based_lane_array := ⟨0, [⟨[wpAt 7 0 TYPE_STOP, wpAt 7 10 0]⟩]⟩ }

/-- The node after the assignments of the branch that reports a reverse waypoint:
`setEventFlag("received_back_state_waypoint", true)` and the operator message. -/
def backReported (n : DecisionMakerNode) : DecisionMakerNode :=
  (n.setEventFlag "received_back_state_waypoint" true).publishOperatorHelpMessage
    "Received back waypoint."

/-- The node when the first loop of `drivingMissionCheck` starts: the operator message
has been published and the event flag cleared. -/
def missionLoopStart (n : DecisionMakerNode) : DecisionMakerNode :=
  (n.publishOperatorHelpMessage "Received new mission, checking now...").setEventFlag
    "received_back_state_waypoint" false

/-- The number of times the operator message `Received back waypoint.` has been
published. -/
def backMessageCount (n : DecisionMakerNode) : Nat :=
  (n.published.filter
    (fun p => decide (p = ("operator_help_text", Message.text "Received back waypoint.")))).length

/-- Whether some waypoint of the list has a negative commanded speed. -/
def hasBackWaypoint (wps : List Waypoint) : Bool :=
  wps.any (fun wp => decide (wp.twist_linear_x < 0))

/-- A node that has received a mission of one lane with three waypoints, the last two
with a negative commanded speed. -/
def backMission : DecisionMakerNode :=
  { nodeWith [] 0 with
    current_status_.based_lane_array :=
      ⟨0, [⟨[wpAt 7 0 0, { wpAt 7 10 0 with twist_linear_x := -1 },
             { wpAt 7 20 0 with twist_linear_x := -2 }]⟩]⟩ }

/-- The node after `drivingMissionCheck` on `backMission` with the one-stopline vector
map. -/
def backChecked : DecisionMakerNode :=
  ((drivingMissionCheck planeMath oneStoplineMap backMission).getD (false, backMission)).2

/-! ## Concrete inputs and vocabulary for the goal markers and the stop handlers -/

/-- A map without stoplines and without cross-road areas. -/
def plainMap : MapQueries where
  isInsideArea := fun _ _ => false
  calcIntersectWayAngle := fun _ => 0
  ANGLE_LEFT := -40
  ANGLE_RIGHT := 40
  vmap_stoplines := []
  matchWaypointAndLanelet := fun _ => []
  turn_direction := fun _ => "straight"
  one_way := fun _ => false
  lanelet_stoplines := []

/-- A node that has received a mission of one lane with the six waypoints
`x = 0, 10, 20, 30, 40, 50`, for the vector-map backend or the lanelet2 backend. -/
def sixWaypointMission (use_lanelet_map_ : Bool) : DecisionMakerNode :=
  { nodeWith [] 0 with
    use_lanelet_map_ := use_lanelet_map_,
    current_status_.based_lane_array :=
      ⟨0, [⟨[wpAt 0 0 0, wpAt 0 10 0, wpAt 0 20 0, wpAt 0 30 0, wpAt 0 40 0, wpAt 0 50 0]⟩]⟩ }

/-- The `event_state` of every waypoint of `based_lane_array`, lane by lane. -/
def eventStates (n : DecisionMakerNode) : List (List Nat) :=
  n.current_status_.based_lane_array.lanes.map
    (fun lane => lane.waypoints.map (fun wp => wp.wpstate.event_state))

/-- A node in `ReservedStop` for the stop marker of gid 1, which its final path still
shows on its second waypoint; a further marker follows at gid 2. -/
def reservedStopNode : DecisionMakerNode :=
  { nodeWith [wpAt 0 0 0, wpAt 1 1 TYPE_STOP, wpAt 2 2 TYPE_STOP, wpAt 3 3 0] 36 with
    current_status_.found_stopsign_idx := 1 }

/-- A node leaving `OrderedStop` whose ordered stop (gid 5) lies behind a found stop
marker (gid 3). -/
def orderedBehindMarker : DecisionMakerNode :=
  { nodeWith [] 0 with
    current_status_.found_stopsign_idx := 3,
    current_status_.ordered_stop_idx := 5 }

/-- A node whose active lane array is one lane with the gids `0 .. 5`, the vehicle at
waypoint 0. -/
def activeMissionNode : DecisionMakerNode :=
  { nodeWith [] 0 with
    current_status_.using_lane_array :=
      ⟨4, [⟨[wpAt 0 0 0, wpAt 1 10 0, wpAt 2 20 0, wpAt 3 30 0, wpAt 4 40 0, wpAt 5 50 0]⟩]⟩ }

/-! ## Concrete inputs and vocabulary for the motion handlers -/

/-- Node queries with fixed answers: whether the goal is reached, the required
stopping distance and the distance to any waypoint index. -/
def fixedQueries (arrived : Bool) (required dist : ℚ) : NodeQueries where
  isArrivedGoal := fun _ => arrived
  calcRequiredDistForStop := fun _ => required
  getDistToWaypointIdx := fun _ _ => dist

/-- A node with an empty final path and a pending ordered stop at gid 5. -/
def orderedStopPending : DecisionMakerNode :=
  { nodeWith [] 0 with current_status_.ordered_stop_idx := 5 }

/-- The node `orderedStopPending` with an obstacle reported two waypoints ahead of the
closest waypoint (gid 2), before the ordered stop. -/
def obstacleBeforeOrder : DecisionMakerNode :=
  { orderedStopPending with current_status_.obstacle_waypoint := 2 }

/-- The value of `found_stopsign_idx` after the first statements of `updateGoState` and
`updateStopState`: the gid the stop-marker search returns when it returns a marker, the
old value otherwise. -/
def foundAfterSearch (A : Amathutils) (n : DecisionMakerNode) : Int :=
  if (getStopSignStateFromWaypoint A n).1.1 ≠ 0 then (getStopSignStateFromWaypoint A n).1.2
  else n.current_status_.found_stopsign_idx

/-- The node when `updateGoState` reaches its test of the ordered stop: the search has
run, `found_stopsign_idx` is updated, and the request on account of a found marker, if
any, is recorded. -/
def goAfterMarker (A : Amathutils) (n : DecisionMakerNode) : DecisionMakerNode :=
  let n1 : DecisionMakerNode :=
    { (getStopSignStateFromWaypoint A n).2 with
      current_status_.found_stopsign_idx := foundAfterSearch A n }
  if (getStopSignStateFromWaypoint A n).1.1 ≠ 0 ∧ foundAfterSearch A n ≠ -1 ∧
      (n.current_status_.obstacle_waypoint = -1 ∨
        foundAfterSearch A n
          ≤ n.current_status_.obstacle_waypoint + n.current_status_.closest_waypoint) then
    n1.tryNextState "found_stop_decision"
  else n1

/-- The value is an `int` (32 bits). -/
def isInt32 (x : Int) : Prop := -2147483648 ≤ x ∧ x ≤ 2147483647

instance isInt32.decidable (x : Int) : Decidable (isInt32 x) := by
  unfold isInt32; infer_instance

/-- A node whose final path starts at gid 10 and which remembers a stop at gid 5, behind
the path. -/
def passedStopNode : DecisionMakerNode :=
  { nodeWith [wpAt 10 0 0, wpAt 11 1 0, wpAt 12 2 0] 36 with
    current_status_.prev_stopped_wpidx := 5 }

/-! ## Concrete inputs and vocabulary for the requests of the motion handlers -/

/-- The triggers a handler has passed to `tryNextState` when it took the node `n` to the
node `n'`: what `requested` holds in `n'` beyond what it held in `n`. -/
def newRequests (n n' : DecisionMakerNode) : List String :=
  n'.requested.drop n.requested.length

/-- A node in `Stop` whose final path shows a `TYPE_STOP` marker at gid 5 on its second
waypoint, with a stop ordered at the same gid 5. -/
def orderAtMarker : DecisionMakerNode :=
  { nodeWith [wpAt 4 0 0, wpAt 5 1 TYPE_STOP, wpAt 6 2 0] 36 with
    current_status_.ordered_stop_idx := 5 }

/-- A node in `Stop` whose final path shows a `TYPE_STOPLINE` marker at gid 5 on its
second waypoint, with no stop ordered. -/
def stoplineAhead : DecisionMakerNode :=
  nodeWith [wpAt 4 0 0, wpAt 5 1 TYPE_STOPLINE, wpAt 6 2 0] 36

/-! ## Concrete inputs for the scan, the goal loop and the stopline loop -/

/-- A node whose final path has its only stop marker on its last waypoint, two metres
ahead. -/
def markerOnLast : DecisionMakerNode :=
  nodeWith [wpAt 0 0 0, wpAt 1 1 0, wpAt 2 2 TYPE_STOP] 36

/-! ## Concrete inputs and vocabulary for the steering labels and the nearest waypoint -/

/-- A map whose only cross-road area contains every point and in which every lane
segment inside the area turns by `-39.5` degrees; the thresholds are `-40` and `40`
degrees, and there is no stopline. -/
def halfDegreeMap : MapQueries where
  isInsideArea := fun _ _ => true
  calcIntersectWayAngle := fun _ => -79 / 2
  ANGLE_LEFT := -40
  ANGLE_RIGHT := 40
  vmap_stoplines := []
  matchWaypointAndLanelet := fun _ => []
  turn_direction := fun _ => "straight"
  one_way := fun _ => false
  lanelet_stoplines := []

/-- The node `missionNode` (vector-map backend) with one cross-road area, of area id 1,
that holds no inside lane yet. -/
def crossingNode : DecisionMakerNode :=
  { missionNode false with intersects := [⟨1, 1, [], ⟨0, 0, 0, 1⟩, [], []⟩] }

/-- The `steering_state` of every waypoint of `based_lane_array`, lane by lane. -/
def steeringStates (n : DecisionMakerNode) : List (List Nat) :=
  n.current_status_.based_lane_array.lanes.map
    (fun lane => lane.waypoints.map (fun wp => wp.wpstate.steering_state))

/-- The waypoint `w` after the assignment `w.wpstate.steering_state = s`. -/
def withSteering (w : Waypoint) (s : Nat) : Waypoint :=
  { w with wpstate.steering_state := s }

/-- The locals `min_dist` and `nearest_wp_pose` of `drivingMissionCheck` after its last
loop has visited the waypoints `wps`, starting from the values `best`. -/
def nearestOf (A : Amathutils) (position : Point) : List Waypoint → ℚ × Pose → ℚ × Pose
  | [], best => best
  | wp :: rest, best =>
    nearestOf A position rest
      (if best.1 > A.find_distance position wp.pose.position
        then (A.find_distance position wp.pose.position, wp.pose) else best)

/-- The node `missionNode` standing 200 m before the first waypoint of its mission. -/
def remoteNode : DecisionMakerNode :=
  { missionNode true with current_status_.pose := poseAt (-200) }

/-- The node that `drivingMissionCheck` has built on `remoteNode` when it reaches its
final test. -/
def remoteChecked : DecisionMakerNode :=
  ((missionDeviation planeMath oneStoplineMap remoteNode).getD (remoteNode, 0, 0)).1

/-! ## Concrete inputs for the reset step and the marker block -/

/-- A node configured with `stopline_reset_count_ = -1` whose final path starts at gid 10
and which remembers a stop at gid 500, 489 waypoints beyond the second waypoint. -/
def negativeCountNode : DecisionMakerNode :=
  { nodeWith [wpAt 10 0 0, wpAt 11 1 0, wpAt 12 2 0] 36 with
    stopline_reset_count_ := -1,
    current_status_.prev_stopped_wpidx := 500 }

/-- A node in `Stop`, with no stop ordered, that remembers a stop at gid 3 and whose
final path shows a `TYPE_STOPLINE` marker on a second waypoint of gid `-1`. -/
def markerWithoutGid : DecisionMakerNode :=
  { nodeWith [wpAt (-2) 0 0, wpAt (-1) 1 TYPE_STOPLINE, wpAt 0 2 0] 36 with
    current_status_.prev_stopped_wpidx := 3 }

/-- The node `remoteNode`, 200 m before its mission, configured with a distance
threshold of 100. -/
def remoteLenientNode : DecisionMakerNode :=
  { remoteNode with change_threshold_dist_ := 100 }

/-! # Theorems -/

/-! ## State machine engine -/

theorem findTransition_eq_none {W : Type} (ctx : StateContext W) (T : String)
    (h : ∀ t ∈ ctx.transitions, ¬ (t.source = ctx.current ∧ t.trigger = T)) :
    ctx.findTransition T = none := by
  unfold StateContext.findTransition
  rw [List.find?_eq_none]
  intro t ht
  have := h t ht
  simpa using this

/-- C1: when no transition is configured from the current state for the trigger,
`tryNextState` returns the context as it was (same current state, same record of
callback invocations, so neither EXIT nor ENTRY ran) and the world the handlers act on
is untouched; the same holds for a command string forwarded by
`callbackFromStateCmd`. -/
theorem tryNextState_without_edge {W : Type} (ctx : StateContext W) (T : String) (w : W)
    (h : ∀ t ∈ ctx.transitions, ¬ (t.source = ctx.current ∧ t.trigger = T)) :
    (ctx.tryNextState T w).1.current = ctx.current ∧
    (ctx.tryNextState T w).1.calls = ctx.calls ∧
    ctx.tryNextState T w = (ctx, w) ∧
    callbackFromStateCmd ctx T w = (ctx, w) := by
  have hnone := findTransition_eq_none ctx T h
  have key : ctx.tryNextState T w = (ctx, w) := by
    unfold StateContext.tryNextState
    rw [hnone]
  refine ⟨?_, ?_, key, ?_⟩
  · rw [key]
  · rw [key]
  · unfold callbackFromStateCmd
    exact key

theorem tryNextState_without_edge_witness :
    (∀ t ∈ stopContext.transitions,
      ¬ (t.source = stopContext.current ∧ t.trigger = "found_stop_decision")) ∧
    (stopContext.tryNextState "found_stop_decision" 0).1.current = "Stop" ∧
    (stopContext.tryNextState "found_stop_decision" 0).1.calls = [] :=
  ⟨by decide,
   (tryNextState_without_edge stopContext "found_stop_decision" 0 (by decide)).1,
   (tryNextState_without_edge stopContext "found_stop_decision" 0 (by decide)).2.1⟩

/-! ## Stop-marker search -/

/-- C2: with fewer than three final waypoints `getStopSignStateFromWaypoint` returns
`(NULLSTATE, -1)`, whatever the rest of the snapshot holds. -/
theorem getStopSign_short_path (A : Amathutils) (n : DecisionMakerNode)
    (h : n.current_status_.finalwaypoints.waypoints.length < 3) :
    (getStopSignStateFromWaypoint A n).1 = (NULLSTATE, -1) := by
  unfold getStopSignStateFromWaypoint
  split
  · next heq =>
    rw [heq] at h
    simp at h
    omega
  · rfl

theorem getStopSign_short_path_witness :
    (nodeWith [wpAt 0 0 0, wpAt 1 1 TYPE_STOP] 36).current_status_.finalwaypoints.waypoints.length < 3 ∧
    (getStopSignStateFromWaypoint planeMath (nodeWith [wpAt 0 0 0, wpAt 1 1 TYPE_STOP] 36)).1
      = (NULLSTATE, -1) :=
  ⟨by decide, getStopSign_short_path planeMath _ (by decide)⟩

/-- C3: for every speed `v` (m/s) the search distance is
`2 × ((0.3 + 5) × v + v² / (2 × 9.80665 × 0.7))`. -/
theorem distance_to_target_formula (v : ℚ) :
    distance_to_target v
      = 2 * ((3 / 10 + 5) * v + v ^ 2 / (2 * (980665 / 100000) * (7 / 10))) := by
  unfold distance_to_target reaction_time margin g mu
  ring

/-- C4: at 10 m/s the search distance is within 0.01 of 120.57 m. -/
theorem distance_to_target_at_ten :
    |distance_to_target 10 - 12057 / 100| ≤ 1 / 100 := by
  unfold distance_to_target reaction_time margin g mu
  rw [abs_le]
  constructor <;> norm_num

/-- C10: in Stop, with no obstacle, no found stop sign, no ordered stop and a scan
that finds nothing, `updateStopState` requests no transition, so a context fed with
the requests of this call stays as it is. -/
theorem updateStopState_idle (A : Amathutils) (n : DecisionMakerNode)
    (hobs : n.current_status_.obstacle_waypoint = -1)
    (_hfound : n.current_status_.found_stopsign_idx = -1)
    (hord : n.current_status_.ordered_stop_idx = -1)
    (hscan : (getStopSignStateFromWaypoint A n).1.1 = NULLSTATE) :
    (updateStopState A n).requested = n.requested ∧
    ∀ (ctx : StateContext DecisionMakerNode) (w : DecisionMakerNode),
      ctx.tryNextStates ((updateStopState A n).requested.drop n.requested.length) w
        = (ctx, w) := by
  have hreq : (getStopSignStateFromWaypoint A n).2.requested = n.requested := by
    unfold getStopSignStateFromWaypoint
    split <;> rfl
  have hobs2 : (getStopSignStateFromWaypoint A n).2.current_status_.obstacle_waypoint = -1 := by
    unfold getStopSignStateFromWaypoint
    split <;> simpa using hobs
  have hord2 : (getStopSignStateFromWaypoint A n).2.current_status_.ordered_stop_idx = -1 := by
    unfold getStopSignStateFromWaypoint
    split <;> simpa using hord
  have key : (updateStopState A n).requested = n.requested := by
    unfold updateStopState
    simp only [NULLSTATE] at hscan
    simp [hscan, hobs2, hord2, hreq]
  refine ⟨key, ?_⟩
  intro ctx w
  rw [key]
  simp [StateContext.tryNextStates]

theorem updateStopState_idle_witness :
    (nodeWith [] 0).current_status_.obstacle_waypoint = -1 ∧
    (nodeWith [] 0).current_status_.found_stopsign_idx = -1 ∧
    (nodeWith [] 0).current_status_.ordered_stop_idx = -1 ∧
    (getStopSignStateFromWaypoint planeMath (nodeWith [] 0)).1.1 = NULLSTATE ∧
    (updateStopState planeMath (nodeWith [] 0)).requested = [] :=
  ⟨by decide, by decide, by decide, by decide,
   (updateStopState_idle planeMath (nodeWith [] 0) (by decide) (by decide) (by decide)
      (by decide)).1⟩

theorem getStopSign_long (A : Amathutils) (n : DecisionMakerNode)
    (w0 w1 w2 : Waypoint) (rest : List Waypoint)
    (h : n.current_status_.finalwaypoints.waypoints = w0 :: w1 :: w2 :: rest) :
    getStopSignStateFromWaypoint A n =
      (scanStopSign A (prevAfterReset n w1) (requiredDistance A n)
          ((n.current_status_.finalwaypoints.waypoints.drop 1).dropLast) 0
          n.current_status_.pose,
        { n with current_status_.prev_stopped_wpidx := prevAfterReset n w1 }) := by
  unfold getStopSignStateFromWaypoint
  split
  · next a b c d heq =>
    rw [h] at heq
    injection heq with _ h2
    injection h2 with h3 _
    subst h3
    rfl
  · next hne =>
    exact absurd h (hne w0 w1 w2 rest)

theorem scanStopSign_found (A : Amathutils) (prev : Int) (target : ℚ) :
    ∀ (l : List Waypoint) (d : ℚ) (p : Pose),
      (scanStopSign A prev target l d p).1 ≠ NULLSTATE →
      ∃ k w, l[k]? = some w ∧ isStopCandidate prev w ∧
        scanStopSign A prev target l d p = (w.wpstate.stop_state, w.gid) ∧
        (∀ j w', j < k → l[j]? = some w' → ¬ isStopCandidate prev w') ∧
        (∀ j, 1 ≤ j → j ≤ k → accumulate A d p l j ≤ target) := by
  intro l
  induction l with
  | nil => intro d p h; simp [scanStopSign] at h
  | cons w rest ih =>
    intro d p h
    unfold scanStopSign at h ⊢
    by_cases hc : w.wpstate.stop_state ≠ NULLSTATE ∧ prev ≠ w.gid
    · refine ⟨0, w, by simp, ⟨hc.1, fun e => hc.2 e.symm⟩, ?_, ?_, ?_⟩
      · simp only []
        rw [if_pos hc]
      · intro j w' hj; omega
      · intro j h1 h2; omega
    · simp only [hc, if_false] at h ⊢
      by_cases hd : d + A.find_distance_pose p w.pose > target
      · simp [hd, NULLSTATE] at h
      · simp only [hd, if_false] at h ⊢
        obtain ⟨k, w', hk, hcand, hres, hfirst, hacc⟩ := ih _ _ h
        refine ⟨k + 1, w', by simpa using hk, hcand, hres, ?_, ?_⟩
        · intro j w'' hj hget
          cases j with
          | zero =>
            simp at hget
            subst hget
            intro hcw
            exact hc ⟨hcw.1, fun e => hcw.2 e.symm⟩
          | succ j =>
            simp at hget
            exact hfirst j w'' (by omega) hget
        · intro j h1 h2
          cases j with
          | zero => omega
          | succ j =>
            simp only [accumulate]
            cases j with
            | zero =>
              simp only [accumulate]
              exact not_lt.mp hd
            | succ j => exact hacc (j + 1) (by omega) (by omega)

theorem scanStopSign_null (A : Amathutils) (prev : Int) (target : ℚ) :
    ∀ (l : List Waypoint) (d : ℚ) (p : Pose),
      (∀ k w, l[k]? = some w → isStopCandidate prev w →
        (∀ j w', j < k → l[j]? = some w' → ¬ isStopCandidate prev w') →
        k ≠ 0 ∧ ¬ accumulate A d p l k ≤ target) →
      scanStopSign A prev target l d p = (NULLSTATE, -1) := by
  intro l
  induction l with
  | nil => intro d p _; rfl
  | cons w rest ih =>
    intro d p H
    unfold scanStopSign
    by_cases hc : w.wpstate.stop_state ≠ NULLSTATE ∧ prev ≠ w.gid
    · exfalso
      have := H 0 w (by simp) ⟨hc.1, fun e => hc.2 e.symm⟩ (by intro j w' hj; omega)
      exact this.1 rfl
    · simp only [hc, if_false]
      by_cases hd : d + A.find_distance_pose p w.pose > target
      · simp [hd]
      · simp only [hd, if_false]
        apply ih
        intro k w' hk hcand hfirst
        have hH := H (k + 1) w' (by simpa using hk) hcand (by
          intro j w'' hj hget
          cases j with
          | zero =>
            simp at hget
            subst hget
            intro hcw
            exact hc ⟨hcw.1, fun e => hcw.2 e.symm⟩
          | succ j =>
            simp at hget
            exact hfirst j w'' (by omega) hget)
        have hacc : ¬ accumulate A (d + A.find_distance_pose p w.pose) w.pose rest k ≤ target := by
          simpa [accumulate] using hH.2
        refine ⟨?_, hacc⟩
        intro hk0
        subst hk0
        apply hacc
        simp only [accumulate]
        exact not_lt.mp hd

theorem accumulate_dropLast (A : Amathutils) :
    ∀ (l : List Waypoint) (d : ℚ) (p : Pose) (k : Nat), k < l.length →
      accumulate A d p l.dropLast k = accumulate A d p l k := by
  intro l
  induction l with
  | nil => intro d p k hk; simp at hk
  | cons w rest ih =>
    intro d p k hk
    cases k with
    | zero => simp [accumulate]
    | succ k =>
      cases rest with
      | nil => simp at hk
      | cons w2 rest2 =>
        simp only [List.dropLast_cons₂, accumulate]
        apply ih
        simpa using hk

theorem inner_getElem? (wps : List Waypoint) (k : Nat)
    (hk : k < ((wps.drop 1).dropLast).length) :
    ((wps.drop 1).dropLast)[k]? = wps[k + 1]? := by
  rw [List.dropLast_eq_take, List.getElem?_take]
  simp only [List.length_dropLast, List.length_drop] at hk
  have : k < (List.drop 1 wps).length - 1 := by simpa using hk
  simp only [this, if_true, List.getElem?_drop, Nat.add_comm]

/-- C5 (amended): for a final path with at least 3 waypoints, a marker returned by
`getStopSignStateFromWaypoint` is the stop_state and gid of the first waypoint of index
`≥ 1` whose stop_state is set and whose gid differs from `prev_stopped_wpidx` (after
the reset step), and that waypoint either has index 1 or the arc length accumulated
from the vehicle pose up to the waypoint before it does not exceed the required
stopping distance; when no first such waypoint exists, the result is
`(NULLSTATE, -1)`. -/
theorem getStopSign_first_candidate (A : Amathutils) (n : DecisionMakerNode)
    (h3 : 3 ≤ n.current_status_.finalwaypoints.waypoints.length) :
    searchResultStatement A n
      (fun i => i = 1 ∨ accumulatedDistance A n (i - 1) ≤ requiredDistance A n) := by
  obtain ⟨w0, w1, w2, rest, hw⟩ :
      ∃ w0 w1 w2 rest, n.current_status_.finalwaypoints.waypoints = w0 :: w1 :: w2 :: rest := by
    match hm : n.current_status_.finalwaypoints.waypoints with
    | [] => rw [hm] at h3; simp at h3
    | [_] => rw [hm] at h3; simp at h3
    | [_, _] => rw [hm] at h3; simp at h3
    | a :: b :: c :: r => exact ⟨a, b, c, r, rfl⟩
  have hlong := getStopSign_long A n w0 w1 w2 rest hw
  unfold searchResultStatement
  simp only [hlong]
  set wps := n.current_status_.finalwaypoints.waypoints with hwps
  set l := (wps.drop 1).dropLast with hl
  set prev := prevAfterReset n w1 with hprev
  have hlen : ∀ k, k < l.length → k < (wps.drop 1).length := by
    intro k hk
    simp only [hl, List.length_dropLast] at hk
    omega
  have hget : ∀ k w, l[k]? = some w → wps[k + 1]? = some w := by
    intro k w hk
    have hk' : k < l.length := by
      by_contra hcon
      rw [List.getElem?_eq_none (not_lt.mp hcon)] at hk
      exact Option.noConfusion hk
    rw [← inner_getElem? wps k hk']
    exact hk
  have hfirstmap : ∀ k w, l[k]? = some w →
      (∀ j w', j < k → l[j]? = some w' → ¬ isStopCandidate prev w') →
      ∀ j w', 1 ≤ j → j < k + 1 → wps[j]? = some w' → ¬ isStopCandidate prev w' := by
    intro k w hk hfirst j w' h1 hj hgetj
    have hk' : k < l.length := by
      by_contra hcon
      rw [List.getElem?_eq_none (not_lt.mp hcon)] at hk
      exact Option.noConfusion hk
    obtain ⟨j', rfl⟩ : ∃ j', j = j' + 1 := ⟨j - 1, by omega⟩
    apply hfirst j' w' (by omega)
    have hj' : j' < l.length := by omega
    rw [inner_getElem? wps j' hj']
    exact hgetj
  have hacc : ∀ k, k < l.length →
      accumulate A 0 n.current_status_.pose l k = accumulatedDistance A n k := by
    intro k hk
    unfold accumulatedDistance
    rw [hl]
    exact accumulate_dropLast A _ _ _ k (hlen k hk)
  constructor
  · intro hne
    obtain ⟨k, w, hk, hcand, hres, hfirst, hdist⟩ :=
      scanStopSign_found A prev (requiredDistance A n) l 0 n.current_status_.pose hne
    have hk' : k < l.length := by
      by_contra hcon
      rw [List.getElem?_eq_none (not_lt.mp hcon)] at hk
      exact Option.noConfusion hk
    refine ⟨k + 1, w, ⟨by omega, hget k w hk, hcand, hfirstmap k w hk hfirst⟩, hres, ?_⟩
    cases k with
    | zero => left; rfl
    | succ k =>
      right
      have := hdist (k + 1) (by omega) (le_refl _)
      rw [hacc (k + 1) hk'] at this
      simpa using this
  · intro hnone
    apply scanStopSign_null
    intro k w hk hcand hfirst
    have hk' : k < l.length := by
      by_contra hcon
      rw [List.getElem?_eq_none (not_lt.mp hcon)] at hk
      exact Option.noConfusion hk
    have hno : ¬ (k + 1 = 1 ∨
        accumulatedDistance A n (k + 1 - 1) ≤ requiredDistance A n) := by
      intro hw
      exact hnone ⟨k + 1, w, ⟨by omega, hget k w hk, hcand, hfirstmap k w hk hfirst⟩, hw⟩
    rw [hacc k hk']
    constructor
    · intro hk0
      exact hno (Or.inl (by omega))
    · intro hle
      exact hno (Or.inr (by simpa using hle))

theorem getStopSign_first_candidate_witness :
    3 ≤ reversingNode.current_status_.finalwaypoints.waypoints.length ∧
    searchResultStatement planeMath reversingNode
      (fun i => i = 1 ∨
        accumulatedDistance planeMath reversingNode (i - 1)
          ≤ requiredDistance planeMath reversingNode) :=
  ⟨by decide, getStopSign_first_candidate planeMath reversingNode (by decide)⟩

/-- C5 (as stated) fails: reversing at 3.6 km/h the required stopping distance is
negative, the search still returns the stopline marker of the waypoint of index 1,
and the arc length accumulated up to the waypoint before it (zero) exceeds the
required distance. -/
theorem getStopSign_first_candidate_counterexample :
    3 ≤ reversingNode.current_status_.finalwaypoints.waypoints.length ∧
    (getStopSignStateFromWaypoint planeMath reversingNode).1 = (TYPE_STOPLINE, 1) ∧
    ¬ searchResultStatement planeMath reversingNode
      (fun i => accumulatedDistance planeMath reversingNode (i - 1)
          ≤ requiredDistance planeMath reversingNode) := by
  have hres : (getStopSignStateFromWaypoint planeMath reversingNode).1 = (TYPE_STOPLINE, 1) := by
    decide
  have hprev : (getStopSignStateFromWaypoint planeMath
      reversingNode).2.current_status_.prev_stopped_wpidx = -1 := by
    decide
  have hreq : requiredDistance planeMath reversingNode < 0 := by
    norm_num [requiredDistance, reversingNode, nodeWith, planeMath, distance_to_target,
      reaction_time, margin, g, mu]
  refine ⟨by decide, hres, ?_⟩
  intro hst
  unfold searchResultStatement at hst
  simp only [hres, hprev] at hst
  obtain ⟨i, w, hfirst, _, hwithin⟩ := hst.1 (by decide)
  obtain ⟨h1, hget, hcand, hmin⟩ := hfirst
  have hi : i = 1 := by
    by_contra hne
    have hc1 : isStopCandidate (-1) (wpAt 1 1 TYPE_STOPLINE) := by
      constructor <;> decide
    exact hmin 1 (wpAt 1 1 TYPE_STOPLINE) (le_refl _) (by omega) (by decide) hc1
  subst hi
  have hzero : accumulatedDistance planeMath reversingNode (1 - 1) = 0 := by
    simp [accumulatedDistance, accumulate]
  rw [hzero] at hwithin
  exact absurd hwithin (not_le.mpr hreq)

/-! ## Mission validation -/

theorem countFrom_succ (start : Int) (len : Nat) :
    countFrom start (len + 1) = start :: countFrom (start + 1) len := by
  unfold countFrom
  rw [List.range_succ_eq_map]
  simp only [List.map_cons, List.map_map, Nat.cast_zero, add_zero]
  congr 1
  apply List.map_congr_left
  intro k _
  simp only [Function.comp, Nat.cast_succ]
  ring

theorem countFrom_length (start : Int) (len : Nat) : (countFrom start len).length = len := by
  simp [countFrom]

theorem countFrom_append (start : Int) (a b : Nat) :
    countFrom start (a + b) = countFrom start a ++ countFrom (start + a) b := by
  induction a generalizing start with
  | zero => simp [countFrom]
  | succ a ih =>
    rw [Nat.succ_add, countFrom_succ, countFrom_succ, ih]
    simp only [List.cons_append, Nat.cast_succ]
    congr 2
    ring_nf

theorem reindexWaypoints_spec (A : Amathutils) (position : Point) :
    ∀ (wps : List Waypoint) (gid lid : Int) (best : ℚ × Pose),
      (reindexWaypoints A position wps gid lid best).1.map Waypoint.gid
          = countFrom gid wps.length ∧
      (reindexWaypoints A position wps gid lid best).1.map Waypoint.lid
          = countFrom lid wps.length ∧
      (reindexWaypoints A position wps gid lid best).1.length = wps.length ∧
      (reindexWaypoints A position wps gid lid best).2.1 = gid + wps.length := by
  intro wps
  induction wps with
  | nil => intro gid lid best; simp [reindexWaypoints, countFrom]
  | cons wp rest ih =>
    intro gid lid best
    obtain ⟨h1, h2, h3, h4⟩ := ih (gid + 1) (lid + 1)
      (if best.1 > A.find_distance position wp.pose.position
        then (A.find_distance position wp.pose.position, wp.pose) else best)
    simp only [reindexWaypoints, List.map_cons, List.length_cons, countFrom_succ]
    refine ⟨by rw [h1], by rw [h2], by rw [h3], ?_⟩
    rw [h4]
    push_cast
    ring

theorem reindexLanes_spec (A : Amathutils) (position : Point) :
    ∀ (lanes : List Lane) (gid : Int) (best : ℚ × Pose),
      (allWaypoints (reindexLanes A position lanes gid best).1).map Waypoint.gid
          = countFrom gid (allWaypoints lanes).length ∧
      (∀ lane ∈ (reindexLanes A position lanes gid best).1,
          lane.waypoints.map Waypoint.lid = countFrom 0 lane.waypoints.length) ∧
      (reindexLanes A position lanes gid best).2.1 = gid + (allWaypoints lanes).length := by
  intro lanes
  induction lanes with
  | nil => intro gid best; simp [reindexLanes, allWaypoints, countFrom]
  | cons lane rest ih =>
    intro gid best
    obtain ⟨w1, w2, w3, w4⟩ := reindexWaypoints_spec A position lane.waypoints gid 0 best
    obtain ⟨h1, h2, h3⟩ := ih (reindexWaypoints A position lane.waypoints gid 0 best).2.1
      (reindexWaypoints A position lane.waypoints gid 0 best).2.2
    simp only [reindexLanes, allWaypoints, List.foldr_cons, List.map_append,
      List.length_append] at h1 h2 h3 ⊢
    refine ⟨?_, ?_, ?_⟩
    · rw [w1, countFrom_append]
      congr 1
      have := h1
      simp only [allWaypoints] at this
      rw [this, w4]
    · intro l hl
      rcases List.mem_cons.mp hl with rfl | hmem
      · simp only []
        rw [w2, w3]
      · exact h2 l hmem
    · have := h3
      simp only [allWaypoints] at this
      rw [this, w4]
      push_cast
      ring

theorem drivingMissionCheck_lanes (A : Amathutils) (M : MapQueries) (n : DecisionMakerNode)
    (r : Bool) (n' : DecisionMakerNode) (h : drivingMissionCheck A M n = some (r, n')) :
    ∃ n4, annotatePass A M (resetPass n) = some n4 ∧
      n'.current_status_.based_lane_array.lanes
        = (reindexLanes A n4.current_status_.pose.position
            n4.current_status_.based_lane_array.lanes 0 (100, zeroPose)).1 := by
  unfold drivingMissionCheck missionDeviation at h
  cases hann : annotatePass A M (resetPass n) with
  | none => rw [hann] at h; exact Option.noConfusion h
  | some n4 =>
    rw [hann] at h
    refine ⟨n4, rfl, ?_⟩
    simp only [] at h
    split at h
    · injection h with h
      injection h with _ h2
      rw [← h2]
    · split at h
      · injection h with h
        injection h with _ h2
        rw [← h2]
        rfl
      · injection h with h
        injection h with _ h2
        rw [← h2]
        rfl

/-- C6: after `drivingMissionCheck` has returned (true or false), the gids of
`based_lane_array`, read lane by lane and waypoint by waypoint, are `0, 1, 2, ...`
without a gap across the whole array, and the lids of every lane are `0, 1, 2, ...`;
this covers every waypoint that is in the array after the call, inserted ones
included. -/
theorem drivingMissionCheck_indices (A : Amathutils) (M : MapQueries) (n : DecisionMakerNode)
    (r : Bool) (n' : DecisionMakerNode) (h : drivingMissionCheck A M n = some (r, n')) :
    (allWaypoints n'.current_status_.based_lane_array.lanes).map Waypoint.gid
        = countFrom 0 (allWaypoints n'.current_status_.based_lane_array.lanes).length ∧
    ∀ lane ∈ n'.current_status_.based_lane_array.lanes,
      lane.waypoints.map Waypoint.lid = countFrom 0 lane.waypoints.length := by
  obtain ⟨n4, _, hl⟩ := drivingMissionCheck_lanes A M n r n' h
  obtain ⟨h1, h2, _⟩ := reindexLanes_spec A n4.current_status_.pose.position
    n4.current_status_.based_lane_array.lanes 0 (100, zeroPose)
  rw [hl]
  refine ⟨?_, h2⟩
  have hlen : (allWaypoints (reindexLanes A n4.current_status_.pose.position
      n4.current_status_.based_lane_array.lanes 0 (100, zeroPose)).1).length
      = (allWaypoints n4.current_status_.based_lane_array.lanes).length := by
    have := congrArg List.length h1
    rw [List.length_map, countFrom_length] at this
    exact this
  rw [hlen]
  exact h1

theorem drivingMissionCheck_indices_witness :
    drivingMissionCheck planeMath oneStoplineMap (missionNode true) = some (true, validatedNode) ∧
    (allWaypoints validatedNode.current_status_.based_lane_array.lanes).map Waypoint.gid
        = countFrom 0 (allWaypoints validatedNode.current_status_.based_lane_array.lanes).length ∧
    (allWaypoints validatedNode.current_status_.based_lane_array.lanes).length = 3 :=
  ⟨by with_unfolding_all decide,
   (drivingMissionCheck_indices planeMath oneStoplineMap (missionNode true) true validatedNode
      (by with_unfolding_all decide)).1,
   by with_unfolding_all decide⟩

theorem sameButLog_refl (n : DecisionMakerNode) : sameButLog n n :=
  ⟨n.flags, [], by simp, by simp⟩

theorem sameButLog_trans {a b c : DecisionMakerNode} (h1 : sameButLog a b)
    (h2 : sameButLog b c) : sameButLog a c := by
  obtain ⟨f1, e1, rfl, he1⟩ := h1
  obtain ⟨f2, e2, rfl, he2⟩ := h2
  refine ⟨f2, e1 ++ e2, by simp, ?_⟩
  intro p hp
  rcases List.mem_append.mp hp with h | h
  · exact he1 p h
  · exact he2 p h

theorem resetWaypoints_frame :
    ∀ (wps : List Waypoint) (gid lid : Int) (n : DecisionMakerNode),
      sameButLog n (resetWaypoints wps gid lid n).2.2 := by
  intro wps
  induction wps with
  | nil => intro gid lid n; exact sameButLog_refl n
  | cons wp rest ih =>
    intro gid lid n
    simp only [resetWaypoints]
    refine sameButLog_trans ?_ (ih _ _ _)
    split
    · refine ⟨("received_back_state_waypoint", true) :: n.flags,
        [("operator_help_text", Message.text "Received back waypoint.")], rfl, ?_⟩
      intro p hp
      simp only [List.mem_singleton] at hp
      rw [hp]
    · exact sameButLog_refl n

theorem resetLanes_frame :
    ∀ (lanes : List Lane) (gid : Int) (n : DecisionMakerNode),
      sameButLog n (resetLanes lanes gid n).2.2 := by
  intro lanes
  induction lanes with
  | nil => intro gid n; exact sameButLog_refl n
  | cons lane rest ih =>
    intro gid n
    simp only [resetLanes]
    exact sameButLog_trans (resetWaypoints_frame _ _ _ _) (ih _ _)

theorem annotatePass_frame (A : Amathutils) (M : MapQueries) (n n4 : DecisionMakerNode)
    (h : annotatePass A M n = some n4) :
    ∃ intersects1 lane_array,
      n4 = { n with intersects := intersects1,
                    current_status_.based_lane_array := lane_array } := by
  unfold annotatePass at h
  simp only [] at h
  generalize (if n.use_lanelet_map_ = true then
      setWaypointStateUsingLanelet2Map A M n.intersects n.current_status_.based_lane_array
    else
      setWaypointStateUsingVectorMap A M n.insert_stop_line_wp_ n.intersects
        n.current_status_.based_lane_array) = r at h
  cases r with
  | none => exact Option.noConfusion h
  | some pr =>
    obtain ⟨intersects1, lane_array⟩ := pr
    injection h with h
    exact ⟨intersects1, lane_array, h.symm⟩

theorem missionDeviation_frame (A : Amathutils) (M : MapQueries) (n : DecisionMakerNode)
    (n5 : DecisionMakerNode) (min_dist angle_diff_degree : ℚ)
    (h : missionDeviation A M n = some (n5, min_dist, angle_diff_degree)) :
    n5.change_threshold_dist_ = n.change_threshold_dist_ ∧
    n5.change_threshold_angle_ = n.change_threshold_angle_ ∧
    n5.current_status_.using_lane_array = n.current_status_.using_lane_array ∧
    n5.current_status_.pose = n.current_status_.pose ∧
    publishedOn n5 "lane_waypoints_array" = publishedOn n "lane_waypoints_array" := by
  have hreset : ∃ flags extra lanes, resetPass n =
      { n with flags := flags, published := n.published ++ extra,
               current_status_.based_lane_array.lanes := lanes } ∧
      ∀ p ∈ extra, p.1 = "operator_help_text" := by
    unfold resetPass
    obtain ⟨flags, extra, heq, hextra⟩ := resetLanes_frame
      ((n.publishOperatorHelpMessage "Received new mission, checking now...").setEventFlag
        "received_back_state_waypoint" false).current_status_.based_lane_array.lanes 0
      ((n.publishOperatorHelpMessage "Received new mission, checking now...").setEventFlag
        "received_back_state_waypoint" false)
    refine ⟨flags, ("operator_help_text",
      Message.text "Received new mission, checking now...") :: extra,
      (resetLanes
        ((n.publishOperatorHelpMessage "Received new mission, checking now...").setEventFlag
          "received_back_state_waypoint" false).current_status_.based_lane_array.lanes 0
        ((n.publishOperatorHelpMessage "Received new mission, checking now...").setEventFlag
          "received_back_state_waypoint" false)).1, ?_, ?_⟩
    · simp only []
      rw [heq]
      simp [DecisionMakerNode.publishOperatorHelpMessage, DecisionMakerNode.setEventFlag,
        DecisionMakerNode.publish]
    · intro p hp
      rcases List.mem_cons.mp hp with rfl | hmem
      · rfl
      · exact hextra p hmem
  obtain ⟨flags, extra, lanes, hrp, hextra⟩ := hreset
  unfold missionDeviation at h
  cases hann : annotatePass A M (resetPass n) with
  | none => rw [hann] at h; exact Option.noConfusion h
  | some n4 =>
    rw [hann] at h
    simp only [Option.some.injEq, Prod.mk.injEq] at h
    obtain ⟨h5, _, _⟩ := h
    obtain ⟨intersects1, lane_array, hann⟩ := annotatePass_frame A M (resetPass n) n4 hann
    · rw [← h5, hann, hrp]
      refine ⟨rfl, rfl, rfl, rfl, ?_⟩
      simp only [publishedOn, List.filter_append]
      have : List.filter (fun p => p.1 == "lane_waypoints_array") extra = [] := by
        rw [List.filter_eq_nil_iff]
        intro p hp
        rw [hextra p hp]
        decide
      rw [this, List.append_nil]

/-- C7: `drivingMissionCheck` returns true exactly when `min_dist` is at most
`change_threshold_dist_` and `angle_diff_degree` is at most `change_threshold_angle_`
(equality accepted), and false exactly when one of them exceeds its threshold;
`min_dist` and `angle_diff_degree` are the locals the function has computed when it
reaches its final test. -/
theorem drivingMissionCheck_accepts_iff (A : Amathutils) (M : MapQueries)
    (n n5 : DecisionMakerNode) (min_dist angle_diff_degree : ℚ)
    (h : missionDeviation A M n = some (n5, min_dist, angle_diff_degree)) :
    ((drivingMissionCheck A M n).map Prod.fst = some true ↔
      (min_dist ≤ n.change_threshold_dist_ ∧
        angle_diff_degree ≤ n.change_threshold_angle_)) ∧
    ((drivingMissionCheck A M n).map Prod.fst = some false ↔
      (min_dist > n.change_threshold_dist_ ∨
        angle_diff_degree > n.change_threshold_angle_)) := by
  obtain ⟨hd, ha, _, _, _⟩ := missionDeviation_frame A M n n5 min_dist angle_diff_degree h
  unfold drivingMissionCheck
  rw [h]
  simp only [hd, ha]
  by_cases hc : min_dist > n.change_threshold_dist_ ∨
      angle_diff_degree > n.change_threshold_angle_
  · rw [if_pos hc]
    simp only [Option.map_some', Option.some.injEq, Bool.false_eq_true, false_iff, true_iff]
    refine ⟨?_, hc⟩
    intro hle
    rcases hc with h1 | h1
    · exact absurd hle.1 (not_le.mpr h1)
    · exact absurd hle.2 (not_le.mpr h1)
  · rw [if_neg hc]
    simp only [Option.map_some', Option.some.injEq, Bool.true_eq_false, true_iff, false_iff]
    refine ⟨?_, hc⟩
    push_neg at hc
    simpa using hc

/-- C8: when `drivingMissionCheck` returns false, `using_lane_array` is what it was
before the call and no message has been handed to the publisher
`lane_waypoints_array`. -/
theorem drivingMissionCheck_rejected (A : Amathutils) (M : MapQueries)
    (n n' : DecisionMakerNode) (h : drivingMissionCheck A M n = some (false, n')) :
    n'.current_status_.using_lane_array = n.current_status_.using_lane_array ∧
    publishedOn n' "lane_waypoints_array" = publishedOn n "lane_waypoints_array" := by
  unfold drivingMissionCheck at h
  cases hdev : missionDeviation A M n with
  | none => rw [hdev] at h; exact Option.noConfusion h
  | some r =>
    obtain ⟨n5, min_dist, angle_diff_degree⟩ := r
    obtain ⟨_, _, hu, _, hp⟩ := missionDeviation_frame A M n n5 min_dist angle_diff_degree hdev
    rw [hdev] at h
    simp only [] at h
    split at h
    · injection h with h
      injection h with _ h2
      rw [← h2]
      exact ⟨hu, hp⟩
    · split at h
      · injection h with h
        injection h with h1 _
        exact Bool.noConfusion h1
      · injection h with h
        injection h with h1 _
        exact Bool.noConfusion h1

theorem drivingMissionCheck_accepts_iff_witness :
    missionDeviation planeMath oneStoplineMap boundaryNode = some (boundaryChecked, 15, 0) ∧
    boundaryNode.change_threshold_dist_ = 15 ∧
    (drivingMissionCheck planeMath oneStoplineMap boundaryNode).map Prod.fst = some true :=
  ⟨by with_unfolding_all decide, rfl,
   (drivingMissionCheck_accepts_iff planeMath oneStoplineMap boundaryNode boundaryChecked 15 0
      (by with_unfolding_all decide)).1.mpr (by with_unfolding_all decide)⟩

theorem drivingMissionCheck_rejected_witness :
    drivingMissionCheck planeMath oneStoplineMap (farNode true) = some (false, rejectedNode) ∧
    rejectedNode.current_status_.using_lane_array = ⟨0, []⟩ ∧
    publishedOn rejectedNode "lane_waypoints_array" = [] :=
  ⟨by with_unfolding_all decide,
   (drivingMissionCheck_rejected planeMath oneStoplineMap (farNode true) rejectedNode
      (by with_unfolding_all decide)).1,
   (drivingMissionCheck_rejected planeMath oneStoplineMap (farNode true) rejectedNode
      (by with_unfolding_all decide)).2⟩

/-! ## Running the labelling again -/

/-- C9 (as stated) fails: with a stopline that crosses the segment from `(0, 0)` to
`(10, 0)` at 45 degrees the first run inserts a waypoint at `(6, 0)` (3 waypoints), and
the second run, on the output of the first, finds the crossing again between `(0, 0)`
and `(6, 0)` and inserts another one (4 waypoints); this happens with the vector-map
backend when `insert_stop_line_wp_` is set and with the lanelet2 backend. -/
theorem annotateTwice_grows :
    (annotateOnce planeMath slantedStoplineMap (missionNode true)).map waypointCount = some 3 ∧
    (annotateTwice planeMath slantedStoplineMap (missionNode true)).map waypointCount = some 4 ∧
    (annotateOnce planeMath slantedStoplineMap laneletMissionNode).map waypointCount = some 3 ∧
    (annotateTwice planeMath slantedStoplineMap laneletMissionNode).map waypointCount = some 4 ∧
    ¬ (∀ n1 n2, annotateOnce planeMath slantedStoplineMap (missionNode true) = some n1 →
        annotateOnce planeMath slantedStoplineMap n1 = some n2 →
        n2.current_status_.based_lane_array = n1.current_status_.based_lane_array) := by
  have h1 : (annotateOnce planeMath slantedStoplineMap (missionNode true)).map waypointCount
      = some 3 := by with_unfolding_all decide
  have h2 : (annotateTwice planeMath slantedStoplineMap (missionNode true)).map waypointCount
      = some 4 := by with_unfolding_all decide
  refine ⟨h1, h2, by with_unfolding_all decide, by with_unfolding_all decide, ?_⟩
  intro hidem
  cases hn1 : annotateOnce planeMath slantedStoplineMap (missionNode true) with
  | none => rw [hn1] at h1; exact Option.noConfusion h1
  | some n1 =>
    have h2' := h2
    unfold annotateTwice at h2'
    rw [hn1] at h1 h2'
    simp only [] at h2'
    cases hn2 : annotateOnce planeMath slantedStoplineMap n1 with
    | none => rw [hn2] at h2'; exact Option.noConfusion h2'
    | some n2 =>
      rw [hn2] at h2'
      have heq := hidem n1 n2 hn1 hn2
      simp only [Option.map_some', Option.some.injEq, waypointCount] at h1 h2'
      rw [heq, h1] at h2'
      exact absurd h2' (by decide)

theorem vmStoplineStep_eq (A : Amathutils) (wp_idx : Nat) (wps : List Waypoint)
    (stopline : VMStopLine) :
    vmStoplineStep A false (wp_idx, wps) stopline =
      match wps[wp_idx]?, wps[wp_idx + 1]? with
      | some a, some b =>
        match vmStopTarget A stopline wp_idx a.pose.position b.pose.position with
        | none => some (wp_idx, wps)
        | some tc =>
          match wps[tc.1]? with
          | some t => some (wp_idx, wps.set tc.1 (withStop t tc.2))
          | none => none
      | _, _ => none := by
  unfold vmStoplineStep vmStopTarget
  cases h0 : wps[wp_idx]? with
  | none => simp [h0]
  | some a =>
    cases h1 : wps[wp_idx + 1]? with
    | none => simp [h0, h1]
    | some b =>
      simp only [h0, h1, Bool.false_eq_true, not_false_eq_true, if_true]
      by_cases hi : A.isIntersectLine a.pose.position b.pose.position stopline.bp stopline.fp = true
      · simp only [hi, if_true]
        split
        · cases hg : A.getIntersect a.pose.position b.pose.position stopline.bp stopline.fp with
          | none => rfl
          | some ip => rfl
        · rfl
      · simp only [hi]
        rfl

theorem forallFour_get {α : Type} {R : α → α → α → α → Prop} :
    ∀ {l₁ l₂ l₃ l₄ : List α}, ForallFour R l₁ l₂ l₃ l₄ → ∀ (t : Nat) (c : α), l₃[t]? = some c →
      ∃ a b d, l₁[t]? = some a ∧ l₂[t]? = some b ∧ l₄[t]? = some d ∧ R a b c d := by
  intro l₁ l₂ l₃ l₄ h
  induction h with
  | nil => intro t c hc; simp at hc
  | cons hR _ ih =>
    intro t c hc
    cases t with
    | zero =>
      simp only [List.getElem?_cons_zero, Option.some.injEq] at hc
      subst hc
      exact ⟨_, _, _, by simp, by simp, by simp, hR⟩
    | succ t =>
      simp only [List.getElem?_cons_succ] at hc ⊢
      exact ih t c hc

theorem forallFour_get_none {α : Type} {R : α → α → α → α → Prop} :
    ∀ {l₁ l₂ l₃ l₄ : List α}, ForallFour R l₁ l₂ l₃ l₄ → ∀ (t : Nat), l₃[t]? = none →
      l₄[t]? = none := by
  intro l₁ l₂ l₃ l₄ h
  induction h with
  | nil => intro t _; simp
  | cons _ _ ih =>
    intro t hc
    cases t with
    | zero => simp at hc
    | succ t =>
      simp only [List.getElem?_cons_succ] at hc ⊢
      exact ih t hc

theorem forallFour_set {α : Type} {R : α → α → α → α → Prop} :
    ∀ {l₁ l₂ l₃ l₄ : List α}, ForallFour R l₁ l₂ l₃ l₄ → ∀ (t : Nat) (c' d' : α),
      (∀ a b c d, l₁[t]? = some a → l₂[t]? = some b → l₃[t]? = some c → l₄[t]? = some d →
        R a b c d → R a b c' d') →
      ForallFour R l₁ l₂ (l₃.set t c') (l₄.set t d') := by
  intro l₁ l₂ l₃ l₄ h
  induction h with
  | nil => intro t c' d' _; exact ForallFour.nil
  | cons hR hrest ih =>
    intro t c' d' hstep
    cases t with
    | zero =>
      simp only [List.set_cons_zero]
      exact ForallFour.cons (hstep _ _ _ _ (by simp) (by simp) (by simp) (by simp) hR) hrest
    | succ t =>
      simp only [List.set_cons_succ]
      refine ForallFour.cons hR (ih t c' d' ?_)
      intro a b c d h1 h2 h3 h4 hR'
      exact hstep a b c d (by simpa using h1) (by simpa using h2) (by simpa using h3)
        (by simpa using h4) hR'

theorem forallFour_length_eq {α : Type} {R : α → α → α → α → Prop} :
    ∀ {l₁ l₂ l₃ l₄ : List α}, ForallFour R l₁ l₂ l₃ l₄ →
      l₁.length = l₃.length ∧ l₂.length = l₃.length ∧ l₄.length = l₃.length := by
  intro l₁ l₂ l₃ l₄ h
  induction h with
  | nil => simp
  | cons _ _ ih => simp [ih.1, ih.2.1, ih.2.2]

theorem stopRun_position_eq {x0 y0 x y : Waypoint} (h : StopRun x0 y0 x y) :
    x.pose.position = y.pose.position := by
  obtain ⟨h1, h2, h3, _⟩ := h
  rw [h1, h2]
  exact h3

theorem stopRun_assign {x0 y0 x y : Waypoint} (h : StopRun x0 y0 x y) (c : Nat) :
    StopRun x0 y0 (withStop x c) (withStop y c) := by
  obtain ⟨h1, h2, h3, _⟩ := h
  refine ⟨?_, ?_, h3, Or.inl rfl⟩
  · rw [h1]; rfl
  · rw [h2]; rfl

theorem vmStoplineStep_lockstep (A : Amathutils) {a0 b0 a b : List Waypoint}
    (h : ForallFour StopRun a0 b0 a b) (i : Nat) (stopline : VMStopLine)
    (st : Nat × List Waypoint)
    (hs : vmStoplineStep A false (i, a) stopline = some st) :
    ∃ b', vmStoplineStep A false (i, b) stopline = some (st.1, b') ∧
      ForallFour StopRun a0 b0 st.2 b' := by
  rw [vmStoplineStep_eq] at hs ⊢
  cases h0 : a[i]? with
  | none => simp [h0] at hs
  | some x =>
    cases h1 : a[i + 1]? with
    | none => simp [h0, h1] at hs
    | some y =>
      obtain ⟨_, _, x', _, _, hx', hRx⟩ := forallFour_get h i x h0
      obtain ⟨_, _, y', _, _, hy', hRy⟩ := forallFour_get h (i + 1) y h1
      simp only [h0, h1] at hs
      simp only [hx', hy', ← stopRun_position_eq hRx, ← stopRun_position_eq hRy]
      cases htc : vmStopTarget A stopline i x.pose.position y.pose.position with
      | none =>
        simp only [htc, Option.some.injEq] at hs
        subst hs
        exact ⟨b, rfl, h⟩
      | some tc =>
        simp only [htc] at hs
        cases ht : a[tc.1]? with
        | none => simp [ht] at hs
        | some w =>
          obtain ⟨_, _, w', _, _, hw', _⟩ := forallFour_get h tc.1 w ht
          simp only [ht, Option.some.injEq] at hs
          subst hs
          refine ⟨b.set tc.1 (withStop w' tc.2), by simp only [hw'], ?_⟩
          apply forallFour_set h
          intro p q c d _ _ hc hd hR
          rw [ht] at hc
          rw [hw'] at hd
          injection hc with hc
          injection hd with hd
          subst hc
          subst hd
          exact stopRun_assign hR tc.2

theorem vmStoplineInner_lockstep (A : Amathutils) {a0 b0 : List Waypoint} :
    ∀ (stoplines : List VMStopLine) {a b : List Waypoint} (_ : ForallFour StopRun a0 b0 a b)
      (i : Nat) (st : Nat × List Waypoint),
      vmStoplineInner A false stoplines (i, a) = some st →
      ∃ b', vmStoplineInner A false stoplines (i, b) = some (st.1, b') ∧
        ForallFour StopRun a0 b0 st.2 b' := by
  intro stoplines
  induction stoplines with
  | nil =>
    intro a b h i st hs
    simp only [vmStoplineInner, Option.some.injEq] at hs
    subst hs
    exact ⟨b, rfl, h⟩
  | cons sl rest ih =>
    intro a b h i st hs
    simp only [vmStoplineInner] at hs ⊢
    cases hstep : vmStoplineStep A false (i, a) sl with
    | none => simp [hstep] at hs
    | some st1 =>
      obtain ⟨b1, hb1, hrel⟩ := vmStoplineStep_lockstep A h i sl st1 hstep
      simp only [hstep] at hs
      simp only [hb1]
      exact ih hrel st1.1 st hs

theorem vmStoplineOuter_lockstep (A : Amathutils) (stoplines : List VMStopLine)
    {a0 b0 : List Waypoint} :
    ∀ (fuel : Nat) {a b : List Waypoint} (_ : ForallFour StopRun a0 b0 a b) (i : Nat)
      (a' : List Waypoint),
      vmStoplineOuter A false stoplines fuel i a = some a' →
      ∃ b', vmStoplineOuter A false stoplines fuel i b = some b' ∧
        ForallFour StopRun a0 b0 a' b' := by
  intro fuel
  induction fuel with
  | zero => intro a b _ i a' hs; simp [vmStoplineOuter] at hs
  | succ fuel ih =>
    intro a b h i a' hs
    have hlen : b.length = a.length := (forallFour_length_eq h).2.2
    simp only [vmStoplineOuter] at hs ⊢
    rw [hlen]
    by_cases hc : i < a.length - 1
    · simp only [hc, if_true] at hs ⊢
      cases hin : vmStoplineInner A false stoplines (i, a) with
      | none => simp [hin] at hs
      | some st =>
        obtain ⟨b1, hb1, hrel⟩ := vmStoplineInner_lockstep A stoplines h i st hin
        simp only [hin] at hs
        simp only [hb1]
        exact ih hrel _ a' hs
    · simp only [hc, if_false, Option.some.injEq] at hs ⊢
      subst hs
      exact ⟨b, rfl, h⟩

theorem withStop_self (w : Waypoint) : withStop w w.wpstate.stop_state = w := rfl

theorem forallFour_start :
    ∀ (a b : List Waypoint),
      a.map (fun w => w.pose.position) = b.map (fun w => w.pose.position) →
      ForallFour StopRun a b a b := by
  intro a
  induction a with
  | nil =>
    intro b h
    cases b with
    | nil => exact ForallFour.nil
    | cons y b => simp at h
  | cons x a ih =>
    intro b h
    cases b with
    | nil => simp at h
    | cons y b =>
      simp only [List.map_cons, List.cons.injEq] at h
      exact ForallFour.cons ⟨rfl, rfl, h.1, Or.inr ⟨rfl, rfl⟩⟩ (ih b h.2)

theorem vmStoplineOuter_shape (A : Amathutils) (stoplines : List VMStopLine) (fuel i : Nat)
    (a a' : List Waypoint) (h : vmStoplineOuter A false stoplines fuel i a = some a') :
    ForallFour StopRun a a a' a' := by
  obtain ⟨b', hb', hrel⟩ := vmStoplineOuter_lockstep A stoplines fuel
    (forallFour_start a a rfl) i a' h
  rw [h] at hb'
  injection hb' with hb'
  rw [← hb'] at hrel
  exact hrel

theorem vmStoplineOuter_map (A : Amathutils) (stoplines : List VMStopLine)
    (π : Waypoint → Waypoint)
    (hpos : ∀ w, (π w).pose.position = w.pose.position)
    (hstop : ∀ w, (π w).wpstate.stop_state = w.wpstate.stop_state)
    (hcomm : ∀ w c, π (withStop w c) = withStop (π w) c)
    (fuel i : Nat) (a a' : List Waypoint)
    (h : vmStoplineOuter A false stoplines fuel i a = some a') :
    vmStoplineOuter A false stoplines fuel i (a.map π) = some (a'.map π) := by
  have hstart : ForallFour StopRun a (a.map π) a (a.map π) := by
    apply forallFour_start
    rw [List.map_map]
    apply List.map_congr_left
    intro w _
    exact (hpos w).symm
  obtain ⟨b', hb', hrel⟩ := vmStoplineOuter_lockstep A stoplines fuel hstart i a' h
  rw [hb']
  congr 1
  apply List.ext_getElem?
  intro t
  cases hx : a'[t]? with
  | none =>
    rw [forallFour_get_none hrel t hx]
    simp [hx]
  | some x =>
    obtain ⟨x0, y0, y, hx0, hy0, hy, hR⟩ := forallFour_get hrel t x hx
    rw [hy, List.getElem?_map, hx]
    simp only [Option.map_some', Option.some.injEq]
    rw [List.getElem?_map, hx0] at hy0
    simp only [Option.map_some', Option.some.injEq] at hy0
    obtain ⟨h1, h2, _, h4⟩ := hR
    have hs : x.wpstate.stop_state = y.wpstate.stop_state := by
      rcases h4 with h4 | ⟨h4, h5⟩
      · exact h4
      · rw [h4, h5, ← hy0, hstop]
    rw [h2, ← hy0, ← hs, ← hcomm, ← h1]

theorem vmStoplineOuter_again (A : Amathutils) (stoplines : List VMStopLine)
    (fuel i : Nat) (r a' : List Waypoint)
    (hfix : ∀ w ∈ r, keepStopSign w.wpstate.stop_state = w.wpstate.stop_state)
    (h : vmStoplineOuter A false stoplines fuel i r = some a') :
    vmStoplineOuter A false stoplines fuel i
      (List.zipWith (fun rt s => withStop rt (keepStopSign s)) r
        (a'.map (fun w => w.wpstate.stop_state))) = some a' := by
  have hshape := vmStoplineOuter_shape A stoplines fuel i r a' h
  have hlen : a'.length = r.length := (forallFour_length_eq hshape).1.symm
  have hstart : ForallFour StopRun r
      (List.zipWith (fun rt s => withStop rt (keepStopSign s)) r
        (a'.map (fun w => w.wpstate.stop_state))) r
      (List.zipWith (fun rt s => withStop rt (keepStopSign s)) r
        (a'.map (fun w => w.wpstate.stop_state))) := by
    apply forallFour_start
    apply List.ext_getElem?
    intro t
    simp only [List.getElem?_map, List.getElem?_zipWith]
    cases hr : r[t]? with
    | none => simp
    | some rt =>
      have ht : t < a'.length := by
        rw [hlen]
        exact (List.getElem?_eq_some.mp hr).1
      rw [List.getElem?_eq_getElem ht]
      rfl
  obtain ⟨b', hb', hrel⟩ := vmStoplineOuter_lockstep A stoplines fuel hstart i a' h
  rw [hb']
  congr 1
  apply List.ext_getElem?
  intro t
  cases hx : a'[t]? with
  | none => exact forallFour_get_none hrel t hx
  | some x =>
    obtain ⟨x0, y0, y, hx0, hy0, hy, hR⟩ := forallFour_get hrel t x hx
    rw [hy]
    congr 1
    simp only [List.getElem?_zipWith, List.getElem?_map, hx0, hx, Option.map_some',
      Option.some.injEq] at hy0
    obtain ⟨h1, h2, _, h4⟩ := hR
    have hx0mem : x0 ∈ r := List.mem_iff_getElem?.mpr ⟨t, hx0⟩
    have hs : y.wpstate.stop_state = x.wpstate.stop_state := by
      rcases h4 with h4 | ⟨h4, h5⟩
      · exact h4.symm
      · rw [h5, ← hy0]
        show keepStopSign x.wpstate.stop_state = x.wpstate.stop_state
        rw [h4]
        exact hfix x0 hx0mem
    rw [h2, hs, ← hy0]
    rw [h1]
    rfl

theorem markGoal_map (π : Waypoint → Waypoint)
    (hevent : ∀ w e, π (withEvent w e) = withEvent (π w) e) :
    ∀ (fuel counter wp_idx : Nat) (wps : List Waypoint),
      markGoal fuel counter wp_idx (wps.map π)
        = (markGoal fuel counter wp_idx wps).map (List.map π) := by
  intro fuel
  induction fuel with
  | zero => intro counter wp_idx wps; rfl
  | succ fuel ih =>
    intro counter wp_idx wps
    simp only [markGoal]
    by_cases hc : counter ≤ (if wp_idx ≤ num_of_set_mission_complete_flag then wp_idx
        else num_of_set_mission_complete_flag)
    · rw [if_pos hc, if_pos hc]
      by_cases h0 : wp_idx = 0
      · rw [if_pos h0, if_pos h0]
        rfl
      · rw [if_neg h0, if_neg h0, List.getElem?_map]
        cases hw : wps[wp_idx - 1]? with
        | none => rfl
        | some w =>
          simp only [Option.map_some']
          rw [← ih]
          congr 1
          rw [List.map_set]
          congr 1
          exact (hevent w TYPE_EVENT_GOAL).symm
    · rw [if_neg hc, if_neg hc]
      rfl

theorem markGoal_absorb {β : Type} (ρ : Waypoint → β)
    (hevent : ∀ w e, ρ (withEvent w e) = ρ w) :
    ∀ (fuel counter wp_idx : Nat) (wps y : List Waypoint),
      markGoal fuel counter wp_idx wps = some y → y.map ρ = wps.map ρ := by
  intro fuel
  induction fuel with
  | zero => intro counter wp_idx wps y h; simp [markGoal] at h
  | succ fuel ih =>
    intro counter wp_idx wps y h
    simp only [markGoal] at h
    by_cases hc : counter ≤ (if wp_idx ≤ num_of_set_mission_complete_flag then wp_idx
        else num_of_set_mission_complete_flag)
    · rw [if_pos hc] at h
      by_cases h0 : wp_idx = 0
      · rw [if_pos h0] at h
        exact Option.noConfusion h
      · rw [if_neg h0] at h
        cases hw : wps[wp_idx - 1]? with
        | none => simp [hw] at h
        | some w =>
          simp only [hw] at h
          rw [ih _ _ _ y h, List.map_set]
          apply List.ext_getElem?
          intro t
          rw [List.getElem?_set]
          split
          · next heq =>
            subst heq
            split
            · rw [List.getElem?_map, hw]
              simp only [Option.map_some', Option.some.injEq]
              exact hevent w TYPE_EVENT_GOAL
            · next hlt =>
              rw [List.getElem?_eq_none (by simpa using hlt)]
          · rfl
    · rw [if_neg hc] at h
      injection h with h
      rw [h]

theorem vmStoplineOuter_absorb {β : Type} (A : Amathutils) (stoplines : List VMStopLine)
    (ρ : Waypoint → β) (hstop : ∀ w c, ρ (withStop w c) = ρ w)
    (fuel i : Nat) (a a' : List Waypoint)
    (h : vmStoplineOuter A false stoplines fuel i a = some a') :
    a'.map ρ = a.map ρ := by
  have hshape := vmStoplineOuter_shape A stoplines fuel i a a' h
  apply List.ext_getElem?
  intro t
  rw [List.getElem?_map, List.getElem?_map]
  cases hx : a'[t]? with
  | none =>
    have : a[t]? = none := by
      apply List.getElem?_eq_none
      rw [(forallFour_length_eq hshape).1]
      by_contra hcon
      rw [List.getElem?_eq_getElem (by omega)] at hx
      exact Option.noConfusion hx
    rw [this]
  | some x =>
    obtain ⟨x0, _, _, hx0, _, _, hR⟩ := forallFour_get hshape t x hx
    rw [hx0]
    simp only [Option.map_some', Option.some.injEq]
    rw [hR.1]
    exact hstop x0 _

theorem vmStoplinesOfLane_nil (A : Amathutils) (M : MapQueries) (ins : Bool) (lane : Lane)
    (h : lane.waypoints = []) : vmStoplinesOfLane A M ins lane = some lane := by
  unfold vmStoplinesOfLane
  rw [h]
  rfl

theorem vmStoplinesOfLane_some_iff (A : Amathutils) (M : MapQueries) (ins : Bool)
    (lane x : Lane) (h : lane.waypoints ≠ []) :
    vmStoplinesOfLane A M ins lane = some x ↔
      ∃ a' y, vmStoplineOuter A ins (stopSignStoplines M) lane.waypoints.length 0
          lane.waypoints = some a' ∧ markGoalOfLane a' = some y ∧ x = ⟨y⟩ := by
  unfold vmStoplinesOfLane
  have hemp : lane.waypoints.isEmpty = false := by
    cases hl : lane.waypoints with
    | nil => exact absurd hl h
    | cons _ _ => rfl
  rw [hemp]
  simp only [Bool.false_eq_true, if_false]
  cases ho : vmStoplineOuter A ins (stopSignStoplines M) lane.waypoints.length 0
      lane.waypoints with
  | none => simp
  | some a' =>
    cases hg : markGoalOfLane a' with
    | none => simp [hg]
    | some y =>
      simp only [hg, Option.some.injEq]
      constructor
      · intro hx
        exact ⟨a', y, rfl, hg, hx.symm⟩
      · rintro ⟨a'', y', ha, hy, hx⟩
        subst ha
        rw [hg] at hy
        injection hy with hy
        subst hy
        exact hx.symm

theorem vmStoplinesOfLane_map (A : Amathutils) (M : MapQueries) (π : Waypoint → Waypoint)
    (hpos : ∀ w, (π w).pose.position = w.pose.position)
    (hstop : ∀ w, (π w).wpstate.stop_state = w.wpstate.stop_state)
    (hcomm : ∀ w c, π (withStop w c) = withStop (π w) c)
    (hevent : ∀ w e, π (withEvent w e) = withEvent (π w) e)
    (lane x : Lane) (h : vmStoplinesOfLane A M false lane = some x) :
    vmStoplinesOfLane A M false ⟨lane.waypoints.map π⟩ = some ⟨x.waypoints.map π⟩ := by
  by_cases hemp : lane.waypoints = []
  · rw [vmStoplinesOfLane_nil A M false lane hemp] at h
    injection h with h
    subst h
    apply vmStoplinesOfLane_nil
    simp [hemp]
  · obtain ⟨a', y, ho, hg, hx⟩ := (vmStoplinesOfLane_some_iff A M false lane x hemp).mp h
    subst hx
    have hemp' : (⟨lane.waypoints.map π⟩ : Lane).waypoints ≠ [] := by
      simpa using hemp
    rw [vmStoplinesOfLane_some_iff A M false _ _ hemp']
    refine ⟨a'.map π, y.map π, ?_, ?_, rfl⟩
    · simp only [List.length_map]
      exact vmStoplineOuter_map A _ π hpos hstop hcomm _ _ _ a' ho
    · unfold markGoalOfLane at hg ⊢
      rw [List.length_map, markGoal_map π hevent, hg]
      rfl

theorem vmStoplinesOfLane_absorb {β : Type} (A : Amathutils) (M : MapQueries)
    (ρ : Waypoint → β) (hstop : ∀ w c, ρ (withStop w c) = ρ w)
    (hevent : ∀ w e, ρ (withEvent w e) = ρ w)
    (lane x : Lane) (h : vmStoplinesOfLane A M false lane = some x) :
    x.waypoints.map ρ = lane.waypoints.map ρ := by
  by_cases hemp : lane.waypoints = []
  · rw [vmStoplinesOfLane_nil A M false lane hemp] at h
    injection h with h
    subst h
    rfl
  · obtain ⟨a', y, ho, hg, hx⟩ := (vmStoplinesOfLane_some_iff A M false lane x hemp).mp h
    subst hx
    simp only []
    rw [markGoal_absorb ρ hevent _ _ _ a' y hg,
      vmStoplineOuter_absorb A _ ρ hstop _ _ _ a' ho]

theorem vmStoplinesOfLane_again (A : Amathutils) (M : MapQueries) (lane x : Lane)
    (hfix : ∀ w ∈ lane.waypoints, keepStopSign w.wpstate.stop_state = w.wpstate.stop_state)
    (h : vmStoplinesOfLane A M false lane = some x) :
    vmStoplinesOfLane A M false
      ⟨List.zipWith (fun rt s => withStop rt (keepStopSign s)) lane.waypoints
        (x.waypoints.map (fun w => w.wpstate.stop_state))⟩ = some x := by
  by_cases hemp : lane.waypoints = []
  · rw [vmStoplinesOfLane_nil A M false lane hemp] at h
    injection h with h
    subst h
    rw [vmStoplinesOfLane_nil]
    · cases lane with
      | mk wps =>
        simp only [] at hemp
        subst hemp
        rfl
    · simp [hemp]
  · obtain ⟨a', y, ho, hg, hx⟩ := (vmStoplinesOfLane_some_iff A M false lane x hemp).mp h
    subst hx
    simp only []
    have hstops : y.map (fun w => w.wpstate.stop_state)
        = a'.map (fun w => w.wpstate.stop_state) :=
      markGoal_absorb (fun w => w.wpstate.stop_state) (fun _ _ => rfl) _ _ _ a' y hg
    have hlena : a'.length = lane.waypoints.length := by
      have := vmStoplineOuter_absorb A _ (fun _ => ()) (fun _ _ => rfl) _ _ _ a' ho
      simpa using congrArg List.length this
    have hlen : (List.zipWith (fun rt s => withStop rt (keepStopSign s)) lane.waypoints
        (a'.map (fun w => w.wpstate.stop_state))).length = lane.waypoints.length := by
      simp only [List.length_zipWith, List.length_map, hlena, min_self]
    rw [hstops]
    have hemp' : (⟨List.zipWith (fun rt s => withStop rt (keepStopSign s)) lane.waypoints
        (a'.map (fun w => w.wpstate.stop_state))⟩ : Lane).waypoints ≠ [] := by
      intro hnil
      have := congrArg List.length hnil
      simp only [] at this
      rw [hlen] at this
      exact hemp (List.length_eq_zero.mp this)
    rw [vmStoplinesOfLane_some_iff A M false _ _ hemp']
    refine ⟨a', y, ?_, hg, rfl⟩
    simp only []
    rw [hlen]
    exact vmStoplineOuter_again A _ _ _ _ a' hfix ho

theorem mapAll_map {α β : Type} (f : α → Option β) (g : α → α) (g' : β → β)
    (hfg : ∀ a x, f a = some x → f (g a) = some (g' x)) :
    ∀ (as : List α) (xs : List β), mapAll f as = some xs →
      mapAll f (as.map g) = some (xs.map g') := by
  intro as
  induction as with
  | nil =>
    intro xs h
    simp only [mapAll, Option.some.injEq] at h
    subst h
    rfl
  | cons a rest ih =>
    intro xs h
    simp only [mapAll] at h
    cases hfa : f a with
    | none => simp [hfa] at h
    | some x =>
      simp only [hfa] at h
      cases hr : mapAll f rest with
      | none => simp [hr] at h
      | some xr =>
        simp only [hr, Option.some.injEq] at h
        subst h
        simp only [List.map_cons, mapAll, hfg a x hfa, ih xr hr]

theorem insertPointIntoArea_absorb {β : Type} (M : MapQueries) (ρ : Waypoint → β)
    (haid : ∀ (w : Waypoint) (v : Int), ρ { w with wpstate.aid := v } = ρ w)
    (wp wp1 : Waypoint) (area area1 : CrossRoadArea)
    (h : insertPointIntoArea M wp area = some (area1, wp1)) : ρ wp1 = ρ wp := by
  unfold insertPointIntoArea at h
  simp only [] at h
  split at h
  · split at h
    · exact Option.noConfusion h
    · simp only [Option.some.injEq, Prod.mk.injEq] at h
      rw [← h.2]
      exact haid wp _
  · simp only [Option.some.injEq, Prod.mk.injEq] at h
    rw [h.2]

theorem insertPointIntoAreas_absorb {β : Type} (M : MapQueries) (ρ : Waypoint → β)
    (haid : ∀ (w : Waypoint) (v : Int), ρ { w with wpstate.aid := v } = ρ w) :
    ∀ (areas areas1 : List CrossRoadArea) (wp wp1 : Waypoint),
      insertPointIntoAreas M areas wp = some (areas1, wp1) → ρ wp1 = ρ wp := by
  intro areas
  induction areas with
  | nil =>
    intro areas1 wp wp1 h
    simp only [insertPointIntoAreas, Option.some.injEq, Prod.mk.injEq] at h
    rw [h.2]
  | cons area rest ih =>
    intro areas1 wp wp1 h
    simp only [insertPointIntoAreas] at h
    cases h1 : insertPointIntoArea M wp area with
    | none => simp [h1] at h
    | some r1 =>
      obtain ⟨a1, w1⟩ := r1
      simp only [h1] at h
      cases h2 : insertPointIntoAreas M rest w1 with
      | none => simp [h2] at h
      | some r2 =>
        obtain ⟨a2, w2⟩ := r2
        simp only [h2, Option.some.injEq, Prod.mk.injEq] at h
        rw [← h.2, ih a2 w1 w2 h2, insertPointIntoArea_absorb M ρ haid wp w1 area a1 h1]

theorem insertPointsOfLane_absorb {β : Type} (M : MapQueries) (ρ : Waypoint → β)
    (haid : ∀ (w : Waypoint) (v : Int), ρ { w with wpstate.aid := v } = ρ w) :
    ∀ (wps wps1 : List Waypoint) (areas areas1 : List CrossRoadArea),
      insertPointsOfLane M areas wps = some (areas1, wps1) → wps1.map ρ = wps.map ρ := by
  intro wps
  induction wps with
  | nil =>
    intro wps1 areas areas1 h
    simp only [insertPointsOfLane, Option.some.injEq, Prod.mk.injEq] at h
    rw [← h.2]
  | cons wp rest ih =>
    intro wps1 areas areas1 h
    simp only [insertPointsOfLane] at h
    cases h1 : insertPointIntoAreas M areas wp with
    | none => simp [h1] at h
    | some r1 =>
      obtain ⟨a1, w1⟩ := r1
      simp only [h1] at h
      cases h2 : insertPointsOfLane M a1 rest with
      | none => simp [h2] at h
      | some r2 =>
        obtain ⟨a2, ws2⟩ := r2
        simp only [h2, Option.some.injEq, Prod.mk.injEq] at h
        rw [← h.2]
        simp only [List.map_cons]
        rw [ih ws2 a1 a2 h2, insertPointIntoAreas_absorb M ρ haid areas a1 wp w1 h1]

theorem insertPointsOfLanes_absorb (M : MapQueries) (ρ : Waypoint → Waypoint)
    (haid : ∀ (w : Waypoint) (v : Int), ρ { w with wpstate.aid := v } = ρ w) :
    ∀ (lanes lanes1 : List Lane) (areas areas1 : List CrossRoadArea),
      insertPointsOfLanes M areas lanes = some (areas1, lanes1) →
      lanes1.map (mapLane ρ) = lanes.map (mapLane ρ) := by
  intro lanes
  induction lanes with
  | nil =>
    intro lanes1 areas areas1 h
    simp only [insertPointsOfLanes, Option.some.injEq, Prod.mk.injEq] at h
    rw [← h.2]
  | cons lane rest ih =>
    intro lanes1 areas areas1 h
    simp only [insertPointsOfLanes] at h
    cases h1 : insertPointsOfLane M areas lane.waypoints with
    | none => simp [h1] at h
    | some r1 =>
      obtain ⟨a1, w1⟩ := r1
      simp only [h1] at h
      cases h2 : insertPointsOfLanes M a1 rest with
      | none => simp [h2] at h
      | some r2 =>
        obtain ⟨a2, ls2⟩ := r2
        simp only [h2, Option.some.injEq, Prod.mk.injEq] at h
        rw [← h.2]
        simp only [List.map_cons]
        rw [ih ls2 a1 a2 h2]
        congr 1
        simp only [mapLane]
        rw [insertPointsOfLane_absorb M ρ haid lane.waypoints w1 areas a1 h1]

theorem insertPointsOfLanes_nil (M : MapQueries) :
    ∀ (lanes : List Lane), insertPointsOfLanes M [] lanes = some ([], lanes) := by
  have hwps : ∀ (wps : List Waypoint), insertPointsOfLane M [] wps = some ([], wps) := by
    intro wps
    induction wps with
    | nil => rfl
    | cons wp rest ih => simp only [insertPointsOfLane, insertPointIntoAreas, ih]
  intro lanes
  induction lanes with
  | nil => rfl
  | cons lane rest ih => simp only [insertPointsOfLanes, hwps, ih]

theorem setSteering_absorb (ρ : Waypoint → Waypoint)
    (hsteer : ∀ (w : Waypoint) (v : Nat), ρ { w with wpstate.steering_state := v } = ρ w)
    (area_id : Int) (s : Nat) (wp_lane : Waypoint) (lanes : List Lane) :
    (setSteering area_id s wp_lane lanes).map (mapLane ρ) = lanes.map (mapLane ρ) := by
  unfold setSteering
  rw [List.map_map]
  apply List.map_congr_left
  intro lane _
  simp only [Function.comp, mapLane, List.map_map]
  congr 1
  apply List.map_congr_left
  intro wp _
  simp only [Function.comp]
  split
  · exact hsteer wp s
  · rfl

theorem foldl_absorb {α γ δ : Type} (F : γ → δ) (f : γ → α → γ)
    (hf : ∀ acc x, F (f acc x) = F acc) :
    ∀ (xs : List α) (init : γ), F (xs.foldl f init) = F init := by
  intro xs
  induction xs with
  | nil => intro init; rfl
  | cons x rest ih => intro init; simp only [List.foldl_cons]; rw [ih, hf]

theorem steeringPass_absorb (M : MapQueries) (ρ : Waypoint → Waypoint)
    (hsteer : ∀ (w : Waypoint) (v : Nat), ρ { w with wpstate.steering_state := v } = ρ w)
    (intersects : List CrossRoadArea) (lanes : List Lane) :
    (steeringPass M intersects lanes).map (mapLane ρ) = lanes.map (mapLane ρ) := by
  unfold steeringPass
  simp only []
  rw [List.map_map]
  have h1 : (mapLane ρ ∘ fun lane : Lane =>
      (⟨lane.waypoints.map (fun wp =>
        if wp.wpstate.steering_state = 0 then
          { wp with wpstate.steering_state := STR_STRAIGHT }
        else wp)⟩ : Lane)) = mapLane ρ := by
    funext lane
    simp only [Function.comp, mapLane, List.map_map]
    congr 1
    apply List.map_congr_left
    intro wp _
    simp only [Function.comp]
    split
    · exact hsteer wp _
    · rfl
  rw [h1]
  apply foldl_absorb (fun ls => List.map (mapLane ρ) ls)
  intro acc area
  apply foldl_absorb (fun ls => List.map (mapLane ρ) ls)
  intro acc2 laneinArea
  apply foldl_absorb (fun ls => List.map (mapLane ρ) ls)
  intro acc3 wp_lane
  exact setSteering_absorb ρ hsteer _ _ _ _

theorem keepStopSign_idem (s : Nat) : keepStopSign (keepStopSign s) = keepStopSign s := by
  unfold keepStopSign
  by_cases h : s ≠ TYPE_STOPLINE ∧ s ≠ TYPE_STOP
  · rw [if_pos h]
    decide
  · rw [if_neg h, if_neg h]

theorem resetWaypoint_stop (gid lid : Int) (w : Waypoint) :
    (resetWaypoint gid lid w).wpstate.stop_state = keepStopSign w.wpstate.stop_state := rfl

theorem resetWaypoints_counter :
    ∀ (wps : List Waypoint) (gid lid : Int) (n : DecisionMakerNode),
      (resetWaypoints wps gid lid n).2.1 = gid + wps.length ∧
      (resetWaypoints wps gid lid n).1.length = wps.length := by
  intro wps
  induction wps with
  | nil => intro gid lid n; simp [resetWaypoints]
  | cons wp rest ih =>
    intro gid lid n
    simp only [resetWaypoints, List.length_cons]
    refine ⟨?_, ?_⟩
    · rw [(ih _ _ _).1]
      push_cast
      ring
    · rw [(ih _ _ _).2]

theorem resetWaypoints_normal :
    ∀ (wps : List Waypoint) (gid lid : Int) (n : DecisionMakerNode),
      ∀ w ∈ (resetWaypoints wps gid lid n).1,
        withoutAreaLabels w = w ∧
        keepStopSign w.wpstate.stop_state = w.wpstate.stop_state := by
  intro wps
  induction wps with
  | nil => intro gid lid n w hw; simp [resetWaypoints] at hw
  | cons wp rest ih =>
    intro gid lid n w hw
    simp only [resetWaypoints, List.mem_cons] at hw
    rcases hw with rfl | hw
    · exact ⟨rfl, keepStopSign_idem _⟩
    · exact ih _ _ _ w hw

theorem resetWaypoints_over :
    ∀ (wps y : List Waypoint) (gid lid : Int) (n n' : DecisionMakerNode),
      y.map (fun w => (w.pose, w.twist_linear_x))
        = (resetWaypoints wps gid lid n).1.map (fun w => (w.pose, w.twist_linear_x)) →
      (resetWaypoints y gid lid n').1
        = List.zipWith (fun rt s => withStop rt (keepStopSign s))
            (resetWaypoints wps gid lid n).1 (y.map (fun w => w.wpstate.stop_state)) := by
  intro wps
  induction wps with
  | nil =>
    intro y gid lid n n' h
    simp only [resetWaypoints, List.map_nil, List.map_eq_nil_iff] at h
    subst h
    rfl
  | cons wp rest ih =>
    intro y gid lid n n' h
    cases y with
    | nil => simp [resetWaypoints] at h
    | cons yh yt =>
      simp only [resetWaypoints, List.map_cons, List.cons.injEq, Prod.mk.injEq] at h
      obtain ⟨⟨hp, ht⟩, hrest⟩ := h
      simp only [resetWaypoints, List.map_cons, List.zipWith_cons_cons]
      congr 1
      · simp only [resetWaypoint, withStop, keepStopSign] at hp ht ⊢
        rw [hp, ht]
      · exact ih yt _ _ _ _ hrest

theorem resetWaypoints_strip :
    ∀ (y : List Waypoint) (gid lid : Int) (n : DecisionMakerNode),
      resetWaypoints (y.map withoutAreaLabels) gid lid n = resetWaypoints y gid lid n := by
  intro y
  induction y with
  | nil => intro gid lid n; rfl
  | cons w rest ih =>
    intro gid lid n
    simp only [List.map_cons, resetWaypoints]
    rw [ih]
    rfl

theorem resetLanes_strip :
    ∀ (Y : List Lane) (gid : Int) (n : DecisionMakerNode),
      resetLanes (Y.map (mapLane withoutAreaLabels)) gid n = resetLanes Y gid n := by
  intro Y
  induction Y with
  | nil => intro gid n; rfl
  | cons lane rest ih =>
    intro gid n
    simp only [List.map_cons, resetLanes, mapLane]
    rw [resetWaypoints_strip, ih]

theorem resetLanes_normal :
    ∀ (L : List Lane) (gid : Int) (n : DecisionMakerNode),
      (resetLanes L gid n).1.map (mapLane withoutAreaLabels) = (resetLanes L gid n).1 := by
  intro L
  induction L with
  | nil => intro gid n; rfl
  | cons lane rest ih =>
    intro gid n
    simp only [resetLanes, List.map_cons]
    rw [ih]
    congr 1
    simp only [mapLane]
    congr 1
    conv_rhs => rw [← List.map_id (resetWaypoints lane.waypoints gid 0 n).1]
    apply List.map_congr_left
    intro w hw
    exact (resetWaypoints_normal _ _ _ _ w hw).1

theorem annotateLanes_again (A : Amathutils) (M : MapQueries) :
    ∀ (L : List Lane) (gid : Int) (n : DecisionMakerNode) (Y : List Lane),
      mapAll (vmStoplinesOfLane A M false) (resetLanes L gid n).1 = some Y →
      ∀ n', mapAll (vmStoplinesOfLane A M false) (resetLanes Y gid n').1 = some Y := by
  intro L
  induction L with
  | nil =>
    intro gid n Y h n'
    simp only [resetLanes, mapAll, Option.some.injEq] at h
    subst h
    rfl
  | cons lane rest ih =>
    intro gid n Y h n'
    simp only [resetLanes, mapAll] at h
    cases hx : vmStoplinesOfLane A M false ⟨(resetWaypoints lane.waypoints gid 0 n).1⟩ with
    | none => simp [hx] at h
    | some x =>
      simp only [hx] at h
      cases hr : mapAll (vmStoplinesOfLane A M false)
          (resetLanes rest (resetWaypoints lane.waypoints gid 0 n).2.1
            (resetWaypoints lane.waypoints gid 0 n).2.2).1 with
      | none => simp [hr] at h
      | some Yr =>
        simp only [hr, Option.some.injEq] at h
        subst h
        have hpt := vmStoplinesOfLane_absorb A M (fun w => (w.pose, w.twist_linear_x))
          (fun _ _ => rfl) (fun _ _ => rfl) _ x hx
        simp only [] at hpt
        have hover := resetWaypoints_over lane.waypoints x.waypoints gid 0 n n' hpt
        have hagain := vmStoplinesOfLane_again A M _ x
          (fun w hw => (resetWaypoints_normal lane.waypoints gid 0 n w hw).2) hx
        simp only [] at hagain
        have hcount : (resetWaypoints x.waypoints gid 0 n').2.1
            = (resetWaypoints lane.waypoints gid 0 n).2.1 := by
          rw [(resetWaypoints_counter _ _ _ _).1, (resetWaypoints_counter _ _ _ _).1]
          have := congrArg List.length hpt
          simp only [List.length_map] at this
          rw [this, (resetWaypoints_counter _ _ _ _).2]
        simp only [resetLanes, mapAll]
        rw [hover, hagain, hcount]
        simp only []
        rw [ih _ _ Yr hr]

theorem resetPass_fields (n : DecisionMakerNode) :
    (∃ n0, (resetPass n).current_status_.based_lane_array.lanes
        = (resetLanes n.current_status_.based_lane_array.lanes 0 n0).1) ∧
    (resetPass n).current_status_.based_lane_array.id = n.current_status_.based_lane_array.id ∧
    (resetPass n).intersects = n.intersects ∧
    (resetPass n).use_lanelet_map_ = n.use_lanelet_map_ ∧
    (resetPass n).insert_stop_line_wp_ = n.insert_stop_line_wp_ := by
  unfold resetPass
  obtain ⟨flags, extra, heq, _⟩ := resetLanes_frame
    ((n.publishOperatorHelpMessage "Received new mission, checking now...").setEventFlag
      "received_back_state_waypoint" false).current_status_.based_lane_array.lanes 0
    ((n.publishOperatorHelpMessage "Received new mission, checking now...").setEventFlag
      "received_back_state_waypoint" false)
  simp only []
  refine ⟨⟨_, rfl⟩, ?_, ?_, ?_, ?_⟩ <;> rw [heq] <;> rfl

theorem annotateOnce_vm_eq (A : Amathutils) (M : MapQueries) (n : DecisionMakerNode)
    (hvm : n.use_lanelet_map_ = false) (hins : n.insert_stop_line_wp_ = false) :
    annotateOnce A M n =
      match insertPointsOfLanes M n.intersects
          (resetPass n).current_status_.based_lane_array.lanes with
      | none => none
      | some p =>
        match mapAll (vmStoplinesOfLane A M false) (steeringPass M p.1 p.2) with
        | none => none
        | some X =>
          some { resetPass n with
            intersects := p.1,
            current_status_.based_lane_array :=
              ⟨n.current_status_.based_lane_array.id, X⟩ } := by
  obtain ⟨_, hid, hint, hvm', hins'⟩ := resetPass_fields n
  unfold annotateOnce annotatePass setWaypointStateUsingVectorMap insertPointWithinCrossRoad
  rw [hvm', hvm, hins', hins, hint]
  simp only [Bool.false_eq_true, if_false]
  cases hI : insertPointsOfLanes M n.intersects
      (resetPass n).current_status_.based_lane_array.lanes with
  | none => rfl
  | some p =>
    obtain ⟨I1, RI⟩ := p
    simp only []
    cases hX : mapAll (vmStoplinesOfLane A M false) (steeringPass M I1 RI) with
    | none => rfl
    | some X =>
      simp only [hid, hvm', hvm, hins', hins]

theorem vmStoplinesOfLane_strip (A : Amathutils) (M : MapQueries) (lane x : Lane)
    (h : vmStoplinesOfLane A M false lane = some x) :
    vmStoplinesOfLane A M false (mapLane withoutAreaLabels lane)
      = some (mapLane withoutAreaLabels x) :=
  vmStoplinesOfLane_map A M withoutAreaLabels (fun _ => rfl) (fun _ => rfl)
    (fun _ _ => rfl) (fun _ _ => rfl) lane x h

theorem vmStoplinesOfLane_straight (A : Amathutils) (M : MapQueries) (lane x : Lane)
    (h : vmStoplinesOfLane A M false lane = some x) :
    vmStoplinesOfLane A M false (mapLane straightNoArea lane)
      = some (mapLane straightNoArea x) :=
  vmStoplinesOfLane_map A M straightNoArea (fun _ => rfl) (fun _ => rfl)
    (fun _ _ => rfl) (fun _ _ => rfl) lane x h

theorem steeringPass_nil_strip (M : MapQueries) (Y : List Lane) :
    steeringPass M [] (Y.map (mapLane withoutAreaLabels)) = Y.map (mapLane straightNoArea) := by
  unfold steeringPass
  simp only [List.foldl_nil, List.map_map]
  apply List.map_congr_left
  intro lane _
  simp only [Function.comp, mapLane, List.map_map]
  congr 1

theorem labelled_lanes_strip (M : MapQueries) (areas areas1 : List CrossRoadArea)
    (R RI : List Lane) (hI : insertPointsOfLanes M areas R = some (areas1, RI))
    (hR : R.map (mapLane withoutAreaLabels) = R) :
    (steeringPass M areas1 RI).map (mapLane withoutAreaLabels) = R := by
  rw [steeringPass_absorb M withoutAreaLabels (fun _ _ => rfl),
    insertPointsOfLanes_absorb M withoutAreaLabels (fun _ _ => rfl) R RI areas areas1 hI, hR]

/-- C9 (amended): with the vector-map backend and `insert_stop_line_wp_` false, running
the labelling (reset pass, then `setWaypointStateUsingVectorMap`) a second time on its
own output gives a lane array with the same lanes and, on every waypoint, the same gid,
lid, pose, speed and stop, accel, lane-change and event state (everything but the two
labels `aid` and `steering_state` taken from the cross-road areas); when the node has
no cross-road area the second run returns and gives the very same lane array. -/
theorem annotateOnce_again_without_insertion (A : Amathutils) (M : MapQueries) (n n1 : DecisionMakerNode)
    (hvm : n.use_lanelet_map_ = false) (hins : n.insert_stop_line_wp_ = false)
    (h1 : annotateOnce A M n = some n1) :
    (∀ n2, annotateOnce A M n1 = some n2 →
      n2.current_status_.based_lane_array.lanes.map (mapLane withoutAreaLabels)
        = n1.current_status_.based_lane_array.lanes.map (mapLane withoutAreaLabels) ∧
      n2.current_status_.based_lane_array.id = n1.current_status_.based_lane_array.id) ∧
    (n.intersects = [] →
      ∃ n2, annotateOnce A M n1 = some n2 ∧
        n2.current_status_.based_lane_array = n1.current_status_.based_lane_array) := by
  obtain ⟨⟨n0, hR⟩, _, _, hvm', hins'⟩ := resetPass_fields n
  rw [annotateOnce_vm_eq A M n hvm hins] at h1
  cases hI : insertPointsOfLanes M n.intersects
      (resetPass n).current_status_.based_lane_array.lanes with
  | none => simp [hI] at h1
  | some p =>
    obtain ⟨I1, RI⟩ := p
    simp only [hI] at h1
    cases hX : mapAll (vmStoplinesOfLane A M false) (steeringPass M I1 RI) with
    | none => simp [hX] at h1
    | some X =>
      simp only [hX, Option.some.injEq] at h1
      have hn1lanes : n1.current_status_.based_lane_array
          = ⟨n.current_status_.based_lane_array.id, X⟩ := by rw [← h1]
      have hn1int : n1.intersects = I1 := by rw [← h1]
      have hvm1 : n1.use_lanelet_map_ = false := by rw [← h1]; exact hvm'.trans hvm
      have hins1 : n1.insert_stop_line_wp_ = false := by rw [← h1]; exact hins'.trans hins
      have hRn : (resetPass n).current_status_.based_lane_array.lanes.map
          (mapLane withoutAreaLabels)
          = (resetPass n).current_status_.based_lane_array.lanes := by
        rw [hR]
        exact resetLanes_normal _ _ _
      have hA0 := labelled_lanes_strip M n.intersects I1 _ RI hI hRn
      have hstar : mapAll (vmStoplinesOfLane A M false)
          (resetLanes n.current_status_.based_lane_array.lanes 0 n0).1
          = some (X.map (mapLane withoutAreaLabels)) := by
        have := mapAll_map (vmStoplinesOfLane A M false) (mapLane withoutAreaLabels)
          (mapLane withoutAreaLabels) (vmStoplinesOfLane_strip A M) _ X hX
        rw [hA0, hR] at this
        exact this
      have hcore : ∀ n', mapAll (vmStoplinesOfLane A M false) (resetLanes X 0 n').1
          = some (X.map (mapLane withoutAreaLabels)) := by
        intro n'
        have := annotateLanes_again A M _ 0 n0 _ hstar n'
        rw [resetLanes_strip] at this
        exact this
      obtain ⟨⟨n0', hR'⟩, _, _, _, _⟩ := resetPass_fields n1
      rw [hn1lanes] at hR'
      simp only [] at hR'
      have hRn' : (resetPass n1).current_status_.based_lane_array.lanes.map
          (mapLane withoutAreaLabels)
          = (resetPass n1).current_status_.based_lane_array.lanes := by
        rw [hR']
        exact resetLanes_normal _ _ _
      refine ⟨?_, ?_⟩
      · intro n2 h2
        rw [annotateOnce_vm_eq A M n1 hvm1 hins1] at h2
        cases hI2 : insertPointsOfLanes M n1.intersects
            (resetPass n1).current_status_.based_lane_array.lanes with
        | none => simp [hI2] at h2
        | some p2 =>
          obtain ⟨I2, RI2⟩ := p2
          simp only [hI2] at h2
          cases hX2 : mapAll (vmStoplinesOfLane A M false) (steeringPass M I2 RI2) with
          | none => simp [hX2] at h2
          | some X' =>
            simp only [hX2, Option.some.injEq] at h2
            have hB0 := labelled_lanes_strip M n1.intersects I2 _ RI2 hI2 hRn'
            have h2star := mapAll_map (vmStoplinesOfLane A M false)
              (mapLane withoutAreaLabels) (mapLane withoutAreaLabels)
              (vmStoplinesOfLane_strip A M) _ X' hX2
            rw [hB0, hR', hcore n0'] at h2star
            injection h2star with h2star
            rw [← h2, hn1lanes]
            exact ⟨h2star.symm, rfl⟩
      · intro hnil
        rw [hnil, insertPointsOfLanes_nil] at hI
        simp only [Option.some.injEq, Prod.mk.injEq] at hI
        obtain ⟨hI1, hRI⟩ := hI
        subst hI1
        subst hRI
        have hXeq : X = (X.map (mapLane withoutAreaLabels)).map (mapLane straightNoArea) := by
          have := mapAll_map (vmStoplinesOfLane A M false) (mapLane straightNoArea)
            (mapLane straightNoArea) (vmStoplinesOfLane_straight A M) _ _ hstar
          rw [← hR, ← steeringPass_nil_strip M, hRn, hX] at this
          injection this
        rw [annotateOnce_vm_eq A M n1 hvm1 hins1, hn1int, insertPointsOfLanes_nil]
        simp only []
        have hX2 : mapAll (vmStoplinesOfLane A M false)
            (steeringPass M [] (resetPass n1).current_status_.based_lane_array.lanes)
            = some X := by
          rw [← hRn', steeringPass_nil_strip M, hR']
          have := mapAll_map (vmStoplinesOfLane A M false) (mapLane straightNoArea)
            (mapLane straightNoArea) (vmStoplinesOfLane_straight A M) _ _ (hcore n0')
          rw [← hXeq] at this
          exact this
        rw [hX2]
        refine ⟨_, rfl, ?_⟩
        simp only []
        rw [hn1lanes]

theorem annotateOnce_again_without_insertion_witness :
    (missionNode false).use_lanelet_map_ = false ∧
    (missionNode false).insert_stop_line_wp_ = false ∧
    annotateOnce planeMath slantedStoplineMap (missionNode false) = some labelledNode ∧
    (annotateOnce planeMath slantedStoplineMap labelledNode).map
        (fun n2 => n2.current_status_.based_lane_array)
      = some labelledNode.current_status_.based_lane_array := by
  have h1 : annotateOnce planeMath slantedStoplineMap (missionNode false) = some labelledNode := by
    with_unfolding_all decide
  refine ⟨rfl, rfl, h1, ?_⟩
  obtain ⟨n2, h2, heq⟩ :=
    (annotateOnce_again_without_insertion planeMath slantedStoplineMap (missionNode false)
      labelledNode rfl rfl h1).2 rfl
  rw [h2, Option.map_some', heq]

/-! ## The mission check returns -/

/-- Length after `insert(begin() + i, wp)`. -/
theorem insertAt_length (wps : List Waypoint) (i : Nat) (wp : Waypoint) (h : i ≤ wps.length) :
    (insertAt wps i wp).length = wps.length + 1 := by
  unfold insertAt
  simp only [List.length_append, List.length_take, List.length_cons, List.length_drop]
  omega

/-- One stopline at one waypoint index of the vector-map pass never faults while the
index has a successor, and leaves a successor behind the returned index. -/
theorem vmStoplineStep_total (A : Amathutils) (ins : Bool) (i : Nat) (wps : List Waypoint)
    (stopline : VMStopLine) (h : i + 1 < wps.length) :
    ∃ st, vmStoplineStep A ins (i, wps) stopline = some st ∧
      st.1 + 1 < st.2.length ∧ st.2.length - st.1 = wps.length - i ∧
      (ins = false → st.2.length = wps.length) ∧
      (st.2.length = wps.length ∨ st.2.length = wps.length + 1) := by
  have h0 : wps[i]? = some wps[i] := List.getElem?_eq_getElem (by omega)
  have h1 : wps[i + 1]? = some wps[i + 1] := List.getElem?_eq_getElem h
  unfold vmStoplineStep
  simp only [h0, h1]
  split
  · split
    · split
      · split
        · next ip hg =>
          split
          · next t ht =>
            refine ⟨_, rfl, ?_, ?_, ?_, ?_⟩ <;> simp only [List.length_set]
            · exact h
            · intro _; trivial
            · left; trivial
          · next hn =>
            exfalso
            split at hn
            · rw [h1] at hn; exact Option.noConfusion hn
            · rw [h0] at hn; exact Option.noConfusion hn
        · exact ⟨_, rfl, h, rfl, fun _ => rfl, Or.inl rfl⟩
      · next hins =>
        have hlen := insertAt_length wps (i + 1)
          { wps[i] with
            wpstate.stop_state := signTypeAsState stopline.sign_type,
            pose.position :=
              ⟨(A.getNearPtOnLine
                  { x := (stopline.bp.x + stopline.fp.x) / 2,
                    y := (stopline.bp.y + stopline.fp.y) / 2,
                    z := (stopline.bp.z + stopline.fp.z) / 2 }
                  wps[i].pose.position wps[i + 1].pose.position).x,
               (A.getNearPtOnLine
                  { x := (stopline.bp.x + stopline.fp.x) / 2,
                    y := (stopline.bp.y + stopline.fp.y) / 2,
                    z := (stopline.bp.z + stopline.fp.z) / 2 }
                  wps[i].pose.position wps[i + 1].pose.position).y,
               (wps[i].pose.position.z + wps[i + 1].pose.position.z) / 2⟩,
            twist_linear_x := (wps[i].twist_linear_x + wps[i + 1].twist_linear_x) / 2 }
          (by omega)
        refine ⟨_, rfl, ?_, ?_, ?_, ?_⟩
        · simp only []; rw [hlen]; omega
        · simp only []; rw [hlen]; omega
        · intro hf
          rw [hf] at hins
          simp at hins
        · right; exact hlen
    · exact ⟨_, rfl, h, rfl, fun _ => rfl, Or.inl rfl⟩
  · exact ⟨_, rfl, h, rfl, fun _ => rfl, Or.inl rfl⟩

theorem vmStoplineInner_total (A : Amathutils) (ins : Bool) :
    ∀ (stoplines : List VMStopLine) (i : Nat) (wps : List Waypoint), i + 1 < wps.length →
      ∃ st, vmStoplineInner A ins stoplines (i, wps) = some st ∧
        st.1 + 1 < st.2.length ∧ st.2.length - st.1 = wps.length - i ∧
        (ins = false → st.2.length = wps.length) ∧ wps.length ≤ st.2.length := by
  intro stoplines
  induction stoplines with
  | nil =>
    intro i wps h
    exact ⟨(i, wps), rfl, h, rfl, fun _ => rfl, le_refl _⟩
  | cons sl rest ih =>
    intro i wps h
    obtain ⟨st1, hs1, hb1, hm1, hl1, hg1⟩ := vmStoplineStep_total A ins i wps sl h
    obtain ⟨st2, hs2, hb2, hm2, hl2, hg2⟩ := ih st1.1 st1.2 hb1
    refine ⟨st2, ?_, hb2, ?_, ?_, ?_⟩
    · simp only [vmStoplineInner, hs1]
      exact hs2
    · rw [hm2, hm1]
    · intro hf
      rw [hl2 hf, hl1 hf]
    · rcases hg1 with hg1 | hg1 <;> omega

/-- With fuel for every remaining index the vector-map stopline loop over a lane ends
without a fault. -/
theorem vmStoplineOuter_total (A : Amathutils) (ins : Bool) (stoplines : List VMStopLine) :
    ∀ (fuel i : Nat) (wps : List Waypoint), i < wps.length → wps.length - i ≤ fuel →
      ∃ wps', vmStoplineOuter A ins stoplines fuel i wps = some wps' ∧
        (ins = false → wps'.length = wps.length) ∧ wps.length ≤ wps'.length := by
  intro fuel
  induction fuel with
  | zero => intro i wps h1 h2; omega
  | succ fuel ih =>
    intro i wps h1 h2
    simp only [vmStoplineOuter]
    by_cases hc : i < wps.length - 1
    · rw [if_pos hc]
      obtain ⟨st, hs, hb, hm, hl, hg⟩ := vmStoplineInner_total A ins stoplines i wps (by omega)
      rw [hs]
      simp only []
      obtain ⟨wps', hw, hl', hg'⟩ := ih (st.1 + 1) st.2 hb (by omega)
      exact ⟨wps', hw, fun hf => by rw [hl' hf, hl hf], le_trans hg hg'⟩
    · rw [if_neg hc]
      exact ⟨wps, rfl, fun _ => rfl, le_refl _⟩

/-- The goal-marking loop ends within its fuel and reads no index out of range. -/
theorem markGoal_total :
    ∀ (fuel counter wp_idx : Nat) (wps : List Waypoint),
      5 ≤ fuel + counter → counter ≤ 4 → 1 ≤ wp_idx + counter → wp_idx ≤ wps.length →
      ∃ y, markGoal fuel counter wp_idx wps = some y ∧ y.length = wps.length := by
  intro fuel
  induction fuel with
  | zero => intro counter wp_idx wps h1 h2; omega
  | succ fuel ih =>
    intro counter wp_idx wps h1 h2 h3 h4
    simp only [markGoal]
    by_cases hc : counter ≤ (if wp_idx ≤ num_of_set_mission_complete_flag then wp_idx
        else num_of_set_mission_complete_flag)
    · rw [if_pos hc]
      have hc3 : counter ≤ 3 ∧ counter ≤ wp_idx := by
        unfold num_of_set_mission_complete_flag at hc
        split at hc <;> omega
      have h0 : wp_idx ≠ 0 := by omega
      rw [if_neg h0]
      have hlt : wp_idx - 1 < wps.length := by omega
      rw [List.getElem?_eq_getElem hlt]
      simp only []
      obtain ⟨y, hy, hlen⟩ := ih (counter + 1) (wp_idx - 1)
        (wps.set (wp_idx - 1)
          { wps[wp_idx - 1] with wpstate.event_state := TYPE_EVENT_GOAL })
        (by omega) (by omega) (by omega) (by rw [List.length_set]; omega)
      exact ⟨y, hy, by rw [hlen, List.length_set]⟩
    · rw [if_neg hc]
      exact ⟨wps, rfl, rfl⟩

theorem markGoalOfLane_total (wps : List Waypoint) (h : wps ≠ []) :
    ∃ y, markGoalOfLane wps = some y ∧ y.length = wps.length := by
  unfold markGoalOfLane
  have hpos : 0 < wps.length := List.length_pos.mpr h
  exact markGoal_total _ 0 wps.length wps (by decide) (by decide) (by omega) (le_refl _)

/-- The vector-map stopline and goal passes over one lane return a lane. -/
theorem vmStoplinesOfLane_total (A : Amathutils) (M : MapQueries) (ins : Bool) (lane : Lane) :
    ∃ x, vmStoplinesOfLane A M ins lane = some x ∧
      (ins = false → x.waypoints.length = lane.waypoints.length) ∧
      lane.waypoints.length ≤ x.waypoints.length := by
  by_cases hemp : lane.waypoints = []
  · exact ⟨lane, vmStoplinesOfLane_nil A M ins lane hemp, fun _ => rfl, le_refl _⟩
  · have hpos : 0 < lane.waypoints.length := List.length_pos.mpr hemp
    obtain ⟨a', ha, hl, hg⟩ := vmStoplineOuter_total A ins (stopSignStoplines M)
      lane.waypoints.length 0 lane.waypoints hpos (by omega)
    have hne : a' ≠ [] := by
      intro hnil
      rw [hnil, List.length_nil] at hg
      omega
    obtain ⟨y, hy, hlen⟩ := markGoalOfLane_total a' hne
    refine ⟨⟨y⟩, (vmStoplinesOfLane_some_iff A M ins lane ⟨y⟩ hemp).mpr ⟨a', y, ha, hy, rfl⟩,
      ?_, ?_⟩
    · intro hf
      simp only []
      rw [hlen, hl hf]
    · simp only []
      rw [hlen]
      exact hg

theorem mapAll_total {α β : Type} (f : α → Option β) (hf : ∀ a, ∃ b, f a = some b) :
    ∀ (as : List α), ∃ bs, mapAll f as = some bs := by
  intro as
  induction as with
  | nil => exact ⟨[], rfl⟩
  | cons a rest ih =>
    obtain ⟨b, hb⟩ := hf a
    obtain ⟨bs, hbs⟩ := ih
    exact ⟨b :: bs, by simp only [mapAll, hb, hbs]⟩

theorem insertAt_getElem? (wps : List Waypoint) (i : Nat) (wp : Waypoint)
    (h : i ≤ wps.length) : (insertAt wps i wp)[i]? = some wp := by
  unfold insertAt
  have hlen : (wps.take i).length = i := by
    rw [List.length_take]
    omega
  rw [List.getElem?_append_right (by omega), hlen]
  simp

theorem llStoplineStep_total (A : Amathutils) (M : MapQueries)
    (wp2laneletid : List (Int × Int)) (i : Nat) (wps : List Waypoint) (wp : Waypoint)
    (stopline : List Point) (h : i + 1 < wps.length)
    (hgid : ∃ a, wps[i]? = some a ∧ a.gid = wp.gid) :
    ∃ st, llStoplineStep A M wp2laneletid (i, wps, wp) stopline = some st ∧
      st.1 + 1 < st.2.1.length ∧ st.2.1.length - st.1 = wps.length - i ∧
      wps.length ≤ st.2.1.length ∧
      ∃ a, st.2.1[st.1]? = some a ∧ a.gid = st.2.2.gid := by
  obtain ⟨a, ha, hag⟩ := hgid
  have h1 : wps[i + 1]? = some wps[i + 1] := List.getElem?_eq_getElem h
  unfold llStoplineStep
  simp only [ha, h1, hag]
  split
  · cases hl : List.lookup wp.gid wp2laneletid with
    | none =>
      simp only [Option.isSome_none, Bool.false_eq_true, if_false]
      split
      · split
        · refine ⟨_, rfl, ?_, ?_, ?_, ?_⟩
          · simp only []
            rw [insertAt_length _ _ _ (by omega)]
            omega
          · simp only []
            rw [insertAt_length _ _ _ (by omega)]
            omega
          · simp only []
            rw [insertAt_length _ _ _ (by omega)]
            omega
          · exact ⟨_, insertAt_getElem? _ _ _ (by omega), rfl⟩
        · exact ⟨_, rfl, h, rfl, le_refl _, a, ha, hag⟩
      · exact ⟨_, rfl, h, rfl, le_refl _, a, ha, hag⟩
    | some lanelet_id =>
      simp only [Option.isSome_some, if_true]
      split
      · split
        · refine ⟨_, rfl, ?_, ?_, ?_, ?_⟩
          · simp only []
            rw [insertAt_length _ _ _ (by omega)]
            omega
          · simp only []
            rw [insertAt_length _ _ _ (by omega)]
            omega
          · simp only []
            rw [insertAt_length _ _ _ (by omega)]
            omega
          · exact ⟨_, insertAt_getElem? _ _ _ (by omega), rfl⟩
        · exact ⟨_, rfl, h, rfl, le_refl _, a, ha, hag⟩
      · exact ⟨_, rfl, h, rfl, le_refl _, a, ha, hag⟩
  · exact ⟨_, rfl, h, rfl, le_refl _, a, ha, hag⟩

theorem llStoplineInner_total (A : Amathutils) (M : MapQueries)
    (wp2laneletid : List (Int × Int)) :
    ∀ (stoplines : List (List Point)) (i : Nat) (wps : List Waypoint) (wp : Waypoint),
      i + 1 < wps.length → (∃ a, wps[i]? = some a ∧ a.gid = wp.gid) →
      ∃ st, llStoplineInner A M wp2laneletid stoplines (i, wps, wp) = some st ∧
        st.1 + 1 < st.2.1.length ∧ st.2.1.length - st.1 = wps.length - i ∧
        wps.length ≤ st.2.1.length := by
  intro stoplines
  induction stoplines with
  | nil =>
    intro i wps wp h _
    exact ⟨(i, wps, wp), rfl, h, rfl, le_refl _⟩
  | cons sl rest ih =>
    intro i wps wp h hgid
    obtain ⟨st1, hs1, hb1, hm1, hg1, hgid1⟩ :=
      llStoplineStep_total A M wp2laneletid i wps wp sl h hgid
    obtain ⟨st2, hs2, hb2, hm2, hg2⟩ := ih st1.1 st1.2.1 st1.2.2 hb1 hgid1
    refine ⟨st2, ?_, hb2, ?_, le_trans hg1 hg2⟩
    · simp only [llStoplineInner, hs1]
      exact hs2
    · rw [hm2, hm1]

/-- With fuel for every remaining index the lanelet2 stopline loop over a lane ends
without a fault. -/
theorem llStoplineOuter_total (A : Amathutils) (M : MapQueries)
    (wp2laneletid : List (Int × Int)) :
    ∀ (fuel i : Nat) (wps : List Waypoint), i < wps.length → wps.length - i ≤ fuel →
      ∃ wps', llStoplineOuter A M wp2laneletid fuel i wps = some wps' ∧
        wps.length ≤ wps'.length := by
  intro fuel
  induction fuel with
  | zero => intro i wps h1 h2; omega
  | succ fuel ih =>
    intro i wps h1 h2
    simp only [llStoplineOuter]
    by_cases hc : i < wps.length - 1
    · rw [if_pos hc, List.getElem?_eq_getElem h1]
      simp only []
      obtain ⟨st, hs, hb, hm, hg⟩ := llStoplineInner_total A M wp2laneletid
        M.lanelet_stoplines i wps wps[i] (by omega)
        ⟨wps[i], List.getElem?_eq_getElem h1, rfl⟩
      rw [hs]
      simp only []
      obtain ⟨wps', hw, hg'⟩ := ih (st.1 + 1) st.2.1 hb (by omega)
      exact ⟨wps', hw, le_trans hg hg'⟩
    · rw [if_neg hc]
      exact ⟨wps, rfl, le_refl _⟩

/-- The lanelet2 stopline and goal passes over one lane return a lane. -/
theorem llStoplinesOfLane_total (A : Amathutils) (M : MapQueries)
    (wp2laneletid : List (Int × Int)) (lane : Lane) :
    ∃ x, llStoplinesOfLane A M wp2laneletid lane = some x ∧
      lane.waypoints.length ≤ x.waypoints.length := by
  unfold llStoplinesOfLane
  by_cases hemp : lane.waypoints = []
  · refine ⟨lane, ?_, le_refl _⟩
    rw [hemp]
    rfl
  · have hpos : 0 < lane.waypoints.length := List.length_pos.mpr hemp
    have hfalse : lane.waypoints.isEmpty = false := by
      cases hl : lane.waypoints with
      | nil => exact absurd hl hemp
      | cons _ _ => rfl
    rw [hfalse]
    simp only [Bool.false_eq_true, if_false]
    obtain ⟨a', ha, hg⟩ := llStoplineOuter_total A M wp2laneletid
      lane.waypoints.length 0 lane.waypoints hpos (by omega)
    have hne : a' ≠ [] := by
      intro hnil
      rw [hnil, List.length_nil] at hg
      omega
    obtain ⟨y, hy, hlen⟩ := markGoalOfLane_total a' hne
    rw [ha]
    simp only [hy]
    exact ⟨⟨y⟩, rfl, by simp only []; rw [hlen]; exact hg⟩

theorem modifyBack_cons_of_ne_nil {α : Type} (f : α → α) (a : α) (l : List α)
    (h : l ≠ []) : modifyBack f (a :: l) = a :: modifyBack f l := by
  cases l with
  | nil => exact absurd rfl h
  | cons b rest => rfl

theorem modifyBack_append_singleton {α : Type} (f : α → α) :
    ∀ (ls : List α) (x : α), modifyBack f (ls ++ [x]) = ls ++ [f x] := by
  intro ls
  induction ls with
  | nil => intro x; rfl
  | cons a rest ih =>
    intro x
    rw [List.cons_append, modifyBack_cons_of_ne_nil f a (rest ++ [x]) (by simp), ih,
      List.cons_append]

theorem modifyBack_mem {α : Type} (f : α → α) :
    ∀ (ls : List α) (l : α), l ∈ modifyBack f ls → l ∈ ls ∨ ∃ l0, l = f l0 := by
  intro ls
  induction ls with
  | nil => intro l h; simp [modifyBack] at h
  | cons a rest ih =>
    intro l h
    cases rest with
    | nil =>
      simp only [modifyBack, List.mem_singleton] at h
      exact Or.inr ⟨a, h⟩
    | cons b rest2 =>
      simp only [modifyBack, List.mem_cons] at h
      rcases h with h | h
      · exact Or.inl (by simp [h])
      · rcases ih l (by simpa using h) with h' | h'
        · exact Or.inl (List.mem_cons_of_mem _ h')
        · exact Or.inr h'

/-- Offering a waypoint to an area whose inside lanes are non-empty does not fault and
keeps the inside lanes non-empty. -/
theorem insertPointIntoArea_total (M : MapQueries) (wp : Waypoint) (area : CrossRoadArea)
    (hwf : ∀ lane ∈ area.insideLanes, lane.waypoints ≠ []) :
    ∃ r, insertPointIntoArea M wp area = some r ∧
      ∀ lane ∈ r.1.insideLanes, lane.waypoints ≠ [] := by
  unfold insertPointIntoArea
  simp only []
  by_cases hin : M.isInsideArea area wp.pose.position = true
  · rw [if_pos hin]
    have hnew : ∀ (ls : List Lane), (∀ lane ∈ ls, lane.waypoints ≠ []) →
        ∀ lane ∈ modifyBack (fun l : Lane => (⟨l.waypoints ++ [wp]⟩ : Lane)) ls,
          lane.waypoints ≠ [] := by
      intro ls hls lane hl
      rcases modifyBack_mem _ ls lane hl with h | ⟨l0, h⟩
      · exact hls lane h
      · rw [h]
        simp
    have hpush : ∀ lane ∈ modifyBack (fun l : Lane => (⟨l.waypoints ++ [wp]⟩ : Lane))
        (area.insideLanes ++ [⟨[]⟩]), lane.waypoints ≠ [] := by
      intro lane hl
      rw [modifyBack_append_singleton] at hl
      rcases List.mem_append.mp hl with h | h
      · exact hwf lane h
      · simp only [List.mem_singleton] at h
        rw [h]
        simp
    cases hlast : area.insideLanes.getLast? with
    | none =>
      simp only [decide_True, if_true]
      exact ⟨_, rfl, hpush⟩
    | some lastLane =>
      have hmem : lastLane ∈ area.insideLanes := List.mem_of_getLast?_eq_some hlast
      have hne := hwf lastLane hmem
      cases hlw : lastLane.waypoints.getLast? with
      | none =>
        rw [List.getLast?_eq_none_iff] at hlw
        exact absurd hlw hne
      | some lastWp =>
        by_cases hb : wp.gid ≠ lastWp.gid + 1
        · simp only [hlw, decide_eq_true hb, if_true]
          exact ⟨_, rfl, hpush⟩
        · simp only [hlw, decide_eq_false hb, Bool.false_eq_true, if_false]
          exact ⟨_, rfl, hnew _ hwf⟩
  · rw [if_neg hin]
    exact ⟨_, rfl, hwf⟩

theorem insertPointIntoAreas_total (M : MapQueries) :
    ∀ (areas : List CrossRoadArea) (wp : Waypoint), areasWellFormed areas →
      ∃ r, insertPointIntoAreas M areas wp = some r ∧ areasWellFormed r.1 := by
  intro areas
  induction areas with
  | nil =>
    intro wp _
    exact ⟨([], wp), rfl, fun _ h => by simp at h⟩
  | cons area rest ih =>
    intro wp hwf
    obtain ⟨r1, h1, hw1⟩ := insertPointIntoArea_total M wp area
      (hwf area (List.mem_cons_self _ _))
    obtain ⟨r2, h2, hw2⟩ := ih r1.2
      (fun a ha => hwf a (List.mem_cons_of_mem _ ha))
    refine ⟨(r1.1 :: r2.1, r2.2), ?_, ?_⟩
    · simp only [insertPointIntoAreas, h1, h2]
    · intro a ha
      rcases List.mem_cons.mp ha with rfl | ha
      · exact hw1
      · exact hw2 a ha

theorem insertPointsOfLane_total (M : MapQueries) :
    ∀ (wps : List Waypoint) (areas : List CrossRoadArea), areasWellFormed areas →
      ∃ r, insertPointsOfLane M areas wps = some r ∧ areasWellFormed r.1 := by
  intro wps
  induction wps with
  | nil =>
    intro areas hwf
    exact ⟨(areas, []), rfl, hwf⟩
  | cons wp rest ih =>
    intro areas hwf
    obtain ⟨r1, h1, hw1⟩ := insertPointIntoAreas_total M areas wp hwf
    obtain ⟨r2, h2, hw2⟩ := ih r1.1 hw1
    exact ⟨(r2.1, r1.2 :: r2.2), by simp only [insertPointsOfLane, h1, h2], hw2⟩

theorem insertPointsOfLanes_total (M : MapQueries) :
    ∀ (lanes : List Lane) (areas : List CrossRoadArea), areasWellFormed areas →
      ∃ r, insertPointsOfLanes M areas lanes = some r ∧ areasWellFormed r.1 := by
  intro lanes
  induction lanes with
  | nil =>
    intro areas hwf
    exact ⟨(areas, []), rfl, hwf⟩
  | cons lane rest ih =>
    intro areas hwf
    obtain ⟨r1, h1, hw1⟩ := insertPointsOfLane_total M lane.waypoints areas hwf
    obtain ⟨r2, h2, hw2⟩ := ih r1.1 hw1
    exact ⟨(r2.1, ⟨r1.2⟩ :: r2.2), by simp only [insertPointsOfLanes, h1, h2], hw2⟩

/-- The annotation of `drivingMissionCheck` (either map kind) returns when the stored
areas are well formed, and leaves them well formed. -/
theorem annotatePass_total (A : Amathutils) (M : MapQueries) (n : DecisionMakerNode)
    (hwf : areasWellFormed n.intersects) :
    ∃ n4, annotatePass A M n = some n4 ∧ areasWellFormed n4.intersects := by
  obtain ⟨r, hr, hw⟩ := insertPointsOfLanes_total M n.current_status_.based_lane_array.lanes
    n.intersects hwf
  unfold annotatePass
  by_cases hll : n.use_lanelet_map_ = true
  · simp only [hll, if_true, setWaypointStateUsingLanelet2Map, insertPointWithinCrossRoad, hr]
    obtain ⟨lanes3, h3⟩ := mapAll_total
      (llStoplinesOfLane A M (M.matchWaypointAndLanelet n.current_status_.based_lane_array))
      (fun lane => by
        obtain ⟨x, hx, _⟩ := llStoplinesOfLane_total A M
          (M.matchWaypointAndLanelet n.current_status_.based_lane_array) lane
        exact ⟨x, hx⟩)
      (r.2.map (fun lane => ⟨lane.waypoints.map
        (laneletSteering M (M.matchWaypointAndLanelet n.current_status_.based_lane_array))⟩))
    simp only [h3]
    exact ⟨_, rfl, hw⟩
  · simp only [hll, if_false, setWaypointStateUsingVectorMap, insertPointWithinCrossRoad, hr]
    obtain ⟨lanes3, h3⟩ := mapAll_total (vmStoplinesOfLane A M n.insert_stop_line_wp_)
      (fun lane => by
        obtain ⟨x, hx, _⟩ := vmStoplinesOfLane_total A M n.insert_stop_line_wp_ lane
        exact ⟨x, hx⟩)
      (steeringPass M r.1 r.2)
    simp only [h3]
    exact ⟨_, rfl, hw⟩

/-- The function `drivingMissionCheck` returns a boolean on every node whose stored areas
are well formed, and leaves the areas well formed for the next call. -/
theorem drivingMissionCheck_returns (A : Amathutils) (M : MapQueries) (n : DecisionMakerNode)
    (hwf : areasWellFormed n.intersects) :
    ∃ r n', drivingMissionCheck A M n = some (r, n') ∧ areasWellFormed n'.intersects := by
  have hint : (resetPass n).intersects = n.intersects := (resetPass_fields n).2.2.1
  obtain ⟨n4, h4, hw4⟩ := annotatePass_total A M (resetPass n) (by rw [hint]; exact hwf)
  unfold drivingMissionCheck missionDeviation
  simp only [h4]
  split
  · exact ⟨false, _, rfl, hw4⟩
  · split
    · exact ⟨true, _, rfl, hw4⟩
    · exact ⟨true, _, rfl, hw4⟩


/-- The deviation test of `drivingMissionCheck` is reached, with its two locals computed,
on every node whose stored areas are well formed. -/
theorem missionDeviation_returns (A : Amathutils) (M : MapQueries) (n : DecisionMakerNode)
    (hwf : areasWellFormed n.intersects) :
    ∃ n5 min_dist angle_diff_degree,
      missionDeviation A M n = some (n5, min_dist, angle_diff_degree) := by
  have hint : (resetPass n).intersects = n.intersects := (resetPass_fields n).2.2.1
  obtain ⟨n4, h4, _⟩ := annotatePass_total A M (resetPass n) (by rw [hint]; exact hwf)
  unfold missionDeviation
  simp only [h4]
  exact ⟨_, _, _, rfl⟩

/-! ## The reset pass of the mission check -/

theorem resetWaypoints_labels :
    ∀ (wps : List Waypoint) (gid lid : Int) (n : DecisionMakerNode),
      (∀ wp ∈ (resetWaypoints wps gid lid n).1,
        wp.wpstate.steering_state = NULLSTATE ∧ wp.wpstate.event_state = NULLSTATE ∧
        wp.wpstate.lanechange_state = NULLSTATE) ∧
      (resetWaypoints wps gid lid n).1.map (fun wp => wp.wpstate.stop_state)
        = wps.map (fun wp => keepStopSign wp.wpstate.stop_state) := by
  intro wps
  induction wps with
  | nil =>
    intro gid lid n
    exact ⟨fun wp h => by simp [resetWaypoints] at h, rfl⟩
  | cons w rest ih =>
    intro gid lid n
    obtain ⟨h1, h2⟩ := ih (gid + 1) (lid + 1)
      (if ¬ n.isEventFlagTrue "received_back_state_waypoint" ∧ w.twist_linear_x < 0 then
        (n.setEventFlag "received_back_state_waypoint" true).publishOperatorHelpMessage
          "Received back waypoint."
      else n)
    refine ⟨?_, ?_⟩
    · intro wp hwp
      simp only [resetWaypoints, List.mem_cons] at hwp
      rcases hwp with rfl | hwp
      · exact ⟨rfl, rfl, rfl⟩
      · exact h1 wp hwp
    · simp only [resetWaypoints, List.map_cons]
      rw [h2]
      rfl

theorem resetLanes_labels :
    ∀ (lanes : List Lane) (gid : Int) (n : DecisionMakerNode),
      (∀ lane ∈ (resetLanes lanes gid n).1, ∀ wp ∈ lane.waypoints,
        wp.wpstate.steering_state = NULLSTATE ∧ wp.wpstate.event_state = NULLSTATE ∧
        wp.wpstate.lanechange_state = NULLSTATE) ∧
      (resetLanes lanes gid n).1.map
          (fun lane => lane.waypoints.map (fun wp => wp.wpstate.stop_state))
        = lanes.map
          (fun lane => lane.waypoints.map (fun wp => keepStopSign wp.wpstate.stop_state)) := by
  intro lanes
  induction lanes with
  | nil =>
    intro gid n
    exact ⟨fun lane h => by simp [resetLanes] at h, rfl⟩
  | cons lane rest ih =>
    intro gid n
    obtain ⟨h1, h2⟩ := resetWaypoints_labels lane.waypoints gid 0 n
    obtain ⟨h3, h4⟩ := ih (resetWaypoints lane.waypoints gid 0 n).2.1
      (resetWaypoints lane.waypoints gid 0 n).2.2
    refine ⟨?_, ?_⟩
    · intro l hl
      simp only [resetLanes, List.mem_cons] at hl
      rcases hl with rfl | hl
      · exact h1
      · exact h3 l hl
    · simp only [resetLanes, List.map_cons]
      rw [h2, h4]

/-- C11 (as stated) fails: a waypoint received with the stop marker `TYPE_STOP` still
carries it after the reset pass, so not every `stop_state` is `NULLSTATE`. -/
theorem resetPass_keeps_stop_marker :
    (allWaypoints (resetPass stopMarkedMission).current_status_.based_lane_array.lanes).map
        (fun wp => wp.wpstate.stop_state) = [TYPE_STOP, NULLSTATE] ∧
    ¬ (∀ lane ∈ (resetPass stopMarkedMission).current_status_.based_lane_array.lanes,
        ∀ wp ∈ lane.waypoints,
          wp.wpstate.stop_state = NULLSTATE ∧ wp.wpstate.steering_state = NULLSTATE ∧
          wp.wpstate.event_state = NULLSTATE ∧ wp.wpstate.lanechange_state = NULLSTATE) := by
  with_unfolding_all decide

/-- C11 (amended): after the reset pass of `drivingMissionCheck` every waypoint of
`based_lane_array` has `steering_state`, `event_state` and `lanechange_state` equal to
`NULLSTATE`, whatever it carried on receipt; its `stop_state` is the received one when
that was `TYPE_STOPLINE` or `TYPE_STOP` and `NULLSTATE` otherwise. -/
theorem resetPass_labels (n : DecisionMakerNode) :
    (∀ lane ∈ (resetPass n).current_status_.based_lane_array.lanes, ∀ wp ∈ lane.waypoints,
      wp.wpstate.steering_state = NULLSTATE ∧ wp.wpstate.event_state = NULLSTATE ∧
      wp.wpstate.lanechange_state = NULLSTATE ∧
      (wp.wpstate.stop_state = NULLSTATE ∨ wp.wpstate.stop_state = TYPE_STOPLINE ∨
        wp.wpstate.stop_state = TYPE_STOP)) ∧
    (resetPass n).current_status_.based_lane_array.lanes.map
        (fun lane => lane.waypoints.map (fun wp => wp.wpstate.stop_state))
      = n.current_status_.based_lane_array.lanes.map
        (fun lane => lane.waypoints.map (fun wp =>
          if wp.wpstate.stop_state = TYPE_STOPLINE ∨ wp.wpstate.stop_state = TYPE_STOP
          then wp.wpstate.stop_state else NULLSTATE)) := by
  obtain ⟨n0, hl⟩ := (resetPass_fields n).1
  obtain ⟨h1, h2⟩ := resetLanes_labels n.current_status_.based_lane_array.lanes 0 n0
  have hkeep : ∀ s : Nat, keepStopSign s
      = if s = TYPE_STOPLINE ∨ s = TYPE_STOP then s else NULLSTATE := by
    intro s
    unfold keepStopSign
    by_cases ha : s = TYPE_STOPLINE
    · simp [ha]
    · by_cases hb : s = TYPE_STOP
      · simp [hb]
      · simp [ha, hb]
  rw [hl]
  refine ⟨?_, ?_⟩
  · intro lane hlane wp hwp
    obtain ⟨a, b, c⟩ := h1 lane hlane wp hwp
    refine ⟨a, b, c, ?_⟩
    have hmem : wp.wpstate.stop_state ∈
        (lane.waypoints.map (fun wp => wp.wpstate.stop_state)) :=
      List.mem_map.mpr ⟨wp, hwp, rfl⟩
    have hmem2 : lane.waypoints.map (fun wp => wp.wpstate.stop_state) ∈
        (resetLanes n.current_status_.based_lane_array.lanes 0 n0).1.map
          (fun lane => lane.waypoints.map (fun wp => wp.wpstate.stop_state)) :=
      List.mem_map.mpr ⟨lane, hlane, rfl⟩
    rw [h2] at hmem2
    obtain ⟨lane0, _, hl0⟩ := List.mem_map.mp hmem2
    rw [← hl0] at hmem
    obtain ⟨wp0, _, hw0⟩ := List.mem_map.mp hmem
    rw [← hw0, hkeep]
    by_cases ha : wp0.wpstate.stop_state = TYPE_STOPLINE
    · simp [ha]
    · by_cases hb : wp0.wpstate.stop_state = TYPE_STOP
      · simp [hb]
      · simp [ha, hb]
  · rw [h2]
    simp only [hkeep]

/-! ## The reverse-waypoint flag of the mission check -/

theorem backReported_flag (n : DecisionMakerNode) :
    (backReported n).isEventFlagTrue "received_back_state_waypoint" = true := by
  simp [backReported, DecisionMakerNode.isEventFlagTrue, DecisionMakerNode.setEventFlag,
    DecisionMakerNode.publishOperatorHelpMessage, DecisionMakerNode.publish]

theorem resetWaypoints_node :
    ∀ (wps : List Waypoint) (gid lid : Int) (n : DecisionMakerNode),
      (resetWaypoints wps gid lid n).2.2
        = if n.isEventFlagTrue "received_back_state_waypoint" = false ∧
              hasBackWaypoint wps = true
          then backReported n else n := by
  intro wps
  induction wps with
  | nil =>
    intro gid lid n
    simp [resetWaypoints, hasBackWaypoint]
  | cons w rest ih =>
    intro gid lid n
    simp only [resetWaypoints]
    rw [ih]
    by_cases hf : n.isEventFlagTrue "received_back_state_waypoint" = true
    · simp [hf]
    · have hf' : n.isEventFlagTrue "received_back_state_waypoint" = false := by
        simpa using hf
      by_cases hw : w.twist_linear_x < 0
      · have hb : (backReported n).isEventFlagTrue "received_back_state_waypoint" = true :=
          backReported_flag n
        simp only [backReported] at hb
        simp [hf', hw, hasBackWaypoint, backReported, hb]
      · simp [hf', hw, hasBackWaypoint]

theorem resetLanes_node :
    ∀ (lanes : List Lane) (gid : Int) (n : DecisionMakerNode),
      (resetLanes lanes gid n).2.2
        = if n.isEventFlagTrue "received_back_state_waypoint" = false ∧
              hasBackWaypoint (allWaypoints lanes) = true
          then backReported n else n := by
  intro lanes
  induction lanes with
  | nil =>
    intro gid n
    simp [resetLanes, hasBackWaypoint, allWaypoints]
  | cons lane rest ih =>
    intro gid n
    simp only [resetLanes]
    rw [ih, resetWaypoints_node]
    have hall : hasBackWaypoint (allWaypoints (lane :: rest))
        = (hasBackWaypoint lane.waypoints || hasBackWaypoint (allWaypoints rest)) := by
      simp [hasBackWaypoint, allWaypoints, List.any_append]
    rw [hall]
    by_cases hf : n.isEventFlagTrue "received_back_state_waypoint" = true
    · simp [hf]
    · have hf' : n.isEventFlagTrue "received_back_state_waypoint" = false := by
        simpa using hf
      by_cases hl : hasBackWaypoint lane.waypoints = true
      · simp [hf', hl, backReported_flag]
      · have hl' : hasBackWaypoint lane.waypoints = false := by simpa using hl
        simp [hf', hl']

theorem mem_allWaypoints (wp : Waypoint) :
    ∀ lanes : List Lane, wp ∈ allWaypoints lanes ↔ ∃ lane ∈ lanes, wp ∈ lane.waypoints := by
  intro lanes
  induction lanes with
  | nil => simp [allWaypoints]
  | cons lane rest ih =>
    have hcons : allWaypoints (lane :: rest) = lane.waypoints ++ allWaypoints rest := rfl
    rw [hcons, List.mem_append, ih]
    simp

theorem hasBackWaypoint_iff (wps : List Waypoint) :
    hasBackWaypoint wps = true ↔ ∃ wp ∈ wps, wp.twist_linear_x < 0 := by
  simp [hasBackWaypoint]

theorem missionLoopStart_flag (n : DecisionMakerNode) :
    (missionLoopStart n).isEventFlagTrue "received_back_state_waypoint" = false := by
  simp [missionLoopStart, DecisionMakerNode.isEventFlagTrue, DecisionMakerNode.setEventFlag]

theorem drivingMissionCheck_log (A : Amathutils) (M : MapQueries) (n : DecisionMakerNode)
    (r : Bool) (n' : DecisionMakerNode) (h : drivingMissionCheck A M n = some (r, n')) :
    n'.flags = (resetLanes n.current_status_.based_lane_array.lanes 0
        (missionLoopStart n)).2.2.flags ∧
    ∃ extra, n'.published = (resetLanes n.current_status_.based_lane_array.lanes 0
        (missionLoopStart n)).2.2.published ++ extra ∧
      ∀ p ∈ extra, p.1 = "lane_waypoints_array" := by
  have hreset : (resetPass n).flags = (resetLanes n.current_status_.based_lane_array.lanes 0
        (missionLoopStart n)).2.2.flags ∧
      (resetPass n).published = (resetLanes n.current_status_.based_lane_array.lanes 0
        (missionLoopStart n)).2.2.published := ⟨rfl, rfl⟩
  unfold drivingMissionCheck missionDeviation at h
  cases hann : annotatePass A M (resetPass n) with
  | none => rw [hann] at h; exact Option.noConfusion h
  | some n4 =>
    obtain ⟨i1, la, h4⟩ := annotatePass_frame A M (resetPass n) n4 hann
    rw [hann] at h
    simp only [] at h
    rw [← hreset.1, ← hreset.2]
    have hf4 : n4.flags = (resetPass n).flags := by rw [h4]
    have hp4 : n4.published = (resetPass n).published := by rw [h4]
    split at h
    · injection h with h
      injection h with _ h2
      rw [← h2]
      exact ⟨hf4, [], by simp [hp4], fun p hp => by simp at hp⟩
    · split at h
      · injection h with h
        injection h with _ h2
        rw [← h2]
        refine ⟨hf4, ?_⟩
        simp only [DecisionMakerNode.publish, hp4]
        exact ⟨_, rfl, fun p hp => by simp only [List.mem_singleton] at hp; rw [hp]⟩
      · injection h with h
        injection h with _ h2
        rw [← h2]
        refine ⟨hf4, ?_⟩
        simp only [DecisionMakerNode.publish, hp4]
        exact ⟨_, rfl, fun p hp => by simp only [List.mem_singleton] at hp; rw [hp]⟩

theorem backMessageCount_append (n : DecisionMakerNode) (extra : List (String × Message))
    (published : List (String × Message)) (h : n.published = published ++ extra) :
    backMessageCount n
      = (published.filter (fun p =>
          decide (p = ("operator_help_text", Message.text "Received back waypoint.")))).length
        + (extra.filter (fun p =>
          decide (p = ("operator_help_text", Message.text "Received back waypoint.")))).length := by
  unfold backMessageCount
  rw [h, List.filter_append, List.length_append]

/-- C12: after `drivingMissionCheck` has returned, the event flag
`received_back_state_waypoint` is true exactly when some waypoint of the received lane
array (`based_lane_array` before the call) has a negative `twist.linear.x`; the operator
message `Received back waypoint.` is published once by the call when there is such a
waypoint and not at all otherwise (so at most once); and it is published at the first
such waypoint: with the waypoints of the array, in the order the loop visits them,
split as `pre ++ w :: post` where `w` is the first with a negative speed, the loop
that has visited `pre` has not changed the node it started with, and the loop that has
visited `pre` and `w` has set the flag and published the message, which is the node the
whole loop ends with. -/
theorem drivingMissionCheck_back_flag (A : Amathutils) (M : MapQueries)
    (n : DecisionMakerNode) (r : Bool) (n' : DecisionMakerNode)
    (h : drivingMissionCheck A M n = some (r, n')) :
    (n'.isEventFlagTrue "received_back_state_waypoint" = true ↔
      ∃ lane ∈ n.current_status_.based_lane_array.lanes, ∃ wp ∈ lane.waypoints,
        wp.twist_linear_x < 0) ∧
    backMessageCount n' = backMessageCount n +
      (if hasBackWaypoint (allWaypoints n.current_status_.based_lane_array.lanes) = true
        then 1 else 0) ∧
    backMessageCount n' ≤ backMessageCount n + 1 ∧
    ∀ (pre : List Waypoint) (w : Waypoint) (post : List Waypoint) (gid lid : Int),
      allWaypoints n.current_status_.based_lane_array.lanes = pre ++ w :: post →
      (∀ x ∈ pre, ¬ x.twist_linear_x < 0) → w.twist_linear_x < 0 →
      (resetWaypoints pre gid lid (missionLoopStart n)).2.2 = missionLoopStart n ∧
      (resetWaypoints (pre ++ [w]) gid lid (missionLoopStart n)).2.2
        = backReported (missionLoopStart n) ∧
      (resetLanes n.current_status_.based_lane_array.lanes 0 (missionLoopStart n)).2.2
        = backReported (missionLoopStart n) := by
  obtain ⟨hflags, extra, hpub, hextra⟩ := drivingMissionCheck_log A M n r n' h
  have hstart := missionLoopStart_flag n
  have hloop := resetLanes_node n.current_status_.based_lane_array.lanes 0 (missionLoopStart n)
  have hflag : n'.isEventFlagTrue "received_back_state_waypoint"
      = (resetLanes n.current_status_.based_lane_array.lanes 0
          (missionLoopStart n)).2.2.isEventFlagTrue "received_back_state_waypoint" := by
    unfold DecisionMakerNode.isEventFlagTrue
    rw [hflags]
  have hex : (∃ lane ∈ n.current_status_.based_lane_array.lanes, ∃ wp ∈ lane.waypoints,
        wp.twist_linear_x < 0) ↔
      hasBackWaypoint (allWaypoints n.current_status_.based_lane_array.lanes) = true := by
    rw [hasBackWaypoint_iff]
    constructor
    · rintro ⟨lane, hl, wp, hw, hneg⟩
      exact ⟨wp, (mem_allWaypoints wp _).mpr ⟨lane, hl, hw⟩, hneg⟩
    · rintro ⟨wp, hw, hneg⟩
      obtain ⟨lane, hl, hw'⟩ := (mem_allWaypoints wp _).mp hw
      exact ⟨lane, hl, wp, hw', hneg⟩
  have hnone : (extra.filter (fun p =>
      decide (p = ("operator_help_text", Message.text "Received back waypoint.")))).length
      = 0 := by
    rw [List.length_eq_zero, List.filter_eq_nil_iff]
    intro p hp
    have := hextra p hp
    intro hcon
    simp only [decide_eq_true_eq] at hcon
    rw [hcon] at this
    exact absurd this (by decide)
  have hcount : backMessageCount n' = backMessageCount n +
      (if hasBackWaypoint (allWaypoints n.current_status_.based_lane_array.lanes) = true
        then 1 else 0) := by
    rw [backMessageCount_append n' extra _ hpub, hnone, hloop]
    by_cases hb : hasBackWaypoint (allWaypoints n.current_status_.based_lane_array.lanes)
        = true
    · rw [if_pos ⟨hstart, hb⟩, if_pos hb]
      simp [backReported, missionLoopStart, backMessageCount,
        DecisionMakerNode.publishOperatorHelpMessage, DecisionMakerNode.publish,
        DecisionMakerNode.setEventFlag, List.filter_append]
    · rw [if_neg (fun hc => hb hc.2), if_neg hb]
      simp [missionLoopStart, backMessageCount,
        DecisionMakerNode.publishOperatorHelpMessage, DecisionMakerNode.publish,
        DecisionMakerNode.setEventFlag, List.filter_append]
  refine ⟨?_, hcount, ?_, ?_⟩
  · rw [hex, hflag, hloop]
    by_cases hb : hasBackWaypoint (allWaypoints n.current_status_.based_lane_array.lanes)
        = true
    · rw [if_pos ⟨hstart, hb⟩]
      simp [hb, backReported_flag]
    · rw [if_neg (fun hc => hb hc.2)]
      simp [hstart, hb]
  · rw [hcount]
    split <;> omega
  · intro pre w post gid lid hsplit hpre hw
    have hpre' : hasBackWaypoint pre = false := by
      rw [Bool.eq_false_iff]
      intro hcon
      obtain ⟨x, hx, hneg⟩ := (hasBackWaypoint_iff pre).mp hcon
      exact hpre x hx hneg
    have hw' : hasBackWaypoint (pre ++ [w]) = true :=
      (hasBackWaypoint_iff _).mpr ⟨w, by simp, hw⟩
    have hall : hasBackWaypoint (allWaypoints n.current_status_.based_lane_array.lanes)
        = true := by
      rw [hsplit]
      exact (hasBackWaypoint_iff _).mpr ⟨w, by simp, hw⟩
    refine ⟨?_, ?_, ?_⟩
    · rw [resetWaypoints_node, if_neg]
      rw [hpre']
      simp
    · rw [resetWaypoints_node, if_pos ⟨hstart, hw'⟩]
    · rw [hloop, if_pos ⟨hstart, hall⟩]

theorem drivingMissionCheck_back_flag_witness :
    drivingMissionCheck planeMath oneStoplineMap backMission = some (true, backChecked) ∧
    backChecked.isEventFlagTrue "received_back_state_waypoint" = true ∧
    backMessageCount backMission = 0 ∧
    backMessageCount backChecked = 1 :=
  ⟨by with_unfolding_all decide,
   (drivingMissionCheck_back_flag planeMath oneStoplineMap backMission true backChecked
      (by with_unfolding_all decide)).1.mpr (by with_unfolding_all decide),
   by with_unfolding_all decide,
   by with_unfolding_all decide⟩

/-! ## Goal markers -/

/-- C13: on a lane of six waypoints both map backends set `TYPE_EVENT_GOAL` on the last
four waypoints: the loop condition `counter <= ...` holds for `counter = 0, 1, 2, 3`,
one more time than `num_of_set_mission_complete_flag` says. -/
theorem goal_markers_of_six_waypoints :
    num_of_set_mission_complete_flag = 3 ∧
    (annotateOnce planeMath plainMap (sixWaypointMission false)).map eventStates
      = some [[0, 0, TYPE_EVENT_GOAL, TYPE_EVENT_GOAL, TYPE_EVENT_GOAL, TYPE_EVENT_GOAL]] ∧
    (annotateOnce planeMath plainMap (sixWaypointMission true)).map eventStates
      = some [[0, 0, TYPE_EVENT_GOAL, TYPE_EVENT_GOAL, TYPE_EVENT_GOAL, TYPE_EVENT_GOAL]] := by
  refine ⟨rfl, ?_, ?_⟩ <;> with_unfolding_all decide

/-! ## Leaving the stop states, and the stop order -/

theorem scanStopSign_result (A : Amathutils) (prev : Int) (target : ℚ) :
    ∀ (l : List Waypoint) (d : ℚ) (p : Pose),
      scanStopSign A prev target l d p = (NULLSTATE, -1) ∨
      ((scanStopSign A prev target l d p).1 ≠ NULLSTATE ∧
        (scanStopSign A prev target l d p).2 ≠ prev) := by
  intro l
  induction l with
  | nil => intro d p; exact Or.inl rfl
  | cons w rest ih =>
    intro d p
    unfold scanStopSign
    by_cases hc : w.wpstate.stop_state ≠ NULLSTATE ∧ prev ≠ w.gid
    · right
      simp only []
      rw [if_pos hc]
      exact ⟨hc.1, fun e => hc.2 e.symm⟩
    · simp only []
      rw [if_neg hc]
      by_cases hd : d + A.find_distance_pose p w.pose > target
      · rw [if_pos hd]
        exact Or.inl rfl
      · rw [if_neg hd]
        exact ih _ _

theorem resetCondition_false (gid1 prev count : Int) (hlo : gid1 ≤ prev)
    (hhi : prev ≤ gid1 + count) (hcount : count < 4294967296) :
    resetCondition gid1 prev count = false := by
  unfold resetCondition to_unsigned_int
  have h1 : (prev - gid1) % 4294967296 = prev - gid1 :=
    Int.emod_eq_of_lt (by omega) (by omega)
  have h2 : count % 4294967296 = count := Int.emod_eq_of_lt (by omega) hcount
  rw [h1, h2]
  simp only [Bool.or_eq_false_iff, decide_eq_false_iff_not, not_lt]
  constructor <;> omega

/-- C14: `exitReservedStopState` stores the value `found_stopsign_idx` had before the
call in `prev_stopped_wpidx`, sets `found_stopsign_idx` to `-1` and changes nothing
else; and when the second final waypoint has a gid `g1` with
`g1 ≤ idx ≤ g1 + stopline_reset_count_` for that value `idx` (`stopline_reset_count_`
being a machine integer, below `2 ^ 32`), a following `getStopSignStateFromWaypoint`
returns either `(NULLSTATE, -1)` or a stop marker whose gid is not `idx`; so the gid it
returns is not `idx`, the value that was a found index (not `-1`). -/
theorem exitReservedStopState_remembers (A : Amathutils) (n : DecisionMakerNode) :
    (exitReservedStopState n).current_status_.prev_stopped_wpidx
      = n.current_status_.found_stopsign_idx ∧
    (exitReservedStopState n).current_status_.found_stopsign_idx = -1 ∧
    exitReservedStopState n =
      { n with current_status_ :=
          { n.current_status_ with
            prev_stopped_wpidx := n.current_status_.found_stopsign_idx,
            found_stopsign_idx := -1 } } ∧
    ∀ w1 : Waypoint, n.current_status_.finalwaypoints.waypoints[1]? = some w1 →
      n.stopline_reset_count_ < 4294967296 →
      w1.gid ≤ n.current_status_.found_stopsign_idx →
      n.current_status_.found_stopsign_idx ≤ w1.gid + n.stopline_reset_count_ →
      ((getStopSignStateFromWaypoint A (exitReservedStopState n)).1 = (NULLSTATE, -1) ∨
        ((getStopSignStateFromWaypoint A (exitReservedStopState n)).1.1 ≠ NULLSTATE ∧
          (getStopSignStateFromWaypoint A (exitReservedStopState n)).1.2
            ≠ n.current_status_.found_stopsign_idx)) ∧
      (n.current_status_.found_stopsign_idx ≠ -1 →
        (getStopSignStateFromWaypoint A (exitReservedStopState n)).1.2
          ≠ n.current_status_.found_stopsign_idx) := by
  refine ⟨rfl, rfl, rfl, ?_⟩
  intro w1 hw1 hcount hlo hhi
  suffices hd : (getStopSignStateFromWaypoint A (exitReservedStopState n)).1 = (NULLSTATE, -1) ∨
      ((getStopSignStateFromWaypoint A (exitReservedStopState n)).1.1 ≠ NULLSTATE ∧
        (getStopSignStateFromWaypoint A (exitReservedStopState n)).1.2
          ≠ n.current_status_.found_stopsign_idx) by
    refine ⟨hd, fun hne => ?_⟩
    rcases hd with h | h
    · rw [h]
      exact fun e => hne e.symm
    · exact h.2
  cases hwps : n.current_status_.finalwaypoints.waypoints with
  | nil => rw [hwps] at hw1; simp at hw1
  | cons w0 t0 =>
    cases t0 with
    | nil => rw [hwps] at hw1; simp at hw1
    | cons w1' t1 =>
      have hw : w1' = w1 := by
        rw [hwps] at hw1
        simpa using hw1
      subst hw
      cases t1 with
      | nil =>
        left
        unfold getStopSignStateFromWaypoint
        have : (exitReservedStopState n).current_status_.finalwaypoints.waypoints
            = [w0, w1'] := hwps
        simp only [this]
      | cons w2 rest =>
        have hlong := getStopSign_long A (exitReservedStopState n) w0 w1' w2 rest hwps
        have hprev : prevAfterReset (exitReservedStopState n) w1'
            = n.current_status_.found_stopsign_idx := by
          unfold prevAfterReset
          have hrc : resetCondition w1'.gid
              (exitReservedStopState n).current_status_.prev_stopped_wpidx
              (exitReservedStopState n).stopline_reset_count_ = false :=
            resetCondition_false _ _ _ hlo hhi hcount
          rw [hrc]
          rfl
        rw [hlong, hprev]
        exact scanStopSign_result A _ _ _ _ _

theorem exitReservedStopState_remembers_witness :
    reservedStopNode.current_status_.finalwaypoints.waypoints[1]? = some (wpAt 1 1 TYPE_STOP) ∧
    (getStopSignStateFromWaypoint planeMath reservedStopNode).1 = (TYPE_STOP, 1) ∧
    ((getStopSignStateFromWaypoint planeMath (exitReservedStopState reservedStopNode)).1
        = (NULLSTATE, -1) ∨
      ((getStopSignStateFromWaypoint planeMath (exitReservedStopState reservedStopNode)).1.1
          ≠ NULLSTATE ∧
        (getStopSignStateFromWaypoint planeMath (exitReservedStopState reservedStopNode)).1.2
          ≠ 1)) ∧
    (getStopSignStateFromWaypoint planeMath (exitReservedStopState reservedStopNode)).1
      = (TYPE_STOP, 2) :=
  ⟨by decide, by with_unfolding_all decide,
   ((exitReservedStopState_remembers planeMath reservedStopNode).2.2.2 (wpAt 1 1 TYPE_STOP)
      (by decide) (by decide) (by decide) (by decide)).1,
   by with_unfolding_all decide⟩

/-- C15 (as stated) fails: with a found stop marker (gid 3) before the ordered stop
(gid 5), `exitOrderedStopState` leaves `ordered_stop_idx` at 5, and it does not store 5
in `prev_stopped_wpidx`, which stays `-1`; the same node without a found marker gets
`ordered_stop_idx = -1`, and `prev_stopped_wpidx` still stays `-1`. -/
theorem exitOrderedStopState_keeps_order :
    (exitOrderedStopState orderedBehindMarker).current_status_.ordered_stop_idx = 5 ∧
    (exitOrderedStopState orderedBehindMarker).current_status_.prev_stopped_wpidx = -1 ∧
    ¬ ((exitOrderedStopState orderedBehindMarker).current_status_.prev_stopped_wpidx
          = orderedBehindMarker.current_status_.ordered_stop_idx ∧
        (exitOrderedStopState orderedBehindMarker).current_status_.ordered_stop_idx = -1) ∧
    (exitOrderedStopState
      { orderedBehindMarker with current_status_.found_stopsign_idx := -1 }
      ).current_status_.ordered_stop_idx = -1 ∧
    (exitOrderedStopState
      { orderedBehindMarker with current_status_.found_stopsign_idx := -1 }
      ).current_status_.prev_stopped_wpidx = -1 := by
  decide

/-- C15 (amended): `exitOrderedStopState` never writes `prev_stopped_wpidx`; it sets
`ordered_stop_idx` to `-1` when `found_stopsign_idx` is `-1` or the ordered stop lies
before the found marker (`ordered_stop_idx < found_stopsign_idx`), and changes nothing
at all otherwise. -/
theorem exitOrderedStopState_effect (n : DecisionMakerNode) :
    (exitOrderedStopState n).current_status_.prev_stopped_wpidx
      = n.current_status_.prev_stopped_wpidx ∧
    ((n.current_status_.found_stopsign_idx = -1 ∨
        n.current_status_.ordered_stop_idx < n.current_status_.found_stopsign_idx) →
      exitOrderedStopState n = { n with current_status_.ordered_stop_idx := -1 }) ∧
    (¬ (n.current_status_.found_stopsign_idx = -1 ∨
        n.current_status_.ordered_stop_idx < n.current_status_.found_stopsign_idx) →
      exitOrderedStopState n = n) ∧
    ((exitOrderedStopState n).current_status_.ordered_stop_idx = -1 ↔
      (n.current_status_.ordered_stop_idx = -1 ∨ n.current_status_.found_stopsign_idx = -1 ∨
        n.current_status_.ordered_stop_idx < n.current_status_.found_stopsign_idx)) := by
  unfold exitOrderedStopState
  by_cases hc : n.current_status_.found_stopsign_idx = -1 ∨
      n.current_status_.ordered_stop_idx < n.current_status_.found_stopsign_idx
  · rw [if_pos hc]
    refine ⟨rfl, fun _ => rfl, fun h => absurd hc h, ?_⟩
    constructor
    · intro _; exact Or.inr hc
    · intro _; rfl
  · rw [if_neg hc]
    refine ⟨rfl, fun h => absurd h hc, fun _ => rfl, ?_⟩
    constructor
    · intro h; exact Or.inl h
    · intro h
      rcases h with h | h
      · exact h
      · exact absurd h hc

/-- C16 (as stated) fails: the stop order `-1` with the vehicle at waypoint 0 does not
satisfy `closest_waypoint < d`, and `ordered_stop_idx` becomes `-1`, which is `d`. -/
theorem callbackFromStopOrder_cancel :
    (callbackFromStopOrder activeMissionNode (-1)).map
        (fun n => n.current_status_.ordered_stop_idx) = some (-1) ∧
    ¬ (activeMissionNode.current_status_.closest_waypoint < (-1 : Int) ∧ (-1 : Int) < 5) ∧
    ¬ (∀ n', callbackFromStopOrder activeMissionNode (-1) = some n' →
        (n'.current_status_.ordered_stop_idx = -1 ↔
          (activeMissionNode.current_status_.closest_waypoint < (-1 : Int) ∧
            (-1 : Int) < 5))) := by
  refine ⟨by decide, by decide, ?_⟩
  intro h
  have h1 := h _ rfl
  have h2 : ¬ (activeMissionNode.current_status_.closest_waypoint < (-1 : Int) ∧
      (-1 : Int) < 5) := by decide
  exact h2 (h1.mp (by decide))

/-- C16 (amended): when the active lane array has a last lane with a last waypoint,
`callbackFromStopOrder(d)` returns, and afterwards `ordered_stop_idx` is either `-1` or
equals `d` with `closest_waypoint < d <` gid of that last waypoint; it is `d` exactly
when that double inequality holds or `d` is `-1` itself; and the message published on
`stop_cmd_location` carries the id of the active lane array and the new
`ordered_stop_idx` as its `waypoint_index`. -/
theorem callbackFromStopOrder_index (n : DecisionMakerNode) (d : Int) (lane : Lane)
    (wp : Waypoint)
    (hlane : n.current_status_.using_lane_array.lanes.getLast? = some lane)
    (hwp : lane.waypoints.getLast? = some wp) :
    ∃ n', callbackFromStopOrder n d = some n' ∧
      (n'.current_status_.ordered_stop_idx = -1 ∨
        (n'.current_status_.ordered_stop_idx = d ∧
          n.current_status_.closest_waypoint < d ∧ d < wp.gid)) ∧
      (n'.current_status_.ordered_stop_idx = d ↔
        ((n.current_status_.closest_waypoint < d ∧ d < wp.gid) ∨ d = -1)) ∧
      n'.published = n.published ++
        [("stop_cmd_location",
          Message.vehicleLocation n.current_status_.using_lane_array.id
            n'.current_status_.ordered_stop_idx)] := by
  unfold callbackFromStopOrder
  simp only [hlane, hwp]
  by_cases h1 : n.current_status_.closest_waypoint < d
  · by_cases h2 : d < wp.gid
    · rw [if_pos h1, decide_eq_true h2]
      simp only []
      refine ⟨_, rfl, Or.inr ⟨rfl, h1, h2⟩, ?_, rfl⟩
      exact ⟨fun _ => Or.inl ⟨h1, h2⟩, fun _ => rfl⟩
    · rw [if_pos h1, decide_eq_false h2]
      simp only []
      refine ⟨_, rfl, Or.inl rfl, ?_, rfl⟩
      constructor
      · intro h; exact Or.inr h.symm
      · intro h
        rcases h with h | h
        · exact absurd h.2 h2
        · exact h.symm
  · rw [if_neg h1]
    simp only []
    refine ⟨_, rfl, Or.inl rfl, ?_, rfl⟩
    constructor
    · intro h; exact Or.inr h.symm
    · intro h
      rcases h with h | h
      · exact absurd h.1 h1
      · exact h.symm

theorem callbackFromStopOrder_index_witness :
    (callbackFromStopOrder activeMissionNode 3).map
        (fun n => n.current_status_.ordered_stop_idx) = some 3 ∧
    ∃ n', callbackFromStopOrder activeMissionNode 3 = some n' ∧
      (n'.current_status_.ordered_stop_idx = 3 ↔
        ((activeMissionNode.current_status_.closest_waypoint < 3 ∧
            (3 : Int) < (wpAt 5 50 0).gid) ∨ (3 : Int) = -1)) :=
  ⟨by decide,
   (callbackFromStopOrder_index activeMissionNode 3
      ⟨[wpAt 0 0 0, wpAt 1 10 0, wpAt 2 20 0, wpAt 3 30 0, wpAt 4 40 0, wpAt 5 50 0]⟩
      (wpAt 5 50 0) (by decide) (by decide)).imp
     (fun _ h => ⟨h.1, h.2.2.1⟩)⟩

/-! ## Motion handlers -/

theorem getStopSign_node (A : Amathutils) (n : DecisionMakerNode) :
    ∃ prev, (getStopSignStateFromWaypoint A n).2
      = { n with current_status_.prev_stopped_wpidx := prev } := by
  unfold getStopSignStateFromWaypoint
  split
  · exact ⟨_, rfl⟩
  · exact ⟨n.current_status_.prev_stopped_wpidx, rfl⟩

theorem getStopSign_empty_path (A : Amathutils) (n : DecisionMakerNode)
    (h : n.current_status_.finalwaypoints.waypoints = []) :
    getStopSignStateFromWaypoint A n = ((NULLSTATE, -1), n) := by
  unfold getStopSignStateFromWaypoint
  simp only [h]

theorem updateStopState_requested (A : Amathutils) (n : DecisionMakerNode) :
    (updateStopState A n).requested = n.requested ++
      (if n.current_status_.obstacle_waypoint ≠ -1 ∧
          ((foundAfterSearch A n ≠ -1 ∧
              foundAfterSearch A n
                ≥ n.current_status_.obstacle_waypoint + n.current_status_.closest_waypoint) ∨
            (n.current_status_.ordered_stop_idx ≠ -1 ∧
              n.current_status_.ordered_stop_idx
                ≥ n.current_status_.obstacle_waypoint + n.current_status_.closest_waypoint))
        then ["clear"] else []) ++
      (if (getStopSignStateFromWaypoint A n).1.1 ≠ 0 ∧ foundAfterSearch A n ≠ -1 ∧
          (n.current_status_.ordered_stop_idx = -1 ∨
            foundAfterSearch A n < n.current_status_.ordered_stop_idx) then
        (if (getStopSignStateFromWaypoint A n).1.1 = TYPE_STOPLINE then ["found_stopline"]
          else if (getStopSignStateFromWaypoint A n).1.1 = TYPE_STOP
            then ["found_reserved_stop"] else [])
      else if n.current_status_.ordered_stop_idx ≠ -1 ∧
          (foundAfterSearch A n = -1 ∨
            n.current_status_.ordered_stop_idx ≤ foundAfterSearch A n)
        then ["received_stop_order"] else []) := by
  obtain ⟨prev, hp⟩ := getStopSign_node A n
  unfold updateStopState foundAfterSearch
  simp only [hp]
  generalize (getStopSignStateFromWaypoint A n).1 = gs
  obtain ⟨first, second⟩ := gs
  obtain ⟨cs, i, f, ul, ins, cd, ca, src, pub, sub, req⟩ := n
  obtain ⟨pose, vel, closest, obstacle, stopline, found, ordered, prev0, prevord, cf, fw, bl,
    ula⟩ := cs
  simp only [DecisionMakerNode.tryNextState]
  by_cases h0 : first = 0
  · subst h0
    simp only [ne_eq, not_true_eq_false, if_false, false_and]
    by_cases h1 : obstacle = -1
    · simp [h1]
      split_ifs <;> simp_all
    · simp only [h1, not_false_eq_true, if_true, true_and]
      split_ifs <;> simp_all
  · simp only [ne_eq, h0, not_false_eq_true, if_true, true_and]
    by_cases h1 : obstacle = -1
    · simp [h1]
      split_ifs <;> simp_all
    · simp only [h1, not_false_eq_true, if_true, true_and]
      split_ifs <;> simp_all

theorem goAfterMarker_fields (A : Amathutils) (n : DecisionMakerNode) :
    (goAfterMarker A n).current_status_.ordered_stop_idx = n.current_status_.ordered_stop_idx ∧
    (goAfterMarker A n).current_status_.obstacle_waypoint
      = n.current_status_.obstacle_waypoint ∧
    (goAfterMarker A n).current_status_.closest_waypoint
      = n.current_status_.closest_waypoint ∧
    (goAfterMarker A n).current_status_.found_stopsign_idx = foundAfterSearch A n := by
  obtain ⟨prev, hp⟩ := getStopSign_node A n
  unfold goAfterMarker
  simp only [hp]
  split <;> exact ⟨rfl, rfl, rfl, rfl⟩

theorem updateGoState_eq (A : Amathutils) (Q : NodeQueries) (n : DecisionMakerNode) :
    updateGoState A Q n =
      if n.current_status_.ordered_stop_idx ≠ -1 ∧
          Q.calcRequiredDistForStop (goAfterMarker A n)
            > Q.getDistToWaypointIdx (goAfterMarker A n) n.current_status_.ordered_stop_idx ∧
          (n.current_status_.obstacle_waypoint = -1 ∨
            n.current_status_.ordered_stop_idx
              ≤ n.current_status_.obstacle_waypoint + n.current_status_.closest_waypoint)
      then (goAfterMarker A n).tryNextState "found_stop_decision"
      else goAfterMarker A n := by
  obtain ⟨prev, hp⟩ := getStopSign_node A n
  unfold updateGoState goAfterMarker foundAfterSearch
  simp only [hp]
  generalize (getStopSignStateFromWaypoint A n).1 = gs
  obtain ⟨first, second⟩ := gs
  obtain ⟨cs, i, f, ul, ins, cd, ca, src, pub, sub, req⟩ := n
  obtain ⟨pose, vel, closest, obstacle, stopline, found, ordered, prev0, prevord, cf, fw, bl,
    ula⟩ := cs
  simp only [DecisionMakerNode.tryNextState]
  by_cases h0 : first = 0
  · subst h0
    simp only [ne_eq, not_true_eq_false, if_false, false_and]
    split_ifs <;> simp_all
  · simp only [ne_eq, h0, not_false_eq_true, if_true, true_and]
    by_cases h1 : second = -1
    · subst h1
      simp only [not_true_eq_false, if_false, false_and]
      split_ifs <;> simp_all
    · simp only [h1, not_false_eq_true, if_true, true_and]
      by_cases h2 : obstacle = -1 ∨ second ≤ obstacle + closest
      · simp only [h2, if_true]
        split_ifs <;> simp_all
      · simp only [h2, if_false]
        split_ifs <;> simp_all
        omega
theorem resetCondition_iff (gid1 prev count : Int) (hg : isInt32 gid1) (hp : isInt32 prev)
    (hc : 0 ≤ count ∧ count < 4294967296) :
    resetCondition gid1 prev count = true ↔ (gid1 > prev ∨ prev - gid1 > count) := by
  unfold isInt32 at hg hp
  unfold resetCondition to_unsigned_int
  have h2 : count % 4294967296 = count := Int.emod_eq_of_lt hc.1 hc.2
  rw [h2]
  by_cases h : gid1 > prev
  · simp [h]
  · have h1 : (prev - gid1) % 4294967296 = prev - gid1 :=
      Int.emod_eq_of_lt (by omega) (by omega)
    rw [h1]
    simp [h]

/-- C18 (as stated) fails: with `stopline_reset_count_ = -1`, a second waypoint of gid 11
and a remembered stop at gid 500, the difference 489 exceeds the count, but the code
compares `(unsigned int) 489` with the count converted to `unsigned int`
(`4294967295`), so `prev_stopped_wpidx` stays 500, which is neither `-1` nor in
`[g1, g1 + stopline_reset_count_]`. -/
theorem getStopSign_keeps_with_negative_count :
    negativeCountNode.stopline_reset_count_ = -1 ∧
    negativeCountNode.current_status_.finalwaypoints.waypoints[1]? = some (wpAt 11 1 0) ∧
    negativeCountNode.current_status_.prev_stopped_wpidx - (wpAt 11 1 0).gid
      > negativeCountNode.stopline_reset_count_ ∧
    (getStopSignStateFromWaypoint planeMath
      negativeCountNode).2.current_status_.prev_stopped_wpidx = 500 ∧
    ¬ (((wpAt 11 1 0).gid > negativeCountNode.current_status_.prev_stopped_wpidx ∨
          negativeCountNode.current_status_.prev_stopped_wpidx - (wpAt 11 1 0).gid
            > negativeCountNode.stopline_reset_count_) →
        (getStopSignStateFromWaypoint planeMath
          negativeCountNode).2.current_status_.prev_stopped_wpidx = -1) ∧
    ¬ ((getStopSignStateFromWaypoint planeMath
          negativeCountNode).2.current_status_.prev_stopped_wpidx = -1 ∨
        ((wpAt 11 1 0).gid ≤ (getStopSignStateFromWaypoint planeMath
            negativeCountNode).2.current_status_.prev_stopped_wpidx ∧
          (getStopSignStateFromWaypoint planeMath
            negativeCountNode).2.current_status_.prev_stopped_wpidx
            ≤ (wpAt 11 1 0).gid + negativeCountNode.stopline_reset_count_)) := by
  refine ⟨rfl, ?_, ?_, ?_, ?_, ?_⟩ <;> with_unfolding_all decide

/-- C18 (amended): with a non-negative `stopline_reset_count_`, on a final path of at
least three waypoints whose second waypoint has gid `g1`,
`getStopSignStateFromWaypoint` sets `prev_stopped_wpidx` to `-1` when
`g1 > prev_stopped_wpidx` or `prev_stopped_wpidx - g1 > stopline_reset_count_`, leaves it
as it is otherwise, and changes no other field; so afterwards `prev_stopped_wpidx` is
`-1` or lies in `[g1, g1 + stopline_reset_count_]`. The gid, the remembered index and the
count are machine integers (`int` values, the count below `2 ^ 32`). -/
theorem getStopSign_reset_step (A : Amathutils) (n : DecisionMakerNode)
    (w0 w1 w2 : Waypoint) (rest : List Waypoint)
    (h : n.current_status_.finalwaypoints.waypoints = w0 :: w1 :: w2 :: rest)
    (hg : isInt32 w1.gid) (hp : isInt32 n.current_status_.prev_stopped_wpidx)
    (hc : 0 ≤ n.stopline_reset_count_ ∧ n.stopline_reset_count_ < 4294967296) :
    ((w1.gid > n.current_status_.prev_stopped_wpidx ∨
        n.current_status_.prev_stopped_wpidx - w1.gid > n.stopline_reset_count_) →
      (getStopSignStateFromWaypoint A n).2.current_status_.prev_stopped_wpidx = -1) ∧
    (¬ (w1.gid > n.current_status_.prev_stopped_wpidx ∨
        n.current_status_.prev_stopped_wpidx - w1.gid > n.stopline_reset_count_) →
      (getStopSignStateFromWaypoint A n).2.current_status_.prev_stopped_wpidx
        = n.current_status_.prev_stopped_wpidx) ∧
    (getStopSignStateFromWaypoint A n).2 =
      { n with current_status_.prev_stopped_wpidx :=
          (getStopSignStateFromWaypoint A n).2.current_status_.prev_stopped_wpidx } ∧
    ((getStopSignStateFromWaypoint A n).2.current_status_.prev_stopped_wpidx = -1 ∨
      (w1.gid ≤ (getStopSignStateFromWaypoint A n).2.current_status_.prev_stopped_wpidx ∧
        (getStopSignStateFromWaypoint A n).2.current_status_.prev_stopped_wpidx
          ≤ w1.gid + n.stopline_reset_count_)) := by
  have hlong := getStopSign_long A n w0 w1 w2 rest h
  have hiff := resetCondition_iff w1.gid n.current_status_.prev_stopped_wpidx
    n.stopline_reset_count_ hg hp hc
  have hprev : (getStopSignStateFromWaypoint A n).2.current_status_.prev_stopped_wpidx
      = prevAfterReset n w1 := by rw [hlong]
  rw [hprev]
  by_cases hcond : w1.gid > n.current_status_.prev_stopped_wpidx ∨
      n.current_status_.prev_stopped_wpidx - w1.gid > n.stopline_reset_count_
  · have hval : prevAfterReset n w1 = -1 := by
      unfold prevAfterReset
      rw [if_pos (hiff.mpr hcond)]
    refine ⟨fun _ => hval, fun hn => absurd hcond hn, ?_, Or.inl hval⟩
    rw [hlong]
  · have hval : prevAfterReset n w1 = n.current_status_.prev_stopped_wpidx := by
      unfold prevAfterReset
      rw [if_neg (fun hr => hcond (hiff.mp hr))]
    refine ⟨fun hy => absurd hy hcond, fun _ => hval, ?_, Or.inr ?_⟩
    · rw [hlong]
    · rw [hval]
      constructor <;> omega

theorem getStopSign_reset_step_witness :
    passedStopNode.current_status_.prev_stopped_wpidx = 5 ∧
    (wpAt 11 1 0).gid > passedStopNode.current_status_.prev_stopped_wpidx ∧
    (getStopSignStateFromWaypoint planeMath passedStopNode).2.current_status_.prev_stopped_wpidx
      = -1 :=
  ⟨rfl, by decide,
   (getStopSign_reset_step planeMath passedStopNode (wpAt 10 0 0) (wpAt 11 1 0) (wpAt 12 2 0) []
      rfl (by decide) (by decide) (by decide)).1 (Or.inl (by decide))⟩

/-- C19 (as stated) fails: with an ordered stop at gid 5, no stop marker on the (empty)
final path, a required stopping distance of 10 and a distance of 5 to the ordered stop,
`updateGoState` requests `found_stop_decision` although the distance to the ordered
stop does not exceed the required stopping distance; with the two distances exchanged
it requests nothing. -/
theorem updateGoState_requests_within_distance :
    (getStopSignStateFromWaypoint planeMath orderedStopPending).1 = (NULLSTATE, -1) ∧
    (updateGoState planeMath (fixedQueries false 10 5) orderedStopPending).requested
      = ["found_stop_decision"] ∧
    ¬ ((fixedQueries false 10 5).getDistToWaypointIdx orderedStopPending 5
        > (fixedQueries false 10 5).calcRequiredDistForStop orderedStopPending) ∧
    (updateGoState planeMath (fixedQueries false 5 10) orderedStopPending).requested = [] ∧
    (fixedQueries false 5 10).getDistToWaypointIdx orderedStopPending 5
        > (fixedQueries false 5 10).calcRequiredDistForStop orderedStopPending := by
  refine ⟨?_, ?_, ?_, ?_, ?_⟩ <;> with_unfolding_all decide

/-- C19 (amended): when `updateGoState` reaches its test of the ordered stop (the node
`goAfterMarker`, which has the ordered stop, the obstacle and the closest waypoint of
the node the handler started with), it requests `found_stop_decision` on account of the
ordered stop exactly when `ordered_stop_idx` is not `-1`, the required stopping distance
exceeds the distance to the ordered-stop waypoint
(`calcRequiredDistForStop() > getDistToWaypointIdx(ordered_stop_idx)`), and no obstacle
is reported or the ordered stop is not beyond it; otherwise it requests nothing
more. -/
theorem updateGoState_ordered_stop (A : Amathutils) (Q : NodeQueries)
    (n : DecisionMakerNode) :
    ((goAfterMarker A n).current_status_.ordered_stop_idx
        = n.current_status_.ordered_stop_idx ∧
      (goAfterMarker A n).current_status_.obstacle_waypoint
        = n.current_status_.obstacle_waypoint ∧
      (goAfterMarker A n).current_status_.closest_waypoint
        = n.current_status_.closest_waypoint) ∧
    ((updateGoState A Q n).requested
        = (goAfterMarker A n).requested ++ ["found_stop_decision"] ↔
      (n.current_status_.ordered_stop_idx ≠ -1 ∧
        Q.calcRequiredDistForStop (goAfterMarker A n)
          > Q.getDistToWaypointIdx (goAfterMarker A n) n.current_status_.ordered_stop_idx ∧
        (n.current_status_.obstacle_waypoint = -1 ∨
          n.current_status_.ordered_stop_idx
            ≤ n.current_status_.obstacle_waypoint + n.current_status_.closest_waypoint))) ∧
    (¬ (n.current_status_.ordered_stop_idx ≠ -1 ∧
        Q.calcRequiredDistForStop (goAfterMarker A n)
          > Q.getDistToWaypointIdx (goAfterMarker A n) n.current_status_.ordered_stop_idx ∧
        (n.current_status_.obstacle_waypoint = -1 ∨
          n.current_status_.ordered_stop_idx
            ≤ n.current_status_.obstacle_waypoint + n.current_status_.closest_waypoint)) →
      updateGoState A Q n = goAfterMarker A n) := by
  obtain ⟨f1, f2, f3, _⟩ := goAfterMarker_fields A n
  refine ⟨⟨f1, f2, f3⟩, ?_, ?_⟩
  · rw [updateGoState_eq]
    constructor
    · intro hreq
      by_contra hcon
      rw [if_neg hcon] at hreq
      have := congrArg List.length hreq
      simp at this
    · intro hcond
      rw [if_pos hcond]
      rfl
  · intro hcon
    rw [updateGoState_eq, if_neg hcon]

/-- C20 (as stated) fails: with an obstacle reported at gid 2 (so `obstacle_waypoint` is
not `-1`) and an ordered stop pending at gid 5, `updateStopState` requests `clear`. -/
theorem updateStopState_clears_before_obstacle :
    obstacleBeforeOrder.current_status_.obstacle_waypoint = 2 ∧
    obstacleBeforeOrder.current_status_.ordered_stop_idx = 5 ∧
    (updateStopState planeMath obstacleBeforeOrder).requested
      = ["clear", "received_stop_order"] ∧
    ¬ ("clear" ∈ (updateStopState planeMath obstacleBeforeOrder).requested →
        obstacleBeforeOrder.current_status_.obstacle_waypoint = -1 ∧
        (updateStopState planeMath obstacleBeforeOrder).current_status_.found_stopsign_idx = -1 ∧
        obstacleBeforeOrder.current_status_.ordered_stop_idx = -1) := by
  refine ⟨rfl, rfl, ?_, ?_⟩ <;> with_unfolding_all decide

/-- C20 (amended): what `updateStopState` appends to the requested transitions starts
with `clear` exactly when an obstacle is reported (`obstacle_waypoint` is not `-1`) and a
stop index is pending at or beyond it: `found_stopsign_idx` (as the stop-marker search
of this call leaves it) is not `-1` and at least `obstacle_waypoint + closest_waypoint`,
or `ordered_stop_idx` is not `-1` and at least that; nothing else it appends is
`clear`. -/
theorem updateStopState_clear (A : Amathutils) (n : DecisionMakerNode) :
    ∃ rest, (updateStopState A n).requested = n.requested ++
        (if n.current_status_.obstacle_waypoint ≠ -1 ∧
            ((foundAfterSearch A n ≠ -1 ∧
                foundAfterSearch A n
                  ≥ n.current_status_.obstacle_waypoint + n.current_status_.closest_waypoint) ∨
              (n.current_status_.ordered_stop_idx ≠ -1 ∧
                n.current_status_.ordered_stop_idx
                  ≥ n.current_status_.obstacle_waypoint + n.current_status_.closest_waypoint))
          then ["clear"] else []) ++ rest ∧
      "clear" ∉ rest ∧
      ("clear" ∈ (updateStopState A n).requested.drop n.requested.length ↔
        (n.current_status_.obstacle_waypoint ≠ -1 ∧
          ((foundAfterSearch A n ≠ -1 ∧
              foundAfterSearch A n
                ≥ n.current_status_.obstacle_waypoint + n.current_status_.closest_waypoint) ∨
            (n.current_status_.ordered_stop_idx ≠ -1 ∧
              n.current_status_.ordered_stop_idx
                ≥ n.current_status_.obstacle_waypoint + n.current_status_.closest_waypoint)))) := by
  have hreq := updateStopState_requested A n
  refine ⟨_, hreq, ?_, ?_⟩
  · split_ifs <;> simp
  · rw [hreq, List.append_assoc, List.drop_left]
    by_cases hc : n.current_status_.obstacle_waypoint ≠ -1 ∧
          ((foundAfterSearch A n ≠ -1 ∧
              foundAfterSearch A n
                ≥ n.current_status_.obstacle_waypoint + n.current_status_.closest_waypoint) ∨
            (n.current_status_.ordered_stop_idx ≠ -1 ∧
              n.current_status_.ordered_stop_idx
                ≥ n.current_status_.obstacle_waypoint + n.current_status_.closest_waypoint))
    · rw [if_pos hc]
      simp [hc]
    · rw [if_neg hc]
      simp only [List.nil_append, hc, iff_false]
      split_ifs <;> simp

/-! ## The requests of the Stop, OrderedStop and Drive handlers -/

theorem scanStopSign_gid (A : Amathutils) (prev : Int) (target : ℚ) :
    ∀ (l : List Waypoint) (d : ℚ) (p : Pose),
      (scanStopSign A prev target l d p).1 ≠ NULLSTATE →
      ∃ w ∈ l, (scanStopSign A prev target l d p).2 = w.gid := by
  intro l d p h
  obtain ⟨k, w, hk, _, heq, _, _⟩ := scanStopSign_found A prev target l d p h
  exact ⟨w, List.mem_iff_getElem?.mpr ⟨k, hk⟩, by rw [heq]⟩

theorem getStopSign_gid (A : Amathutils) (n : DecisionMakerNode)
    (h : (getStopSignStateFromWaypoint A n).1.1 ≠ NULLSTATE) :
    ∃ w ∈ n.current_status_.finalwaypoints.waypoints,
      (getStopSignStateFromWaypoint A n).1.2 = w.gid := by
  cases hwps : n.current_status_.finalwaypoints.waypoints with
  | nil =>
    rw [getStopSign_empty_path A n hwps] at h
    exact absurd rfl h
  | cons w0 t0 =>
    cases t0 with
    | nil =>
      exfalso
      apply h
      unfold getStopSignStateFromWaypoint
      simp only [hwps]
    | cons w1 t1 =>
      cases t1 with
      | nil =>
        exfalso
        apply h
        unfold getStopSignStateFromWaypoint
        simp only [hwps]
      | cons w2 rest =>
        have hlong := getStopSign_long A n w0 w1 w2 rest hwps
        rw [hlong] at h ⊢
        obtain ⟨w, hw, hg⟩ := scanStopSign_gid A _ _ _ _ _ h
        refine ⟨w, ?_, hg⟩
        rw [hwps] at hw
        exact List.mem_of_mem_drop (List.mem_of_mem_dropLast hw)

theorem updateStopState_newRequests (A : Amathutils) (n : DecisionMakerNode) :
    newRequests n (updateStopState A n) =
      (if n.current_status_.obstacle_waypoint ≠ -1 ∧
          ((foundAfterSearch A n ≠ -1 ∧
              foundAfterSearch A n
                ≥ n.current_status_.obstacle_waypoint + n.current_status_.closest_waypoint) ∨
            (n.current_status_.ordered_stop_idx ≠ -1 ∧
              n.current_status_.ordered_stop_idx
                ≥ n.current_status_.obstacle_waypoint + n.current_status_.closest_waypoint))
        then ["clear"] else []) ++
      (if (getStopSignStateFromWaypoint A n).1.1 ≠ 0 ∧ foundAfterSearch A n ≠ -1 ∧
          (n.current_status_.ordered_stop_idx = -1 ∨
            foundAfterSearch A n < n.current_status_.ordered_stop_idx) then
        (if (getStopSignStateFromWaypoint A n).1.1 = TYPE_STOPLINE then ["found_stopline"]
          else if (getStopSignStateFromWaypoint A n).1.1 = TYPE_STOP
            then ["found_reserved_stop"] else [])
      else if n.current_status_.ordered_stop_idx ≠ -1 ∧
          (foundAfterSearch A n = -1 ∨
            n.current_status_.ordered_stop_idx ≤ foundAfterSearch A n)
        then ["received_stop_order"] else []) := by
  unfold newRequests
  rw [updateStopState_requested, List.append_assoc, List.drop_left]

theorem updateStopState_tail (A : Amathutils) (n : DecisionMakerNode) (t : String)
    (ht : t ≠ "clear") :
    t ∈ newRequests n (updateStopState A n) ↔
      t ∈ (if (getStopSignStateFromWaypoint A n).1.1 ≠ 0 ∧ foundAfterSearch A n ≠ -1 ∧
          (n.current_status_.ordered_stop_idx = -1 ∨
            foundAfterSearch A n < n.current_status_.ordered_stop_idx) then
        (if (getStopSignStateFromWaypoint A n).1.1 = TYPE_STOPLINE then ["found_stopline"]
          else if (getStopSignStateFromWaypoint A n).1.1 = TYPE_STOP
            then ["found_reserved_stop"] else [])
      else if n.current_status_.ordered_stop_idx ≠ -1 ∧
          (foundAfterSearch A n = -1 ∨
            n.current_status_.ordered_stop_idx ≤ foundAfterSearch A n)
        then ["received_stop_order"] else []) := by
  rw [updateStopState_newRequests, List.mem_append]
  constructor
  · rintro (h | h)
    · exfalso
      split at h
      · simp only [List.mem_singleton] at h
        exact ht h
      · simp at h
    · exact h
  · exact Or.inr

/-- C21 (as stated) fails: the search returns a `TYPE_STOPLINE` marker whose gid is
`-1`, no stop is ordered, and `updateStopState` requests nothing: it stores the gid in
`found_stopsign_idx` and its marker block runs only when `found_stopsign_idx` is not
`-1`. -/
theorem updateStopState_marker_without_gid :
    (getStopSignStateFromWaypoint planeMath markerWithoutGid).1 = (TYPE_STOPLINE, -1) ∧
    markerWithoutGid.current_status_.ordered_stop_idx = -1 ∧
    newRequests markerWithoutGid (updateStopState planeMath markerWithoutGid) = [] ∧
    ¬ (((getStopSignStateFromWaypoint planeMath markerWithoutGid).1.1 ≠ NULLSTATE ∧
          (markerWithoutGid.current_status_.ordered_stop_idx = -1 ∨
            foundAfterSearch planeMath markerWithoutGid
              < markerWithoutGid.current_status_.ordered_stop_idx)) →
        ((getStopSignStateFromWaypoint planeMath markerWithoutGid).1.1 = TYPE_STOPLINE →
          "found_stopline" ∈
            newRequests markerWithoutGid (updateStopState planeMath markerWithoutGid))) := by
  refine ⟨?_, rfl, ?_, ?_⟩ <;> with_unfolding_all decide

/-- C21 (amended): whenever the stop-marker search returns a marker whose gid is not
`-1` and no ordered stop is nearer (`ordered_stop_idx` is `-1` or `found_stopsign_idx`,
as the search leaves it, is below `ordered_stop_idx`), `updateStopState` requests
`found_stopline` for a marker of type `TYPE_STOPLINE` and `found_reserved_stop` for one
of type `TYPE_STOP`, and does not request `received_stop_order`; and `found_stopline` or
`found_reserved_stop` is requested only in that situation, for a marker of that type
whose gid is not `-1`. -/
theorem updateStopState_marker (A : Amathutils) (n : DecisionMakerNode) :
    (((getStopSignStateFromWaypoint A n).1.1 ≠ NULLSTATE ∧
        (getStopSignStateFromWaypoint A n).1.2 ≠ -1 ∧
        (n.current_status_.ordered_stop_idx = -1 ∨
          foundAfterSearch A n < n.current_status_.ordered_stop_idx)) →
      ((getStopSignStateFromWaypoint A n).1.1 = TYPE_STOPLINE →
        "found_stopline" ∈ newRequests n (updateStopState A n)) ∧
      ((getStopSignStateFromWaypoint A n).1.1 = TYPE_STOP →
        "found_reserved_stop" ∈ newRequests n (updateStopState A n)) ∧
      "received_stop_order" ∉ newRequests n (updateStopState A n)) ∧
    ("found_stopline" ∈ newRequests n (updateStopState A n) →
      (getStopSignStateFromWaypoint A n).1.1 = TYPE_STOPLINE ∧
      (getStopSignStateFromWaypoint A n).1.2 ≠ -1 ∧
      (n.current_status_.ordered_stop_idx = -1 ∨
        foundAfterSearch A n < n.current_status_.ordered_stop_idx)) ∧
    ("found_reserved_stop" ∈ newRequests n (updateStopState A n) →
      (getStopSignStateFromWaypoint A n).1.1 = TYPE_STOP ∧
      (getStopSignStateFromWaypoint A n).1.2 ≠ -1 ∧
      (n.current_status_.ordered_stop_idx = -1 ∨
        foundAfterSearch A n < n.current_status_.ordered_stop_idx)) := by
  have hfound : (getStopSignStateFromWaypoint A n).1.1 ≠ 0 →
      foundAfterSearch A n = (getStopSignStateFromWaypoint A n).1.2 := by
    intro hm0
    unfold foundAfterSearch
    rw [if_pos hm0]
  rw [updateStopState_tail A n "found_stopline" (by decide),
    updateStopState_tail A n "found_reserved_stop" (by decide),
    updateStopState_tail A n "received_stop_order" (by decide)]
  by_cases hmk : (getStopSignStateFromWaypoint A n).1.1 ≠ 0 ∧ foundAfterSearch A n ≠ -1 ∧
      (n.current_status_.ordered_stop_idx = -1 ∨
        foundAfterSearch A n < n.current_status_.ordered_stop_idx)
  · have hgid : (getStopSignStateFromWaypoint A n).1.2 ≠ -1 := by
      rw [← hfound hmk.1]
      exact hmk.2.1
    rw [if_pos hmk]
    refine ⟨fun _ => ⟨?_, ?_, ?_⟩, ?_, ?_⟩
    · intro ht
      rw [if_pos ht]
      simp
    · intro ht
      have hne : ¬ (getStopSignStateFromWaypoint A n).1.1 = TYPE_STOPLINE := by
        rw [ht]; decide
      rw [if_neg hne, if_pos ht]
      simp
    · split
      · simp
      · split <;> simp
    · intro hmem
      refine ⟨?_, hgid, hmk.2.2⟩
      by_contra hne
      rw [if_neg hne] at hmem
      split at hmem <;> simp at hmem
    · intro hmem
      refine ⟨?_, hgid, hmk.2.2⟩
      by_contra hne
      split at hmem <;> simp at hmem
  · rw [if_neg hmk]
    refine ⟨?_, ?_, ?_⟩
    · rintro ⟨hm, hgid, hord⟩
      exfalso
      apply hmk
      have hm0 : (getStopSignStateFromWaypoint A n).1.1 ≠ 0 := hm
      refine ⟨hm0, ?_, hord⟩
      rw [hfound hm0]
      exact hgid
    · intro hmem
      split at hmem <;> simp at hmem
    · intro hmem
      split at hmem <;> simp at hmem

theorem updateStopState_marker_witness :
    (getStopSignStateFromWaypoint planeMath stoplineAhead).1 = (TYPE_STOPLINE, 5) ∧
    "found_stopline" ∈ newRequests stoplineAhead (updateStopState planeMath stoplineAhead) :=
  ⟨by with_unfolding_all decide,
   ((updateStopState_marker planeMath stoplineAhead).1
      ⟨by with_unfolding_all decide, by with_unfolding_all decide, Or.inl rfl⟩).1
        (by with_unfolding_all decide)⟩

/-- C22 (as stated) fails: with a `TYPE_STOP` marker found at gid 5 and a stop ordered at
the same gid 5, `updateStopState` requests `received_stop_order` although the ordered
stop is not strictly before the found marker. -/
theorem updateStopState_order_at_marker :
    (getStopSignStateFromWaypoint planeMath orderAtMarker).1 = (TYPE_STOP, 5) ∧
    orderAtMarker.current_status_.ordered_stop_idx = 5 ∧
    newRequests orderAtMarker (updateStopState planeMath orderAtMarker)
      = ["received_stop_order"] ∧
    (updateStopState planeMath orderAtMarker).current_status_.found_stopsign_idx = 5 ∧
    ¬ ("received_stop_order" ∈ newRequests orderAtMarker (updateStopState planeMath orderAtMarker) →
        orderAtMarker.current_status_.ordered_stop_idx ≠ -1 ∧
        ((updateStopState planeMath orderAtMarker).current_status_.found_stopsign_idx = -1 ∨
          orderAtMarker.current_status_.ordered_stop_idx
            < (updateStopState planeMath orderAtMarker).current_status_.found_stopsign_idx)) := by
  refine ⟨?_, rfl, ?_, ?_, ?_⟩ <;> with_unfolding_all decide

/-- C22 (amended): `updateStopState` requests `received_stop_order` exactly when an
ordered stop is pending and is not beyond a found marker: `ordered_stop_idx` is not `-1`
and `found_stopsign_idx` (as the stop-marker search of this call leaves it) is `-1` or at
least `ordered_stop_idx`. -/
theorem updateStopState_stop_order (A : Amathutils) (n : DecisionMakerNode) :
    "received_stop_order" ∈ newRequests n (updateStopState A n) ↔
      (n.current_status_.ordered_stop_idx ≠ -1 ∧
        (foundAfterSearch A n = -1 ∨
          n.current_status_.ordered_stop_idx ≤ foundAfterSearch A n)) := by
  rw [updateStopState_tail A n "received_stop_order" (by decide)]
  by_cases hmk : (getStopSignStateFromWaypoint A n).1.1 ≠ 0 ∧ foundAfterSearch A n ≠ -1 ∧
      (n.current_status_.ordered_stop_idx = -1 ∨
        foundAfterSearch A n < n.current_status_.ordered_stop_idx)
  · rw [if_pos hmk]
    constructor
    · intro hmem
      split at hmem
      · simp at hmem
      · split at hmem <;> simp at hmem
    · rintro ⟨h1, h2⟩
      exfalso
      rcases hmk.2.2 with h | h
      · exact h1 h
      · rcases h2 with h2 | h2
        · exact hmk.2.1 h2
        · omega
  · rw [if_neg hmk]
    by_cases hord : n.current_status_.ordered_stop_idx ≠ -1 ∧
        (foundAfterSearch A n = -1 ∨
          n.current_status_.ordered_stop_idx ≤ foundAfterSearch A n)
    · rw [if_pos hord]
      simp [hord]
    · rw [if_neg hord]
      simp [hord]

/-- C30: in one call of `updateStopState` at most one of the triggers `found_stopline`,
`found_reserved_stop` and `received_stop_order` is requested, and none of them
twice. -/
theorem updateStopState_one_stop_trigger (A : Amathutils) (n : DecisionMakerNode) :
    (newRequests n (updateStopState A n)).count "found_stopline"
      + (newRequests n (updateStopState A n)).count "found_reserved_stop"
      + (newRequests n (updateStopState A n)).count "received_stop_order" ≤ 1 := by
  rw [updateStopState_newRequests]
  simp only [List.count_append]
  split_ifs <;> decide

/-- C23: `updateOrderedStopState` requests `clear` exactly when `ordered_stop_idx` is
`-1` or `closest_waypoint > ordered_stop_idx`, and then does nothing else; otherwise it
requests no transition and hands `ordered_stop_idx` to the publisher of the stopline
waypoint index. -/
theorem updateOrderedStopState_effect (n : DecisionMakerNode) :
    ("clear" ∈ newRequests n (updateOrderedStopState n) ↔
      (n.current_status_.ordered_stop_idx = -1 ∨
        n.current_status_.closest_waypoint > n.current_status_.ordered_stop_idx)) ∧
    ((n.current_status_.ordered_stop_idx = -1 ∨
        n.current_status_.closest_waypoint > n.current_status_.ordered_stop_idx) →
      newRequests n (updateOrderedStopState n) = ["clear"] ∧
      (updateOrderedStopState n).published = n.published ∧
      updateOrderedStopState n = n.tryNextState "clear") ∧
    (¬ (n.current_status_.ordered_stop_idx = -1 ∨
        n.current_status_.closest_waypoint > n.current_status_.ordered_stop_idx) →
      newRequests n (updateOrderedStopState n) = [] ∧
      (updateOrderedStopState n).published = n.published ++
        [("state/stopline_wpidx", Message.int32 n.current_status_.ordered_stop_idx)] ∧
      updateOrderedStopState n
        = n.publishStoplineWaypointIdx n.current_status_.ordered_stop_idx) := by
  unfold updateOrderedStopState newRequests
  by_cases hc : n.current_status_.ordered_stop_idx = -1 ∨
      n.current_status_.closest_waypoint > n.current_status_.ordered_stop_idx
  · rw [if_pos hc]
    have hdrop : (n.tryNextState "clear").requested.drop n.requested.length = ["clear"] := by
      simp [DecisionMakerNode.tryNextState]
    rw [hdrop]
    exact ⟨⟨fun _ => hc, fun _ => by simp⟩, fun _ => ⟨rfl, rfl, rfl⟩, fun h => absurd hc h⟩
  · rw [if_neg hc]
    have hdrop : (n.publishStoplineWaypointIdx
        n.current_status_.ordered_stop_idx).requested.drop n.requested.length = [] := by
      simp [DecisionMakerNode.publishStoplineWaypointIdx, DecisionMakerNode.publish]
    rw [hdrop]
    exact ⟨⟨fun h => by simp at h, fun h => absurd h hc⟩, fun h => absurd h hc,
      fun _ => ⟨rfl, rfl, rfl⟩⟩

/-- C24: `updateDriveState` requests `arrived_goal` exactly when the goal is reached;
when it is not reached it requests `mission_aborted` exactly when `closest_waypoint` is
`-1`; it never requests both, and it requests nothing else: what it requests is
`arrived_goal`, or `mission_aborted`, or nothing. -/
theorem updateDriveState_requests (Q : NodeQueries) (n : DecisionMakerNode) :
    ("arrived_goal" ∈ newRequests n (updateDriveState Q n) ↔ Q.isArrivedGoal n = true) ∧
    (Q.isArrivedGoal n = false →
      ("mission_aborted" ∈ newRequests n (updateDriveState Q n) ↔
        n.current_status_.closest_waypoint = -1)) ∧
    ¬ ("arrived_goal" ∈ newRequests n (updateDriveState Q n) ∧
        "mission_aborted" ∈ newRequests n (updateDriveState Q n)) ∧
    newRequests n (updateDriveState Q n) =
      (if Q.isArrivedGoal n = true then ["arrived_goal"]
        else if n.current_status_.closest_waypoint = -1 then ["mission_aborted"] else []) := by
  have hreq : newRequests n (updateDriveState Q n) =
      (if Q.isArrivedGoal n = true then ["arrived_goal"]
        else if n.current_status_.closest_waypoint = -1 then ["mission_aborted"]
        else []) := by
    unfold updateDriveState newRequests
    by_cases h1 : Q.isArrivedGoal n = true
    · rw [if_pos h1, if_pos h1]
      simp [DecisionMakerNode.tryNextState]
    · rw [if_neg h1, if_neg h1]
      by_cases h2 : n.current_status_.closest_waypoint = -1
      · rw [if_pos h2, if_pos h2]
        simp [DecisionMakerNode.tryNextState, DecisionMakerNode.publishOperatorHelpMessage,
          DecisionMakerNode.publish]
      · rw [if_neg h2, if_neg h2]
        simp
  rw [hreq]
  by_cases h1 : Q.isArrivedGoal n = true
  · rw [if_pos h1]
    refine ⟨⟨fun _ => h1, fun _ => by simp⟩, ?_, ?_, rfl⟩
    · intro hf
      rw [h1] at hf
      exact absurd hf (by decide)
    · rintro ⟨_, h⟩
      simp at h
  · rw [if_neg h1]
    by_cases h2 : n.current_status_.closest_waypoint = -1
    · rw [if_pos h2]
      refine ⟨⟨fun h => by simp at h, fun h => absurd h h1⟩, ?_, ?_, rfl⟩
      · intro _
        exact ⟨fun _ => h2, fun _ => by simp⟩
      · rintro ⟨h, _⟩
        simp at h
    · rw [if_neg h2]
      refine ⟨⟨fun h => by simp at h, fun h => absurd h h1⟩, ?_, ?_, rfl⟩
      · intro _
        exact ⟨fun h => by simp at h, fun h => absurd h h2⟩
      · rintro ⟨h, _⟩
        simp at h

/-! ## The bounds of the scan, the goal loop and the stopline loop -/

theorem scanStopSign_unmarked (A : Amathutils) (prev : Int) (target : ℚ) :
    ∀ (l : List Waypoint) (d : ℚ) (p : Pose),
      (∀ w ∈ l, w.wpstate.stop_state = NULLSTATE) →
      scanStopSign A prev target l d p = (NULLSTATE, -1) := by
  intro l
  induction l with
  | nil => intro d p _; rfl
  | cons w rest ih =>
    intro d p h
    unfold scanStopSign
    have hw : ¬ (w.wpstate.stop_state ≠ NULLSTATE ∧ prev ≠ w.gid) :=
      fun hc => hc.1 (h w (List.mem_cons_self _ _))
    simp only []
    rw [if_neg hw]
    split
    · rfl
    · exact ih _ _ (fun x hx => h x (List.mem_cons_of_mem _ hx))

/-- C27: on a final path of at least three waypoints on which no waypoint before the
last one carries a stop marker, `getStopSignStateFromWaypoint` returns
`(NULLSTATE, -1)`, whatever marker the last waypoint carries and however near it is. -/
theorem getStopSign_skips_last (A : Amathutils) (n : DecisionMakerNode)
    (hlen : 3 ≤ n.current_status_.finalwaypoints.waypoints.length)
    (hnull : ∀ (i : Nat) (w : Waypoint),
      i + 1 < n.current_status_.finalwaypoints.waypoints.length →
      n.current_status_.finalwaypoints.waypoints[i]? = some w →
      w.wpstate.stop_state = NULLSTATE) :
    (getStopSignStateFromWaypoint A n).1 = (NULLSTATE, -1) := by
  cases hwps : n.current_status_.finalwaypoints.waypoints with
  | nil => rw [hwps] at hlen; simp at hlen
  | cons w0 t0 =>
    cases t0 with
    | nil => rw [hwps] at hlen; simp at hlen
    | cons w1 t1 =>
      cases t1 with
      | nil => rw [hwps] at hlen; simp at hlen
      | cons w2 rest =>
        rw [getStopSign_long A n w0 w1 w2 rest hwps]
        apply scanStopSign_unmarked
        intro w hw
        obtain ⟨k, hk⟩ := List.mem_iff_getElem?.mp hw
        have hklen : k < ((n.current_status_.finalwaypoints.waypoints.drop 1).dropLast).length := by
          by_contra hcon
          rw [List.getElem?_eq_none (not_lt.mp hcon)] at hk
          exact Option.noConfusion hk
        rw [inner_getElem? _ k hklen] at hk
        simp only [List.length_dropLast, List.length_drop] at hklen
        exact hnull (k + 1) w (by omega) hk

theorem getStopSign_skips_last_witness :
    markerOnLast.current_status_.finalwaypoints.waypoints[2]? = some (wpAt 2 2 TYPE_STOP) ∧
    (getStopSignStateFromWaypoint planeMath markerOnLast).1 = (NULLSTATE, -1) :=
  ⟨by decide,
   getStopSign_skips_last planeMath markerOnLast (by decide)
     (by
      intro i w hi hw
      have hi' : i < 2 := by
        have : markerOnLast.current_status_.finalwaypoints.waypoints.length = 3 := rfl
        omega
      have hcases : i = 0 ∨ i = 1 := by omega
      rcases hcases with rfl | rfl
      · have : w = wpAt 0 0 0 := by
          have h0 : markerOnLast.current_status_.finalwaypoints.waypoints[0]?
              = some (wpAt 0 0 0) := rfl
          rw [h0] at hw
          exact (Option.some.inj hw).symm
        rw [this]; rfl
      · have : w = wpAt 1 1 0 := by
          have h1 : markerOnLast.current_status_.finalwaypoints.waypoints[1]?
              = some (wpAt 1 1 0) := rfl
          rw [h1] at hw
          exact (Option.some.inj hw).symm
        rw [this]; rfl)⟩

theorem markGoal_spec :
    ∀ (fuel counter wp_idx : Nat) (wps : List Waypoint),
      5 ≤ fuel + counter → counter ≤ 4 → 1 ≤ wp_idx + counter → wp_idx ≤ wps.length →
      ∃ j y, j ≤ wp_idx ∧ wp_idx ≤ j + (4 - counter) ∧
        markGoal fuel counter wp_idx wps = some y ∧ y.length = wps.length ∧
        (∀ idx : Nat, y[idx]? =
          if j ≤ idx ∧ idx < wp_idx then (wps[idx]?).map (fun w => withEvent w TYPE_EVENT_GOAL)
          else wps[idx]?) ∧
        (counter = 0 → j < wp_idx) := by
  intro fuel
  induction fuel with
  | zero => intro counter wp_idx wps h1 h2; omega
  | succ fuel ih =>
    intro counter wp_idx wps h1 h2 h3 h4
    simp only [markGoal]
    by_cases hc : counter ≤ (if wp_idx ≤ num_of_set_mission_complete_flag then wp_idx
        else num_of_set_mission_complete_flag)
    · rw [if_pos hc]
      have hc3 : counter ≤ 3 ∧ counter ≤ wp_idx := by
        unfold num_of_set_mission_complete_flag at hc
        split at hc <;> omega
      have hpos : wp_idx ≠ 0 := by omega
      rw [if_neg hpos]
      have hlt : wp_idx - 1 < wps.length := by omega
      have hget : wps[wp_idx - 1]? = some wps[wp_idx - 1] := List.getElem?_eq_getElem hlt
      rw [hget]
      simp only []
      obtain ⟨j, y, hj, hjc, hy, hlen, hpt, _⟩ := ih (counter + 1) (wp_idx - 1)
        (wps.set (wp_idx - 1)
          { wps[wp_idx - 1] with wpstate.event_state := TYPE_EVENT_GOAL })
        (by omega) (by omega) (by omega) (by rw [List.length_set]; omega)
      refine ⟨j, y, by omega, by omega, hy, by rw [hlen, List.length_set], ?_, fun _ => by omega⟩
      intro idx
      rw [hpt idx]
      by_cases hi : idx = wp_idx - 1
      · subst hi
        have hcond : j ≤ wp_idx - 1 ∧ wp_idx - 1 < wp_idx := ⟨hj, by omega⟩
        have hncond : ¬ (j ≤ wp_idx - 1 ∧ wp_idx - 1 < wp_idx - 1) := fun h => by omega
        rw [if_pos hcond, if_neg hncond, hget, List.getElem?_set_self hlt]
        rfl
      · have hne : wp_idx - 1 ≠ idx := fun h => hi h.symm
        rw [List.getElem?_set_ne hne]
        by_cases hcond : j ≤ idx ∧ idx < wp_idx
        · rw [if_pos hcond, if_pos ⟨hcond.1, by omega⟩]
        · rw [if_neg hcond, if_neg (fun h => hcond ⟨h.1, by omega⟩)]
    · rw [if_neg hc]
      refine ⟨wp_idx, wps, le_refl _, by omega, rfl, rfl, ?_, ?_⟩
      · intro idx
        rw [if_neg (fun h => by omega)]
      · intro h0
        exfalso
        apply hc
        rw [h0]
        exact Nat.zero_le _

/-- C28: on every non-empty lane the goal-marking loop ends without indexing outside the
lane, and what it returns is the lane with `event_state` set to `TYPE_EVENT_GOAL` on its
last `k` waypoints and on no other, for some `k` between 1 and 4 (and at most the number
of waypoints): the last waypoint is always marked and the marked waypoints are a
contiguous suffix. -/
theorem markGoalOfLane_suffix (wps : List Waypoint) (h : wps ≠ []) :
    ∃ k y, 1 ≤ k ∧ k ≤ 4 ∧ k ≤ wps.length ∧
      markGoalOfLane wps = some y ∧ y.length = wps.length ∧
      (∀ idx : Nat, y[idx]? =
        if wps.length - k ≤ idx then (wps[idx]?).map (fun w => withEvent w TYPE_EVENT_GOAL)
        else wps[idx]?) ∧
      y = wps.take (wps.length - k) ++
        (wps.drop (wps.length - k)).map (fun w => withEvent w TYPE_EVENT_GOAL) := by
  have hpos : 0 < wps.length := List.length_pos.mpr h
  obtain ⟨j, y, hj, hjc, hy, hlen, hpt, hlast⟩ := markGoal_spec
    (num_of_set_mission_complete_flag + 2) 0 wps.length wps (by decide) (by decide)
    (by omega) (le_refl _)
  have hjl := hlast rfl
  have hpt' : ∀ idx : Nat, y[idx]? =
      if wps.length - (wps.length - j) ≤ idx
      then (wps[idx]?).map (fun w => withEvent w TYPE_EVENT_GOAL) else wps[idx]? := by
    intro idx
    rw [hpt idx]
    have hsub : wps.length - (wps.length - j) = j := by omega
    rw [hsub]
    by_cases hc : j ≤ idx
    · by_cases hi : idx < wps.length
      · rw [if_pos ⟨hc, hi⟩, if_pos hc]
      · rw [if_neg (fun hh => hi hh.2), if_pos hc,
          List.getElem?_eq_none (not_lt.mp hi)]
        rfl
    · rw [if_neg (fun hh => hc hh.1), if_neg hc]
  refine ⟨wps.length - j, y, by omega, by omega, by omega, hy, hlen, hpt', ?_⟩
  apply List.ext_getElem?
  intro idx
  rw [hpt' idx]
  have hsub : wps.length - (wps.length - j) = j := by omega
  rw [hsub]
  by_cases hc : j ≤ idx
  · rw [if_pos hc, List.getElem?_append_right (by rw [List.length_take]; omega)]
    rw [List.length_take, List.getElem?_map, List.getElem?_drop]
    have hmin : min j wps.length = j := by omega
    rw [hmin]
    have : j + (idx - j) = idx := by omega
    rw [this]
  · rw [if_neg hc, List.getElem?_append_left (by rw [List.length_take]; omega),
      List.getElem?_take]
    rw [if_pos (by omega)]

theorem markGoalOfLane_suffix_witness :
    ([wpAt 0 0 0, wpAt 1 10 0] : List Waypoint) ≠ [] ∧
    (∃ k y, 1 ≤ k ∧ markGoalOfLane [wpAt 0 0 0, wpAt 1 10 0] = some y ∧ y.length = 2) ∧
    markGoalOfLane [wpAt 0 0 0, wpAt 1 10 0]
      = some [withEvent (wpAt 0 0 0) TYPE_EVENT_GOAL, withEvent (wpAt 1 10 0) TYPE_EVENT_GOAL] :=
  ⟨List.cons_ne_nil _ _,
   (markGoalOfLane_suffix [wpAt 0 0 0, wpAt 1 10 0] (List.cons_ne_nil _ _)).imp
     (fun _ hk => hk.imp (fun _ hy => ⟨hy.1, hy.2.2.2.1, hy.2.2.2.2.1⟩)),
   by with_unfolding_all decide⟩

/-- C29: the stopline loop of `setWaypointStateUsingVectorMap`, which runs on non-empty
lanes only (an empty lane is skipped), ends on every non-empty lane and every list of
stoplines within as many evaluations of its condition as the lane has waypoints on
entry, without a fault; the lane it leaves is at least as long as on entry and exactly
as long when `insert_stop_line_wp_` is false. Whenever `wp_idx + 1` is below the lane
length before a stopline is handled, the accesses `at(wp_idx)` and `at(wp_idx + 1)` are
in range (no fault), `wp_idx + 1` is below the lane length afterwards too, and either
nothing was inserted (same `wp_idx`, same length) or one waypoint was (`wp_idx` and the
length both grew by one), the latter never when `insert_stop_line_wp_` is false; the
loop condition `wp_idx < size() - 1` establishes that bound at every entry of the inner
loop. -/
theorem vmStoplineLoop_terminates (A : Amathutils) (M : MapQueries) (ins : Bool)
    (stoplines : List VMStopLine) (lane : Lane) :
    (lane.waypoints = [] → vmStoplinesOfLane A M ins lane = some lane) ∧
    (lane.waypoints ≠ [] → ∀ fuel, lane.waypoints.length ≤ fuel →
      ∃ wps', vmStoplineOuter A ins stoplines fuel 0 lane.waypoints = some wps' ∧
        lane.waypoints.length ≤ wps'.length ∧
        (ins = false → wps'.length = lane.waypoints.length)) ∧
    (∀ (wp_idx : Nat) (wps : List Waypoint) (stopline : VMStopLine),
      wp_idx + 1 < wps.length →
      ∃ st, vmStoplineStep A ins (wp_idx, wps) stopline = some st ∧
        st.1 + 1 < st.2.length ∧
        ((st.1 = wp_idx ∧ st.2.length = wps.length) ∨
          (st.1 = wp_idx + 1 ∧ st.2.length = wps.length + 1)) ∧
        (ins = false → st.1 = wp_idx ∧ st.2.length = wps.length)) ∧
    (∀ (wp_idx : Nat) (wps : List Waypoint), wps ≠ [] →
      (wp_idx < wps.length - 1 ↔ wp_idx + 1 < wps.length)) := by
  refine ⟨?_, ?_, ?_, ?_⟩
  · intro hemp
    exact vmStoplinesOfLane_nil A M ins lane hemp
  · intro hne fuel hfuel
    obtain ⟨wps', h1, h2, h3⟩ := vmStoplineOuter_total A ins stoplines fuel 0 lane.waypoints
      (List.length_pos.mpr hne) (by omega)
    exact ⟨wps', h1, h3, h2⟩
  · intro wp_idx wps stopline hidx
    obtain ⟨st, h1, h2, h3, h4, h5⟩ := vmStoplineStep_total A ins wp_idx wps stopline hidx
    refine ⟨st, h1, h2, ?_, ?_⟩
    · rcases h5 with h5 | h5
      · left; constructor <;> omega
      · right; constructor <;> omega
    · intro hf
      have := h4 hf
      constructor <;> omega
  · intro wp_idx wps hne
    have := List.length_pos.mpr hne
    omega

theorem vmStoplineLoop_terminates_witness :
    (⟨[wpAt 0 0 0, wpAt 1 10 0]⟩ : Lane).waypoints ≠ [] ∧
    (∃ wps', vmStoplineOuter planeMath true (stopSignStoplines slantedStoplineMap) 2 0
        [wpAt 0 0 0, wpAt 1 10 0] = some wps' ∧ 2 ≤ wps'.length) ∧
    (vmStoplineOuter planeMath true (stopSignStoplines slantedStoplineMap) 2 0
        [wpAt 0 0 0, wpAt 1 10 0]).map List.length = some 3 ∧
    (vmStoplineOuter planeMath false (stopSignStoplines slantedStoplineMap) 2 0
        [wpAt 0 0 0, wpAt 1 10 0]).map List.length = some 2 :=
  ⟨List.cons_ne_nil _ _,
   ((vmStoplineLoop_terminates planeMath slantedStoplineMap true
      (stopSignStoplines slantedStoplineMap) ⟨[wpAt 0 0 0, wpAt 1 10 0]⟩).2.1
        (List.cons_ne_nil _ _) 2 (le_refl _)).imp (fun _ h => ⟨h.1, h.2.1⟩),
   by with_unfolding_all decide, by with_unfolding_all decide⟩

/-! ## Steering labels of the vector-map backend -/

theorem setSteering_fold (area_id : Int) (s : Nat) :
    ∀ (wls : List Waypoint) (lanes : List Lane),
      wls.foldl (fun acc wp_lane => setSteering area_id s wp_lane acc) lanes
        = lanes.map (mapLane (fun w =>
            if (wls.any (fun wl => decide (w.gid = wl.gid)) = true) ∧ w.wpstate.aid = area_id
            then withSteering w s else w)) := by
  intro wls
  induction wls with
  | nil =>
    intro lanes
    simp only [List.foldl_nil, List.any_nil, Bool.false_eq_true, false_and, if_false]
    conv_lhs => rw [← List.map_id lanes]
    apply List.map_congr_left
    intro lane _
    simp [mapLane]
  | cons wl rest ih =>
    intro lanes
    simp only [List.foldl_cons]
    rw [ih]
    unfold setSteering
    rw [List.map_map]
    apply List.map_congr_left
    intro lane _
    simp only [Function.comp, mapLane, List.map_map]
    congr 1
    apply List.map_congr_left
    intro w _
    simp only [Function.comp, List.any_cons, Bool.or_eq_true, decide_eq_true_eq]
    by_cases h1 : w.gid = wl.gid ∧ w.wpstate.aid = area_id
    · have hg : (if w.gid = wl.gid ∧ w.wpstate.aid = area_id then
          ({ w with wpstate.steering_state := s } : Waypoint) else w) = withSteering w s :=
        if_pos h1
      simp only [hg]
      have hc : ((w.gid = wl.gid ∨ rest.any (fun wl => decide (w.gid = wl.gid)) = true) ∧
          w.wpstate.aid = area_id) := ⟨Or.inl h1.1, h1.2⟩
      rw [if_pos hc]
      have hgid : (withSteering w s).gid = w.gid := rfl
      have haid : (withSteering w s).wpstate.aid = w.wpstate.aid := rfl
      simp only [hgid, haid]
      split <;> rfl
    · have hg : (if w.gid = wl.gid ∧ w.wpstate.aid = area_id then
          ({ w with wpstate.steering_state := s } : Waypoint) else w) = w := if_neg h1
      simp only [hg]
      by_cases h2 : rest.any (fun wl => decide (w.gid = wl.gid)) = true ∧
          w.wpstate.aid = area_id
      · rw [if_pos h2, if_pos ⟨Or.inr h2.1, h2.2⟩]
      · rw [if_neg h2, if_neg]
        rintro ⟨h3 | h3, h4⟩
        · exact h1 ⟨h3, h4⟩
        · exact h2 ⟨h3, h4⟩

/-- C25 (as stated) fails: a lane segment that turns by `-39.5` degrees, above the
threshold `ANGLE_LEFT = -40`, is labelled `STR_LEFT` by the vector-map backend, because
the angle is rounded down to `-40` before it is compared. -/
theorem steering_left_above_threshold :
    (∀ laneinArea, halfDegreeMap.calcIntersectWayAngle laneinArea = -79 / 2) ∧
    ¬ ((-79 / 2 : ℚ) ≤ halfDegreeMap.ANGLE_LEFT) ∧
    (annotateOnce planeMath halfDegreeMap crossingNode).map steeringStates
      = some [[STR_LEFT, STR_LEFT]] := by
  refine ⟨fun _ => rfl, ?_, ?_⟩ <;> with_unfolding_all decide

/-- C25 (amended): for a lane segment inside a cross-road area with entry-to-exit angle
`a`, the vector-map backend chooses the steering state from `a` rounded down to whole
degrees: `STR_LEFT` exactly when `⌊a⌋ ≤ ANGLE_LEFT`, `STR_RIGHT` exactly when
`⌊a⌋ ≥ ANGLE_RIGHT` and not `⌊a⌋ ≤ ANGLE_LEFT`, `STR_STRAIGHT` otherwise; and the loops
over the segment give that state to every waypoint of the lane array that has the gid of
a waypoint of the segment and the aid of the area, and change no other waypoint. -/
theorem steering_rule (M : MapQueries) (laneinArea : Lane) (area_id : Int)
    (lanes : List Lane) :
    (steeringOfAngle M laneinArea = STR_LEFT ↔
      ((Int.floor (M.calcIntersectWayAngle laneinArea) : Int) : ℚ) ≤ M.ANGLE_LEFT) ∧
    (steeringOfAngle M laneinArea = STR_RIGHT ↔
      (((Int.floor (M.calcIntersectWayAngle laneinArea) : Int) : ℚ) ≥ M.ANGLE_RIGHT ∧
        ¬ ((Int.floor (M.calcIntersectWayAngle laneinArea) : Int) : ℚ) ≤ M.ANGLE_LEFT)) ∧
    (steeringOfAngle M laneinArea = STR_STRAIGHT ↔
      (¬ ((Int.floor (M.calcIntersectWayAngle laneinArea) : Int) : ℚ) ≤ M.ANGLE_LEFT ∧
        ¬ ((Int.floor (M.calcIntersectWayAngle laneinArea) : Int) : ℚ) ≥ M.ANGLE_RIGHT)) ∧
    laneinArea.waypoints.foldl
        (fun acc wp_lane => setSteering area_id (steeringOfAngle M laneinArea) wp_lane acc)
        lanes
      = lanes.map (mapLane (fun w =>
          if (laneinArea.waypoints.any (fun wl => decide (w.gid = wl.gid)) = true) ∧
              w.wpstate.aid = area_id
          then withSteering w (steeringOfAngle M laneinArea) else w)) := by
  refine ⟨?_, ?_, ?_, setSteering_fold area_id _ laneinArea.waypoints lanes⟩
  · unfold steeringOfAngle
    simp only []
    by_cases hl : ((Int.floor (M.calcIntersectWayAngle laneinArea) : Int) : ℚ) ≤ M.ANGLE_LEFT
    · rw [if_pos hl]
      exact ⟨fun _ => hl, fun _ => rfl⟩
    · rw [if_neg hl]
      constructor
      · intro h
        split at h
        · exact absurd h (by decide)
        · exact absurd h (by decide)
      · intro h
        exact absurd h hl
  · unfold steeringOfAngle
    simp only []
    by_cases hl : ((Int.floor (M.calcIntersectWayAngle laneinArea) : Int) : ℚ) ≤ M.ANGLE_LEFT
    · rw [if_pos hl]
      exact ⟨fun h => absurd h (by decide), fun h => absurd hl h.2⟩
    · rw [if_neg hl]
      by_cases hr : ((Int.floor (M.calcIntersectWayAngle laneinArea) : Int) : ℚ)
          ≥ M.ANGLE_RIGHT
      · rw [if_pos hr]
        exact ⟨fun _ => ⟨hr, hl⟩, fun _ => rfl⟩
      · rw [if_neg hr]
        exact ⟨fun h => absurd h (by decide), fun h => absurd h.1 hr⟩
  · unfold steeringOfAngle
    simp only []
    by_cases hl : ((Int.floor (M.calcIntersectWayAngle laneinArea) : Int) : ℚ) ≤ M.ANGLE_LEFT
    · rw [if_pos hl]
      exact ⟨fun h => absurd h (by decide), fun h => absurd hl h.1⟩
    · rw [if_neg hl]
      by_cases hr : ((Int.floor (M.calcIntersectWayAngle laneinArea) : Int) : ℚ)
          ≥ M.ANGLE_RIGHT
      · rw [if_pos hr]
        exact ⟨fun h => absurd h (by decide), fun h => absurd hr h.2⟩
      · rw [if_neg hr]
        exact ⟨fun _ => ⟨hl, hr⟩, fun _ => rfl⟩

/-! ## The nearest waypoint of the mission check -/

theorem reindexWaypoints_nearest (A : Amathutils) (position : Point) :
    ∀ (wps : List Waypoint) (gid lid : Int) (best : ℚ × Pose),
      (reindexWaypoints A position wps gid lid best).2.2 = nearestOf A position wps best ∧
      (reindexWaypoints A position wps gid lid best).1.map Waypoint.pose
        = wps.map Waypoint.pose := by
  intro wps
  induction wps with
  | nil => intro gid lid best; exact ⟨rfl, rfl⟩
  | cons wp rest ih =>
    intro gid lid best
    obtain ⟨h1, h2⟩ := ih (gid + 1) (lid + 1)
      (if best.1 > A.find_distance position wp.pose.position
        then (A.find_distance position wp.pose.position, wp.pose) else best)
    refine ⟨?_, ?_⟩
    · simp only [reindexWaypoints, nearestOf]
      exact h1
    · simp only [reindexWaypoints, List.map_cons]
      rw [h2]

theorem nearestOf_append (A : Amathutils) (position : Point) :
    ∀ (l₁ l₂ : List Waypoint) (best : ℚ × Pose),
      nearestOf A position (l₁ ++ l₂) best
        = nearestOf A position l₂ (nearestOf A position l₁ best) := by
  intro l₁
  induction l₁ with
  | nil => intro l₂ best; rfl
  | cons w rest ih =>
    intro l₂ best
    simp only [List.cons_append, nearestOf]
    exact ih _ _

theorem reindexLanes_nearest (A : Amathutils) (position : Point) :
    ∀ (lanes : List Lane) (gid : Int) (best : ℚ × Pose),
      (reindexLanes A position lanes gid best).2.2
        = nearestOf A position (allWaypoints lanes) best ∧
      (allWaypoints (reindexLanes A position lanes gid best).1).map Waypoint.pose
        = (allWaypoints lanes).map Waypoint.pose := by
  intro lanes
  induction lanes with
  | nil => intro gid best; exact ⟨rfl, rfl⟩
  | cons lane rest ih =>
    intro gid best
    obtain ⟨w1, w2⟩ := reindexWaypoints_nearest A position lane.waypoints gid 0 best
    obtain ⟨h1, h2⟩ := ih (reindexWaypoints A position lane.waypoints gid 0 best).2.1
      (reindexWaypoints A position lane.waypoints gid 0 best).2.2
    have hcons : ∀ (l : Lane) (ls : List Lane),
        allWaypoints (l :: ls) = l.waypoints ++ allWaypoints ls := fun _ _ => rfl
    refine ⟨?_, ?_⟩
    · simp only [reindexLanes]
      rw [h1, w1, hcons, nearestOf_append]
    · simp only [reindexLanes]
      rw [hcons, hcons, List.map_append, List.map_append, w2, h2]

theorem nearestOf_spec (A : Amathutils) (position : Point) :
    ∀ (l : List Waypoint) (best : ℚ × Pose),
      (nearestOf A position l best).1 ≤ best.1 ∧
      (∀ w ∈ l, (nearestOf A position l best).1 ≤ A.find_distance position w.pose.position) ∧
      (nearestOf A position l best = best ∨
        ∃ w ∈ l, nearestOf A position l best
            = (A.find_distance position w.pose.position, w.pose) ∧
          A.find_distance position w.pose.position < best.1) := by
  intro l
  induction l with
  | nil =>
    intro best
    exact ⟨le_refl _, fun w hw => by simp at hw, Or.inl rfl⟩
  | cons wp rest ih =>
    intro best
    simp only [nearestOf]
    by_cases hc : best.1 > A.find_distance position wp.pose.position
    · rw [if_pos hc]
      obtain ⟨h1, h2, h3⟩ := ih (A.find_distance position wp.pose.position, wp.pose)
      simp only [] at h1 h3
      refine ⟨le_trans h1 (le_of_lt hc), ?_, ?_⟩
      · intro w hw
        rcases List.mem_cons.mp hw with rfl | hw
        · exact h1
        · exact h2 w hw
      · right
        rcases h3 with h3 | ⟨w, hw, heq, hlt⟩
        · exact ⟨wp, List.mem_cons_self _ _, h3, hc⟩
        · exact ⟨w, List.mem_cons_of_mem _ hw, heq, lt_trans hlt hc⟩
    · rw [if_neg hc]
      obtain ⟨h1, h2, h3⟩ := ih best
      refine ⟨h1, ?_, ?_⟩
      · intro w hw
        rcases List.mem_cons.mp hw with rfl | hw
        · exact le_trans h1 (not_lt.mp hc)
        · exact h2 w hw
      · rcases h3 with h3 | ⟨w, hw, heq, hlt⟩
        · exact Or.inl h3
        · exact Or.inr ⟨w, List.mem_cons_of_mem _ hw, heq, hlt⟩

/-- C26: for a vehicle 200 m before the first waypoint of the mission every waypoint is
at least 200 m away, but the `min_dist` that `drivingMissionCheck` compares with the
threshold is 100, the value the local starts with, and no waypoint has the pose the
heading deviation is measured against; with a distance threshold of 100 the mission is
accepted. -/
theorem min_dist_capped :
    (missionDeviation planeMath oneStoplineMap remoteNode).map (fun r => r.2.1) = some 100 ∧
    (missionDeviation planeMath oneStoplineMap remoteNode).map (fun r => r.1)
      = some remoteChecked ∧
    (∀ w ∈ allWaypoints remoteChecked.current_status_.based_lane_array.lanes,
      200 ≤ planeMath.find_distance remoteNode.current_status_.pose.position w.pose.position) ∧
    (∀ w ∈ allWaypoints remoteChecked.current_status_.based_lane_array.lanes,
      w.pose ≠ zeroPose) ∧
    (drivingMissionCheck planeMath oneStoplineMap remoteLenientNode).map Prod.fst
      = some true := by
  refine ⟨?_, ?_, ?_, ?_, ?_⟩ <;> with_unfolding_all decide

/-- What the last loop of `drivingMissionCheck` leaves in its locals, as the code is
written: `min_dist` is at most its start value 100 and at most the distance of every
waypoint of `based_lane_array`; when some waypoint is nearer than 100 it is the distance
of a waypoint of the array, whose pose the heading deviation is measured against; when
none is, it is still 100 and `nearest_wp_pose` is still default-constructed. -/
theorem missionDeviation_nearest (A : Amathutils) (M : MapQueries)
    (n n5 : DecisionMakerNode) (min_dist angle_diff_degree : ℚ)
    (h : missionDeviation A M n = some (n5, min_dist, angle_diff_degree)) :
    min_dist ≤ 100 ∧
    (∀ w ∈ allWaypoints n5.current_status_.based_lane_array.lanes,
      min_dist ≤ A.find_distance n.current_status_.pose.position w.pose.position) ∧
    ((∃ w ∈ allWaypoints n5.current_status_.based_lane_array.lanes,
        A.find_distance n.current_status_.pose.position w.pose.position < 100) →
      ∃ w ∈ allWaypoints n5.current_status_.based_lane_array.lanes,
        A.find_distance n.current_status_.pose.position w.pose.position = min_dist ∧
        angle_diff_degree = |A.calcPosesAngleDiffDeg n.current_status_.pose w.pose|) ∧
    ((∀ w ∈ allWaypoints n5.current_status_.based_lane_array.lanes,
        100 ≤ A.find_distance n.current_status_.pose.position w.pose.position) →
      min_dist = 100 ∧
      angle_diff_degree = |A.calcPosesAngleDiffDeg n.current_status_.pose zeroPose|) := by
  obtain ⟨_, _, _, hpose, _⟩ := missionDeviation_frame A M n n5 min_dist angle_diff_degree h
  unfold missionDeviation at h
  cases hann : annotatePass A M (resetPass n) with
  | none => rw [hann] at h; exact Option.noConfusion h
  | some n4 =>
    rw [hann] at h
    simp only [] at h
    injection h with h
    injection h with hn5 hrest
    injection hrest with hmin hangle
    have hpose4 : n4.current_status_.pose = n.current_status_.pose := by
      rw [← hpose, ← hn5]
    rw [hpose4] at hn5 hmin hangle
    obtain ⟨hbest, hposes⟩ := reindexLanes_nearest A n.current_status_.pose.position
      n4.current_status_.based_lane_array.lanes 0 (100, zeroPose)
    obtain ⟨s1, s2, s3⟩ := nearestOf_spec A n.current_status_.pose.position
      (allWaypoints n4.current_status_.based_lane_array.lanes) (100, zeroPose)
    have hlanes : n5.current_status_.based_lane_array.lanes
        = (reindexLanes A n.current_status_.pose.position
            n4.current_status_.based_lane_array.lanes 0 (100, zeroPose)).1 := by
      rw [← hn5]
    have hto4 : ∀ w ∈ allWaypoints n5.current_status_.based_lane_array.lanes,
        ∃ w4 ∈ allWaypoints n4.current_status_.based_lane_array.lanes, w4.pose = w.pose := by
      intro w hw
      rw [hlanes] at hw
      have hm : w.pose ∈ (allWaypoints (reindexLanes A n.current_status_.pose.position
          n4.current_status_.based_lane_array.lanes 0 (100, zeroPose)).1).map Waypoint.pose :=
        List.mem_map.mpr ⟨w, hw, rfl⟩
      rw [hposes] at hm
      obtain ⟨w4, hw4, he⟩ := List.mem_map.mp hm
      exact ⟨w4, hw4, he⟩
    have hto5 : ∀ w4 ∈ allWaypoints n4.current_status_.based_lane_array.lanes,
        ∃ w ∈ allWaypoints n5.current_status_.based_lane_array.lanes, w.pose = w4.pose := by
      intro w4 hw4
      have hm : w4.pose ∈ (allWaypoints n4.current_status_.based_lane_array.lanes).map
          Waypoint.pose := List.mem_map.mpr ⟨w4, hw4, rfl⟩
      rw [← hposes] at hm
      obtain ⟨w, hw, he⟩ := List.mem_map.mp hm
      rw [← hlanes] at hw
      exact ⟨w, hw, he⟩
    rw [hbest] at hmin hangle
    refine ⟨?_, ?_, ?_, ?_⟩
    · rw [← hmin]
      exact s1
    · intro w hw
      obtain ⟨w4, hw4, he⟩ := hto4 w hw
      rw [← hmin, ← he]
      exact s2 w4 hw4
    · rintro ⟨w, hw, hlt⟩
      obtain ⟨w4, hw4, he⟩ := hto4 w hw
      rcases s3 with s3 | ⟨v4, hv4, heq, _⟩
      · exfalso
        have := s2 w4 hw4
        rw [s3, he] at this
        simp only [] at this
        exact absurd hlt (not_lt.mpr this)
      · obtain ⟨v, hv, hev⟩ := hto5 v4 hv4
        refine ⟨v, hv, ?_, ?_⟩
        · rw [← hmin, heq, hev]
        · rw [← hangle, heq, hev]
    · intro hall
      rcases s3 with s3 | ⟨v4, hv4, heq, hlt⟩
      · rw [← hmin, ← hangle, s3]
        exact ⟨rfl, rfl⟩
      · exfalso
        obtain ⟨v, hv, hev⟩ := hto5 v4 hv4
        have := hall v hv
        rw [hev] at this
        simp only [] at hlt
        exact absurd hlt (not_lt.mpr this)

theorem missionDeviation_nearest_witness :
    missionDeviation planeMath oneStoplineMap boundaryNode = some (boundaryChecked, 15, 0) ∧
    ∃ w ∈ allWaypoints boundaryChecked.current_status_.based_lane_array.lanes,
      planeMath.find_distance boundaryNode.current_status_.pose.position w.pose.position = 15 ∧
      (0 : ℚ) = |planeMath.calcPosesAngleDiffDeg boundaryNode.current_status_.pose w.pose| :=
  ⟨by with_unfolding_all decide,
   (missionDeviation_nearest planeMath oneStoplineMap boundaryNode boundaryChecked 15 0
      (by with_unfolding_all decide)).2.2.1
     ⟨(allWaypoints boundaryChecked.current_status_.based_lane_array.lanes).headD (wpAt 0 0 0),
      by with_unfolding_all decide, by with_unfolding_all decide⟩⟩

end decision_maker
